import Mathlib

/-!
# MITK: level-window and editable-contour core

A shallow embedding of

* `Core/DataStructures/mitkLevelWindow.cpp` (class `mitk::LevelWindow`), and
* `Modules/Segmentation/Interactions/mitkEditableContourTool.cpp`
  (class `mitk::EditableContourTool`),

followed by theorems about the embedded code.

`mitk::ScalarType` is embedded as an arbitrary linearly ordered field `S`
(exact arithmetic); concrete evaluations are carried out at `S = ℚ`.
-/

set_option autoImplicit false
set_option linter.unusedVariables false
set_option linter.unusedSectionVars false

namespace mitk

/-! ## LevelWindow: data model -/

/-- The nine data members of `mitk::LevelWindow`. -/
structure LevelWindow (S : Type) where
  m_Min : S
  m_Max : S
  m_RangeMin : S
  m_RangeMax : S
  m_DefaultRangeMin : S
  m_DefaultRangeMax : S
  m_DefaultLevel : S
  m_DefaultWindow : S
  m_Fixed : Bool
  deriving DecidableEq, Repr

/-- Pixel type identifiers of the pic library (`ipPicType_t`); `SetAuto` only
tests for `ipPicInt`. -/
inductive ipPicType_t where
  | ipPicUnknown
  | ipPicBool
  | ipPicASCII
  | ipPicInt
  | ipPicUInt
  | ipPicFloat
  | ipPicNonUniform
  | ipPicTSV
  deriving DecidableEq, Repr

/-- What `SetAuto` reads of `mitk::PixelType`: `GetType()` and `GetBpe()`. -/
structure PixelType where
  type : ipPicType_t
  bpe : Nat
  deriving DecidableEq, Repr

/-- What `SetAutoByPicTags` reads of an `ipPicDescriptor`: the result of
`ipPicQueryTag(pic, "LEVEL/WINDOW")`, a pair `(level, window)` when the tag is
present. -/
structure ipPicDescriptor (S : Type) where
  levelWindowTag : Option (S × S)
  deriving DecidableEq, Repr

/-- What `SetAuto` reads of one `mitk::Image` object: the initialisation flag,
the four extremal scalar values, the counts of minimal and maximal voxels, the
dimensions, the pixel type and the pic descriptor (`GetPic()`, `none` for a
null pointer). -/
structure ImageData (S : Type) where
  initialized : Bool
  scalarValueMin : S
  scalarValueMax : S
  scalarValue2ndMin : S
  scalarValue2ndMax : S
  countOfMinValuedVoxels : Nat
  countOfMaxValuedVoxels : Nat
  dimension : Nat
  dimensions : List Nat
  pixelType : PixelType
  pic : Option (ipPicDescriptor S)
  deriving DecidableEq, Repr

/-- An `mitk::Image` as seen by `SetAuto`: the data of the whole image and the
data of the output of the `ImageSliceSelector` positioned on the central slice,
time step and channel. -/
structure Image (S : Type) where
  whole : ImageData S
  centralSlice : ImageData S
  deriving DecidableEq, Repr

namespace LevelWindow

variable {S : Type} [LinearOrderedField S]

/-! ## LevelWindow: operations -/

/-- Constructor `LevelWindow(level, window)`. -/
def ctor (level window : S) : LevelWindow S :=
  { m_Min := level - window / 2
    m_Max := level + window / 2
    m_RangeMin := -2048
    m_RangeMax := 4096
    m_DefaultRangeMin := -2048
    m_DefaultRangeMax := 4096
    m_DefaultLevel := level
    m_DefaultWindow := window
    m_Fixed := false }

/-- Body of `GetLevel`. -/
def GetLevel (lw : LevelWindow S) : S := (lw.m_Max - lw.m_Min) / 2 + lw.m_Min

/-- Body of `GetWindow`. -/
def GetWindow (lw : LevelWindow S) : S := lw.m_Max - lw.m_Min

def GetDefaultLevel (lw : LevelWindow S) : S := lw.m_DefaultLevel

def GetDefaultWindow (lw : LevelWindow S) : S := lw.m_DefaultWindow

def GetMin (lw : LevelWindow S) : S := lw.m_Min

def GetMax (lw : LevelWindow S) : S := lw.m_Max

def GetRangeMin (lw : LevelWindow S) : S := lw.m_RangeMin

def GetRangeMax (lw : LevelWindow S) : S := lw.m_RangeMax

def GetRange (lw : LevelWindow S) : S := lw.m_RangeMax - lw.m_RangeMin

def GetDefaultRangeMax (lw : LevelWindow S) : S := lw.m_DefaultRangeMax

def GetDefaultRangeMin (lw : LevelWindow S) : S := lw.m_DefaultRangeMin

def SetFixed (lw : LevelWindow S) (isFixed : Bool) : LevelWindow S :=
  { lw with m_Fixed := isFixed }

def GetFixed (lw : LevelWindow S) : Bool := lw.m_Fixed

def IsFixed (lw : LevelWindow S) : Bool := lw.m_Fixed

/-- Modelled from the spec: `testValues`, the inline consistency check declared
in `mitkLevelWindow.h`, a header outside the embedded files. It
swaps `m_Min` and `m_Max` when `m_Min > m_Max` and otherwise sets
`m_Min = m_Max - 1` when the two are equal. -/
def testValues (lw : LevelWindow S) : LevelWindow S :=
  if lw.m_Min > lw.m_Max then
    { lw with m_Min := lw.m_Max, m_Max := lw.m_Min }
  else if lw.m_Min = lw.m_Max then
    { lw with m_Min := lw.m_Max - 1 }
  else lw

/-- Body of `SetDefaultLevelWindow`. -/
def SetDefaultLevelWindow (lw : LevelWindow S) (level window : S) : LevelWindow S :=
  if lw.IsFixed then lw
  else { lw with m_DefaultLevel := level, m_DefaultWindow := window }

/-- Body of `SetLevelWindow`. -/
def SetLevelWindow (lw : LevelWindow S) (level window : S) : LevelWindow S :=
  if lw.IsFixed then lw
  else testValues { lw with m_Min := level - window / 2, m_Max := level + window / 2 }

/-- Body of `ResetDefaultLevelWindow`. -/
def ResetDefaultLevelWindow (lw : LevelWindow S) : LevelWindow S :=
  if lw.IsFixed then lw
  else lw.SetLevelWindow lw.m_DefaultLevel lw.m_DefaultWindow

/-- Body of `SetMinMax`; `lo`/`hi` are the parameters after the conditional
`std::swap`, the four re-bindings are the four clamping statements. -/
def SetMinMax (lw : LevelWindow S) (min max : S) : LevelWindow S :=
  if lw.IsFixed then lw
  else
    let lo := if min > max then max else min
    let hi := if min > max then min else max
    let m_Min := lo
    let m_Max := hi
    let m_Min := if m_Min < lw.m_RangeMin then lw.m_RangeMin else m_Min
    let m_Min := if m_Min ≥ lw.m_RangeMax then lw.m_RangeMax - 1 else m_Min
    let m_Max := if m_Max > lw.m_RangeMax then lw.m_RangeMax else m_Max
    let m_Max := if m_Max ≤ lw.m_RangeMin then lw.m_RangeMin + 1 else m_Max
    testValues { lw with m_Min := m_Min, m_Max := m_Max }

/-- Body of `SetToMaxWindowSize` (the source has no `IsFixed` test here). -/
def SetToMaxWindowSize (lw : LevelWindow S) : LevelWindow S :=
  { lw with m_Max := lw.m_RangeMax, m_Min := lw.m_RangeMin }

/-- Body of `SetRangeMinMax`. -/
def SetRangeMinMax (lw : LevelWindow S) (min max : S) : LevelWindow S :=
  if lw.IsFixed then lw
  else
    let lo := if min > max then max else min
    let hi := if min > max then min else max
    let m_RangeMin := lo
    let m_RangeMax := hi
    let m_RangeMin := if m_RangeMin = m_RangeMax then m_RangeMax - 1 else m_RangeMin
    let m_Min := lw.m_Min
    let m_Max := lw.m_Max
    let m_Min := if m_Min < m_RangeMin then m_RangeMin else m_Min
    let m_Min := if m_Min ≥ m_RangeMax then m_RangeMax - 1 else m_Min
    let m_Max := if m_Max > m_RangeMax then m_RangeMax else m_Max
    let m_Max := if m_Max ≤ m_RangeMin then m_RangeMin + 1 else m_Max
    testValues { lw with m_RangeMin := m_RangeMin, m_RangeMax := m_RangeMax,
                         m_Min := m_Min, m_Max := m_Max }

/-- Body of `SetDefaultRangeMinMax`. -/
def SetDefaultRangeMinMax (lw : LevelWindow S) (min max : S) : LevelWindow S :=
  if lw.IsFixed then lw
  else
    let lo := if min > max then max else min
    let hi := if min > max then min else max
    let m_DefaultRangeMin := lo
    let m_DefaultRangeMax := hi
    let m_DefaultRangeMin :=
      if m_DefaultRangeMin = m_DefaultRangeMax then m_DefaultRangeMax - 1 else m_DefaultRangeMin
    { lw with m_DefaultRangeMin := m_DefaultRangeMin, m_DefaultRangeMax := m_DefaultRangeMax }

/-- Body of `ResetDefaultRangeMinMax`. -/
def ResetDefaultRangeMinMax (lw : LevelWindow S) : LevelWindow S :=
  lw.SetRangeMinMax lw.m_DefaultRangeMin lw.m_DefaultRangeMax

/-- Body of `SetAutoByPicTags`: the returned flag and the state afterwards.
`aPic = none` is the null descriptor. -/
def SetAutoByPicTags (lw : LevelWindow S) (aPic : Option (ipPicDescriptor S)) :
    Bool × LevelWindow S :=
  if lw.IsFixed then (false, lw)
  else
    match aPic with
    | none => (false, lw)
    | some pic =>
      match pic.levelWindowTag with
      | some (level, window) =>
        let min := lw.GetRangeMin
        let max := lw.GetRangeMax
        let min := if lw.GetRangeMin > level - window / 2 then level - window / 2 else min
        let max := if lw.GetRangeMax < level + window / 2 then level + window / 2 else max
        let lw := lw.SetRangeMinMax min max
        let lw := lw.SetDefaultRangeMinMax min max
        let lw := lw.SetLevelWindow level window
        let lw := lw.SetDefaultLevelWindow level window
        (true, lw)
      | none => (false, lw)

/-- The loop `n = dims[0]; for k < dimension: n *= dims[k]` of `SetAuto`, in
`unsigned int` arithmetic. -/
def numPixels (img : ImageData S) : Nat :=
  (List.range img.dimension).foldl
    (fun n k => (n * img.dimensions.getD k 0) % 2 ^ 32)
    (img.dimensions.getD 0 0 % 2 ^ 32)

/-- Body of `SetAuto`. `image = none` is the null pointer. The two count
fractions are computed as in the source; nothing after their computation
reads them. -/
def SetAuto (lw : LevelWindow S) (image : Option (Image S))
    (tryPicTags guessByCentralSlice : Bool) : LevelWindow S :=
  if lw.IsFixed then lw
  else
    match image with
    | none => lw
    | some img =>
      let wholeImage := img.whole
      let image := if guessByCentralSlice then img.centralSlice else img.whole
      if !image.initialized then lw
      else
        let minValue := image.scalarValueMin
        let maxValue := image.scalarValueMax
        let min2ndValue := image.scalarValue2ndMin
        let max2ndValue := image.scalarValue2ndMax
        let numPixelsInSlice := numPixels image
        let minCount := image.countOfMinValuedVoxels
        let maxCount := image.countOfMaxValuedVoxels
        let minCountFraction : S := (minCount : S) / (numPixelsInSlice : S)
        let maxCountFraction : S := (maxCount : S) / (numPixelsInSlice : S)
        let rescan := decide (minValue = maxValue)
        let minValue := if rescan then wholeImage.scalarValueMin else minValue
        let maxValue := if rescan then wholeImage.scalarValueMax else maxValue
        let min2ndValue := if rescan then wholeImage.scalarValue2ndMin else min2ndValue
        let max2ndValue := if rescan then wholeImage.scalarValue2ndMax else max2ndValue
        let minCountFraction : S :=
          if rescan then (image.countOfMinValuedVoxels : S) / (numPixels image : S)
          else minCountFraction
        let maxCountFraction : S :=
          if rescan then (image.countOfMaxValuedVoxels : S) / (numPixels image : S)
          else maxCountFraction
        -- fix for bug 344
        let minValue :=
          if image.pixelType.type = ipPicType_t.ipPicInt ∧ image.pixelType.bpe ≥ 8 then
            if minValue = -((2 : S) ^ image.pixelType.bpe / 2) then min2ndValue else minValue
          else minValue
        -- uniform image
        let uniform := decide (minValue = maxValue)
        let minValue := if uniform then maxValue - 1 else minValue
        let lw := if uniform then
            (lw.SetRangeMinMax minValue maxValue).SetDefaultRangeMinMax minValue maxValue
          else lw
        let lw := lw.SetRangeMinMax minValue maxValue
        let lw := lw.SetDefaultRangeMinMax minValue maxValue
        let lw := lw.SetMinMax minValue maxValue
        let lw := lw.SetDefaultLevelWindow ((maxValue - minValue) / 2 + minValue)
                    (maxValue - minValue)
        if tryPicTags then (lw.SetAutoByPicTags image.pic).2
        else lw

/-- Body of `operator==`. -/
def opEq (lw levWin : LevelWindow S) : Bool :=
  if lw.m_RangeMin = levWin.GetRangeMin ∧
     lw.m_RangeMax = levWin.GetRangeMax ∧
     lw.m_Min = levWin.GetMin ∧ lw.m_Max = levWin.GetMax ∧
     lw.m_DefaultLevel = levWin.GetDefaultLevel ∧
     lw.m_DefaultWindow = levWin.GetDefaultWindow ∧
     lw.m_DefaultRangeMin = levWin.GetDefaultRangeMin ∧
     lw.m_DefaultRangeMax = levWin.GetDefaultRangeMax ∧
     lw.m_Fixed = levWin.IsFixed then true
  else false

/-- Body of `operator!=`. -/
def opNe (lw levWin : LevelWindow S) : Bool := !(lw.opEq levWin)

/-- Body of `operator=`: the state of `*this` after `*this = levWin`. When
both names denote the same object nothing is written, which yields the same
state as copying every member. -/
def assign (lw levWin : LevelWindow S) : LevelWindow S :=
  { lw with
    m_RangeMin := levWin.GetRangeMin
    m_RangeMax := levWin.GetRangeMax
    m_Min := levWin.GetMin
    m_Max := levWin.GetMax
    m_DefaultLevel := levWin.GetDefaultLevel
    m_DefaultWindow := levWin.GetDefaultWindow
    m_DefaultRangeMin := levWin.GetDefaultRangeMin
    m_DefaultRangeMax := levWin.GetDefaultRangeMax
    m_Fixed := levWin.GetFixed }

/-- The states of a `LevelWindow` object that can be reached from the
constructor by calls of its public operations. -/
inductive Reachable : LevelWindow S → Prop where
  | ctor (level window : S) : Reachable (LevelWindow.ctor level window)
  | SetLevelWindow {lw : LevelWindow S} (level window : S) :
      Reachable lw → Reachable (lw.SetLevelWindow level window)
  | SetMinMax {lw : LevelWindow S} (min max : S) :
      Reachable lw → Reachable (lw.SetMinMax min max)
  | SetRangeMinMax {lw : LevelWindow S} (min max : S) :
      Reachable lw → Reachable (lw.SetRangeMinMax min max)
  | SetDefaultRangeMinMax {lw : LevelWindow S} (min max : S) :
      Reachable lw → Reachable (lw.SetDefaultRangeMinMax min max)
  | SetDefaultLevelWindow {lw : LevelWindow S} (level window : S) :
      Reachable lw → Reachable (lw.SetDefaultLevelWindow level window)
  | ResetDefaultLevelWindow {lw : LevelWindow S} :
      Reachable lw → Reachable lw.ResetDefaultLevelWindow
  | ResetDefaultRangeMinMax {lw : LevelWindow S} :
      Reachable lw → Reachable lw.ResetDefaultRangeMinMax
  | SetAutoByPicTags {lw : LevelWindow S} (aPic : Option (ipPicDescriptor S)) :
      Reachable lw → Reachable (lw.SetAutoByPicTags aPic).2
  | SetAuto {lw : LevelWindow S} (image : Option (Image S)) (tryPicTags guessByCentralSlice : Bool) :
      Reachable lw → Reachable (lw.SetAuto image tryPicTags guessByCentralSlice)
  | SetToMaxWindowSize {lw : LevelWindow S} :
      Reachable lw → Reachable lw.SetToMaxWindowSize
  | SetFixed {lw : LevelWindow S} (isFixed : Bool) :
      Reachable lw → Reachable (lw.SetFixed isFixed)
  | assign {lw levWin : LevelWindow S} :
      Reachable lw → Reachable levWin → Reachable (lw.assign levWin)

end LevelWindow

/-! ## EditableContourTool: data model -/

/-- Modelled from the spec: a vertex of `mitk::ContourModel` (a class outside the
embedded files): a point together with its control-point flag. -/
structure ContourModelVertex (Point : Type) where
  Coordinates : Point
  IsControlPoint : Bool
  deriving DecidableEq, Repr

/-- Modelled from the spec: `mitk::ContourModel` (a class outside the embedded
files) as created by `CreateNewContour`, i.e. with a single time step: the
ordered sequence of its vertices and its closed flag. -/
structure ContourModel (Point : Type) where
  vertices : List (ContourModelVertex Point)
  closed : Bool
  deriving DecidableEq, Repr

namespace ContourModel

variable {Point : Type}

/-- Modelled from the spec: `ContourModel::New()`, the empty open contour. -/
def New : ContourModel Point := { vertices := [], closed := false }

/-- Modelled from the spec: `GetNumberOfVertices()`, an `int`. -/
def GetNumberOfVertices (c : ContourModel Point) : Int := c.vertices.length

/-- Modelled from the spec: `IsEmpty()`. -/
def IsEmpty (c : ContourModel Point) : Bool := c.vertices.isEmpty

/-- Modelled from the spec: `AddVertex(vertex, isControlPoint)` appends a
vertex at the end of the sequence. -/
def AddVertex (c : ContourModel Point) (vertex : Point) (isControlPoint : Bool) :
    ContourModel Point :=
  { c with vertices := c.vertices ++ [{ Coordinates := vertex, IsControlPoint := isControlPoint }] }

/-- Modelled from the spec: `AddVertexAtFront(vertex)` inserts a non-control
vertex before the first one. -/
def AddVertexAtFront (c : ContourModel Point) (vertex : Point) : ContourModel Point :=
  { c with vertices := { Coordinates := vertex, IsControlPoint := false } :: c.vertices }

/-- Modelled from the spec: `GetVertexAt(index)`; the null pointer (`none`)
when the index designates no vertex. -/
def GetVertexAt (c : ContourModel Point) (index : Int) : Option (ContourModelVertex Point) :=
  if index < 0 then none else c.vertices.get? index.toNat

/-- Modelled from the spec: `RemoveVertexAt(index)` as a list operation;
nothing is removed when the index designates no vertex. -/
def RemoveVertexAt (c : ContourModel Point) (index : Int) : ContourModel Point :=
  if index < 0 then c else { c with vertices := c.vertices.eraseIdx index.toNat }

/-- Modelled from the spec: `SetControlVertexAt(index)` as a list operation:
the designated vertex gets its control flag set; nothing changes when the
index designates no vertex. -/
def SetControlVertexAt (c : ContourModel Point) (index : Int) : ContourModel Point :=
  if index < 0 then c
  else
    { c with vertices :=
        c.vertices.modify (fun v => { v with IsControlPoint := true }) index.toNat }

/-- Modelled from the spec: `Concatenate(other)` appends copies of all
vertices of `other`. -/
def Concatenate (c other : ContourModel Point) : ContourModel Point :=
  { c with vertices := c.vertices ++ other.vertices }

/-- Modelled from the spec: `Close(timestep)`; only time step `0` exists. -/
def Close (c : ContourModel Point) (timestep : Nat) : ContourModel Point :=
  if timestep = 0 then { c with closed := true } else c

/-- Modelled from the spec: `GetTimeSteps()` of a contour made by
`CreateNewContour`. -/
def GetTimeSteps (c : ContourModel Point) : Nat := 1

/-- Modelled from the spec: `Clone()`. -/
def Clone (c : ContourModel Point) : ContourModel Point := c

/-- The coordinates of the control vertices, in contour order. -/
def controlPoints (c : ContourModel Point) : List Point :=
  (c.vertices.filter (fun v => v.IsControlPoint)).map (fun v => v.Coordinates)

end ContourModel

/-- Modelled from the spec: the constant `mitk::sqrteps` (declared outside the
embedded files), the square root of the double-precision machine epsilon
`2^-52`. -/
def sqrteps : ℚ := 1 / 2 ^ 26

/-- What the tool reads of a `PlaneGeometry`: `DistanceFromPlane`. -/
structure PlaneGeometry (Point : Type) where
  DistanceFromPlane : Point → ℚ

/-- What the tool reads of the data of a node: `GetGeometry()->IsInside`. -/
structure BaseData (Point : Type) where
  IsInside : Point → Bool

/-- What the tool reads and writes of a helper `DataNode`: its visibility. -/
structure DataNode where
  visible : Bool
  deriving DecidableEq, Repr

/-- An `InteractionEvent`: either an `InteractionPositionEvent`, carrying the
position in world coordinates and the current world plane geometry of the
sending renderer, or an event of another class (for which the
`dynamic_cast` yields the null pointer). -/
inductive InteractionEvent (Point : Type) where
  | position (positionInWorld : Point) (senderPlane : PlaneGeometry Point)
  | other

/-- How a handler can fail: by dereferencing a null pointer, or by the
exception thrown with `mitkThrow()` in `CreateNewContour`. -/
inductive ToolError where
  | nullDereference
  | exception
  deriving DecidableEq, Repr

/-- The state of an `mitk::EditableContourTool`: its data members, followed by
the parts of its environment that the handlers read or write: the working data
node of the tool manager (`none`: no node; `some none`: a node without data),
the reference data, the contours handed to `WriteBackSegmentationResults`, and
the number of calls of `ResetToStartState`. -/
structure EditableContourTool (Point : Type) where
  m_Contour : Option (ContourModel Point)
  m_ContourNode : Option DataNode
  m_PreviewContour : Option (ContourModel Point)
  m_PreviewContourNode : Option DataNode
  m_ClosureContour : Option (ContourModel Point)
  m_ClosureContourNode : Option DataNode
  m_CurrentRestrictedArea : Option (ContourModel Point)
  m_RestrictedAreas : List (ContourModel Point)
  m_PlaneGeometry : Option (PlaneGeometry Point)
  workingDataNode : Option (Option (BaseData Point))
  referenceData : Option (BaseData Point)
  writtenBack : List (ContourModel Point)
  resetToStartStateCalls : Nat

namespace EditableContourTool

variable {Point : Type}

/-! ## EditableContourTool: operations -/

/-- Dereferencing a smart pointer: an error when it is null. -/
def deref {α : Type} (p : Option α) : Except ToolError α :=
  match p with
  | some a => pure a
  | none => throw ToolError.nullDereference

/-- The tool before the first event: no contour, no plane, bound to the given
working data node and reference data. -/
def idle (workingDataNode : Option (Option (BaseData Point)))
    (referenceData : Option (BaseData Point)) : EditableContourTool Point :=
  { m_Contour := none
    m_ContourNode := none
    m_PreviewContour := none
    m_PreviewContourNode := none
    m_ClosureContour := none
    m_ClosureContourNode := none
    m_CurrentRestrictedArea := none
    m_RestrictedAreas := []
    m_PlaneGeometry := none
    workingDataNode := workingDataNode
    referenceData := referenceData
    writtenBack := []
    resetToStartStateCalls := 0 }

/-- Result of `GetWorkingData()`: the data of the working data node. -/
def GetWorkingData (t : EditableContourTool Point) : Option (BaseData Point) :=
  t.workingDataNode.bind id

/-- Result of `GetReferenceData()`. -/
def GetReferenceData (t : EditableContourTool Point) : Option (BaseData Point) :=
  t.referenceData

/-- Effect of `ResetToStartState()` (inherited): recorded as a call count. -/
def ResetToStartState (t : EditableContourTool Point) : EditableContourTool Point :=
  { t with resetToStartStateCalls := t.resetToStartStateCalls + 1 }

/-- Body of `ReleaseHelperObjects`. The removal of the helper nodes from the
data storage has no effect on the members of the tool. -/
def ReleaseHelperObjects (t : EditableContourTool Point) (includeWorkingContour : Bool) :
    EditableContourTool Point :=
  let t := if includeWorkingContour then
      { t with m_ContourNode := none, m_Contour := none,
               m_CurrentRestrictedArea := none, m_RestrictedAreas := [] }
    else t
  { t with m_PreviewContourNode := none, m_PreviewContour := none,
           m_ClosureContourNode := none, m_ClosureContour := none }

/-- Body of `CreateNewContour`: throws when no working data is set. -/
def CreateNewContour (t : EditableContourTool Point) : Except ToolError (ContourModel Point) :=
  match t.GetWorkingData with
  | none => throw ToolError.exception
  | some _ => pure ContourModel.New

/-- Body of `ConfirmSegmentation`. Filling the projected contour into the
working slice and writing the slice back is recorded by appending the contour
to `writtenBack`. -/
def ConfirmSegmentation (t : EditableContourTool Point) (resetStatMachine : Bool) :
    Except ToolError (EditableContourTool Point) :=
  let release (t : EditableContourTool Point) : EditableContourTool Point :=
    let t := t.ReleaseHelperObjects true
    if resetStatMachine then t.ResetToStartState else t
  match t.GetReferenceData, t.GetWorkingData with
  | some _, some _ =>
    match t.m_Contour with
    | none => pure t
    | some contour =>
      if contour.IsEmpty then pure t
      else pure (release { t with writtenBack := t.writtenBack ++ [contour] })
  | _, _ => pure (release t)

/-- Body of `ClearSegmentation`. -/
def ClearSegmentation (t : EditableContourTool Point) : EditableContourTool Point :=
  (t.ReleaseHelperObjects true).ResetToStartState

/-- Body of `IsPositionEventInsideImageRegion`. -/
def IsPositionEventInsideImageRegion (positionInWorld : Point)
    (data : Option (BaseData Point)) : Bool :=
  match data with
  | none => false
  | some d => d.IsInside positionInWorld

/-- Body of `PrepareInitContour`. -/
def PrepareInitContour (clickedPoint : Point) : Point := clickedPoint

/-- Body of `FinalizePreviewContour`. -/
def FinalizePreviewContour (t : EditableContourTool Point) (clickedPoint : Point) :
    Except ToolError (EditableContourTool Point) := do
  let preview ← deref t.m_PreviewContour
  let preview := preview.RemoveVertexAt 0
  let preview := preview.SetControlVertexAt (preview.GetNumberOfVertices - 1)
  pure { t with m_PreviewContour := some preview }

/-- Body of `InitializePreviewContour`. -/
def InitializePreviewContour (t : EditableContourTool Point) (clickedPoint : Point) :
    Except ToolError (EditableContourTool Point) := do
  let preview ← t.CreateNewContour
  let preview := preview.AddVertex clickedPoint false
  let _ ← deref t.m_PreviewContourNode
  pure { t with m_PreviewContour := some preview }

/-- Body of `UpdatePreviewContour`. -/
def UpdatePreviewContour (t : EditableContourTool Point) (clickedPoint : Point) :
    Except ToolError (EditableContourTool Point) := do
  let preview ← deref t.m_PreviewContour
  let t ←
    if preview.GetNumberOfVertices > 2 then do
      let contour ← deref t.m_Contour
      let last ← deref (contour.GetVertexAt (contour.GetNumberOfVertices - 1))
      t.InitializePreviewContour last.Coordinates
    else pure t
  let preview ← deref t.m_PreviewContour
  let preview :=
    if preview.GetNumberOfVertices = 2 then
      preview.RemoveVertexAt (preview.GetNumberOfVertices - 1)
    else preview
  let preview := preview.AddVertex clickedPoint false
  pure { t with m_PreviewContour := some preview }

/-- Body of `UpdateClosureContour`. -/
def UpdateClosureContour (t : EditableContourTool Point) (endpoint : Point) :
    Except ToolError (EditableContourTool Point) := do
  let closure ← deref t.m_ClosureContour
  let closure ←
    if closure.GetNumberOfVertices > 2 then do
      let fresh ← t.CreateNewContour
      let _ ← deref t.m_ClosureContourNode
      pure fresh
    else pure closure
  let closure ←
    if closure.GetNumberOfVertices = 0 then do
      let contour ← deref t.m_Contour
      let first ← deref (contour.GetVertexAt 0)
      pure (closure.AddVertex first.Coordinates false)
    else pure closure
  let closure :=
    if closure.GetNumberOfVertices = 2 then closure.RemoveVertexAt 0 else closure
  let closure := closure.AddVertexAtFront endpoint
  pure { t with m_ClosureContour := some closure }

/-- The test at the head of `OnAddPoint`, `OnMouseMoved` and `OnFinish`: a
plane is remembered and the position is farther than `sqrteps` from it. -/
def offPlane (t : EditableContourTool Point) (positionInWorld : Point) : Bool :=
  match t.m_PlaneGeometry with
  | some plane => decide (plane.DistanceFromPlane positionInWorld > sqrteps)
  | none => false

/-- Body of `OnInitContour`. `GetAffectedReferenceSlice` (inherited) is taken
to yield the slice of the reference data; its result is dereferenced. -/
def OnInitContour (t : EditableContourTool Point) (interactionEvent : InteractionEvent Point) :
    Except ToolError (EditableContourTool Point) :=
  match interactionEvent with
  | InteractionEvent.other => pure t
  | InteractionEvent.position positionInWorld senderPlane => do
    let workingDataNode := t.workingDataNode
    let t ← if t.m_Contour.isSome then t.ConfirmSegmentation false else pure t
    let data ← deref workingDataNode
    if !IsPositionEventInsideImageRegion positionInWorld data then
      pure t.ResetToStartState
    else do
      let contour ← t.CreateNewContour
      let t := { t with m_Contour := some contour, m_ContourNode := some { visible := true } }
      let preview ← t.CreateNewContour
      let t := { t with m_PreviewContour := some preview,
                        m_PreviewContourNode := some { visible := true } }
      let closure ← t.CreateNewContour
      let t := { t with m_ClosureContour := some closure,
                        m_ClosureContourNode := some { visible := true } }
      let restricted ← t.CreateNewContour
      let t := { t with m_CurrentRestrictedArea := some restricted }
      let _ ← deref t.referenceData
      let t := { t with m_PlaneGeometry := some senderPlane }
      let click := PrepareInitContour positionInWorld
      let t ← t.InitializePreviewContour click
      let contour ← deref t.m_Contour
      let t := { t with m_Contour := some (contour.AddVertex click true) }
      let preview ← deref t.m_PreviewContour
      let t := { t with m_PreviewContour := some (preview.AddVertex click false) }
      let closure ← deref t.m_ClosureContour
      pure { t with m_ClosureContour := some (closure.AddVertex click false) }

/-- Body of `OnAddPoint`. -/
def OnAddPoint (t : EditableContourTool Point) (interactionEvent : InteractionEvent Point) :
    Except ToolError (EditableContourTool Point) :=
  match interactionEvent with
  | InteractionEvent.other => pure t
  | InteractionEvent.position positionInWorld _ =>
    if t.offPlane positionInWorld then pure t
    else do
      let t ← t.FinalizePreviewContour positionInWorld
      let contour ← deref t.m_Contour
      let preview ← deref t.m_PreviewContour
      let t := { t with m_Contour := some (contour.Concatenate preview) }
      t.InitializePreviewContour positionInWorld

/-- Body of `OnDrawing` (no plane test in the source). -/
def OnDrawing (t : EditableContourTool Point) (interactionEvent : InteractionEvent Point) :
    Except ToolError (EditableContourTool Point) :=
  match interactionEvent with
  | InteractionEvent.other => pure t
  | InteractionEvent.position positionInWorld _ => do
    let node ← deref t.m_PreviewContourNode
    let t := { t with m_PreviewContourNode := some { node with visible := false } }
    let contour ← deref t.m_Contour
    let t := { t with m_Contour := some (contour.AddVertex positionInWorld false) }
    let t ← t.UpdateClosureContour positionInWorld
    let restricted ← deref t.m_CurrentRestrictedArea
    pure { t with m_CurrentRestrictedArea := some (restricted.AddVertex positionInWorld false) }

/-- Body of `OnEndDrawing` (no plane test in the source). -/
def OnEndDrawing (t : EditableContourTool Point) (interactionEvent : InteractionEvent Point) :
    Except ToolError (EditableContourTool Point) :=
  match interactionEvent with
  | InteractionEvent.other => pure t
  | InteractionEvent.position positionInWorld _ => do
    let restricted ← deref t.m_CurrentRestrictedArea
    let t :=
      if restricted.GetNumberOfVertices > 1 then
        { t with m_RestrictedAreas := t.m_RestrictedAreas ++ [restricted.Clone] }
      else t
    let fresh ← t.CreateNewContour
    let t := { t with m_CurrentRestrictedArea := some fresh }
    let node ← deref t.m_PreviewContourNode
    let t := { t with m_PreviewContourNode := some { node with visible := true } }
    let contour ← deref t.m_Contour
    let contour := contour.SetControlVertexAt (contour.GetNumberOfVertices - 1)
    let t := { t with m_Contour := some contour }
    t.InitializePreviewContour positionInWorld

/-- Body of `OnMouseMoved`. -/
def OnMouseMoved (t : EditableContourTool Point) (interactionEvent : InteractionEvent Point) :
    Except ToolError (EditableContourTool Point) :=
  match interactionEvent with
  | InteractionEvent.other => pure t
  | InteractionEvent.position positionInWorld _ =>
    if t.offPlane positionInWorld then pure t
    else do
      let t ← t.UpdatePreviewContour positionInWorld
      t.UpdateClosureContour positionInWorld

/-- Body of `OnFinish`. `FinishTool` is pure virtual in this class and
contributes nothing here. The loop closes the contour for the time steps
`0 .. GetTimeSteps()`. -/
def OnFinish (t : EditableContourTool Point) (interactionEvent : InteractionEvent Point) :
    Except ToolError (EditableContourTool Point) :=
  match interactionEvent with
  | InteractionEvent.other => pure t
  | InteractionEvent.position positionInWorld _ =>
    if t.offPlane positionInWorld then pure t
    else do
      let t ← t.FinalizePreviewContour positionInWorld
      let contour ← deref t.m_Contour
      let preview ← deref t.m_PreviewContour
      let contour := contour.Concatenate preview
      let numberOfTimesteps := contour.GetTimeSteps
      let contour := (List.range (numberOfTimesteps + 1)).foldl
        (fun c i => c.Close i) contour
      let t := { t with m_Contour := some contour }
      pure (t.ReleaseHelperObjects false)

/-- The pointer events connected to handlers in `ConnectActionsAndFunctions`. -/
inductive Action where
  | InitObject
  | AddPoint
  | Drawing
  | EndDrawing
  | FinishContour
  | MovePoint
  deriving DecidableEq, Repr

/-- Dispatch of an action to its handler, as connected in
`ConnectActionsAndFunctions`. -/
def handle (t : EditableContourTool Point) (a : Action)
    (interactionEvent : InteractionEvent Point) : Except ToolError (EditableContourTool Point) :=
  match a with
  | Action.InitObject => t.OnInitContour interactionEvent
  | Action.AddPoint => t.OnAddPoint interactionEvent
  | Action.Drawing => t.OnDrawing interactionEvent
  | Action.EndDrawing => t.OnEndDrawing interactionEvent
  | Action.FinishContour => t.OnFinish interactionEvent
  | Action.MovePoint => t.OnMouseMoved interactionEvent

/-- Delivery of a sequence of events, stopping at the first failure. -/
def run (t : EditableContourTool Point) :
    List (Action × InteractionEvent Point) → Except ToolError (EditableContourTool Point)
  | [] => pure t
  | (a, e) :: rest => do
    let t ← t.handle a e
    run t rest

end EditableContourTool

/-! ## ImageToContourFilter: data model and operations -/

/-- What the contour filter reads and writes of an `itk::Image`: its largest
possible region (start index and size per dimension) and the pixel values in
the order in which an `ImageRegionIterator` over that region visits them. -/
structure ItkImage (S : Type) where
  regionIndex : List Int
  regionSize : List Nat
  pixels : List S
  deriving DecidableEq, Repr

/-- Body of the loop of `ExtractLabelledContours`: both iterators advance
together; a pixel within `1e-2` of the contour value is copied, any other
pixel is set to `0`. -/
def ExtractLabelledContours.loop {S : Type} [LinearOrderedField S] (m_ContourValue : S) :
    List S → List S
  | [] => []
  | value :: rest =>
    (if |value - m_ContourValue| < 1 / 100 then value else 0)
      :: ExtractLabelledContours.loop m_ContourValue rest

/-- Body of `ExtractLabelledContours`: a new image over the largest possible
region of the slice, filled by the loop. -/
def ExtractLabelledContours {S : Type} [LinearOrderedField S] (sliceImage : ItkImage S)
    (m_ContourValue : S) : ItkImage S :=
  { regionIndex := sliceImage.regionIndex
    regionSize := sliceImage.regionSize
    pixels := ExtractLabelledContours.loop m_ContourValue sliceImage.pixels }

/-- The data members of `mitk::ImageToContourFilter` that the embedded
functions read or write. -/
structure ImageToContourFilter (S : Type) where
  m_UseProgressBar : Bool
  m_ProgressStepSize : Nat
  m_ContourValue : S
  deriving DecidableEq, Repr

/-- What `Itk2DContourExtraction` hands to the ITK filters: the input, the
constant and the lower and upper bounds of the `ConstantPadImageFilter`, and
the contour value given to the `ContourExtractor2DImageFilter`, whose input is
the output of the pad filter. -/
structure ContourExtractionSetup (S : Type) where
  padInput : ItkImage S
  padConstant : S
  padLowerBound : List Nat
  padUpperBound : List Nat
  contourValue : S
  deriving DecidableEq, Repr

namespace ImageToContourFilter

variable {S : Type} [LinearOrderedField S]

/-- Constructor of `ImageToContourFilter`; it does not initialise
`m_ContourValue`, whose initial content is a parameter here. -/
def ctor (uninitialisedContourValue : S) : ImageToContourFilter S :=
  { m_UseProgressBar := false
    m_ProgressStepSize := 1
    m_ContourValue := uninitialisedContourValue }

/-- Body of `SetUseProgressBar`. -/
def SetUseProgressBar (f : ImageToContourFilter S) (status : Bool) : ImageToContourFilter S :=
  { f with m_UseProgressBar := status }

/-- Body of `SetProgressStepSize`. -/
def SetProgressStepSize (f : ImageToContourFilter S) (stepSize : Nat) :
    ImageToContourFilter S :=
  { f with m_ProgressStepSize := stepSize }

/-- Body of `SetContourValue`. -/
def SetContourValue (f : ImageToContourFilter S) (value : S) : ImageToContourFilter S :=
  { f with m_ContourValue := value }

/-- Body of `Itk2DContourExtraction` up to and including
`contourExtractor->SetContourValue(m_ContourValue)`: the filter afterwards and
what has been handed to the ITK filters. -/
def Itk2DContourExtraction (f : ImageToContourFilter S) (sliceImage : ItkImage S) :
    ImageToContourFilter S × ContourExtractionSetup S :=
  let lowerExtendRegion := [1, 1]
  let upperExtendRegion := [1, 1]
  let resultImage := ExtractLabelledContours sliceImage f.m_ContourValue
  let m_ContourValue :=
    if |f.m_ContourValue| < 0 then 1 / 2 else f.m_ContourValue - 1
  ({ f with m_ContourValue := m_ContourValue },
   { padInput := resultImage
     padConstant := 0
     padLowerBound := lowerExtendRegion
     padUpperBound := upperExtendRegion
     contourValue := m_ContourValue })

end ImageToContourFilter

/-! ## EditableContourTool: invariant and reachable states -/

namespace EditableContourTool

variable {Point : Type}

/-- The consistency of a session that is tracking a contour: working, preview, closure
and restricted-area contours are set, the working contour starts with a vertex `w`, the
preview contour holds one or two vertices, the closure contour is `[s]` or `[e, s]` with
`s` the point of `w`, the helper nodes exist and working data is bound. -/
def TrackingInvariant (t : EditableContourTool Point) : Prop :=
  ∃ (c pv cl ra : ContourModel Point) (w : ContourModelVertex Point)
    (ws : List (ContourModelVertex Point)),
    t.m_Contour = some c ∧ c.vertices = w :: ws ∧
    t.m_PreviewContour = some pv ∧
    1 ≤ pv.vertices.length ∧ pv.vertices.length ≤ 2 ∧
    t.m_ClosureContour = some cl ∧
    (cl.vertices = [⟨w.Coordinates, false⟩] ∨
      ∃ e, cl.vertices = [⟨e, false⟩, ⟨w.Coordinates, false⟩]) ∧
    t.m_CurrentRestrictedArea = some ra ∧
    t.m_PreviewContourNode.isSome = true ∧ t.m_ClosureContourNode.isSome = true ∧
    t.GetWorkingData.isSome = true

/-- The session states reached from a successful `InitContour` (a position event
inside the region of the working data, handled without failure) by `AddPoint`,
`MouseMoved`, `Drawing` and `EndDrawing` events handled without failure. -/
inductive ReachableFromInit : EditableContourTool Point → Prop where
  | init (t0 t : EditableContourTool Point) (click : Point)
      (senderPlane : PlaneGeometry Point) (data : Option (BaseData Point)) :
      t0.workingDataNode = some data →
      IsPositionEventInsideImageRegion click data = true →
      t0.OnInitContour (InteractionEvent.position click senderPlane) = Except.ok t →
      ReachableFromInit t
  | step (t t' : EditableContourTool Point) (a : Action) (e : InteractionEvent Point) :
      ReachableFromInit t →
      (a = Action.AddPoint ∨ a = Action.MovePoint ∨ a = Action.Drawing ∨
        a = Action.EndDrawing) →
      t.handle a e = Except.ok t' →
      ReachableFromInit t'

end EditableContourTool

end mitk

namespace SemanticTypes

/-! ## SemanticTypes: data model -/

/-- The typedef `ID`. -/
abbrev ID : Type := String

/-- The typedef `CaseID`. -/
abbrev CaseID : Type := String

/-- The typedef `InformationType`. -/
abbrev InformationType : Type := String

/-- The struct `Date`; the members `year`, `month`, `day` are of type `int`, on which the
operators only compare. -/
structure Date where
  UID : ID
  year : Int
  month : Int
  day : Int
  deriving DecidableEq, Repr

/-- The comparison `operator<` of `std::tuple<const int&, const int&, const int&>` as
the standard library defines it: lexicographic, by `<` of the elements. -/
def tupleLt (a b : Int × Int × Int) : Bool :=
  decide (a.1 < b.1) ||
    (!decide (b.1 < a.1) &&
      (decide (a.2.1 < b.2.1) ||
        (!decide (b.2.1 < a.2.1) && decide (a.2.2 < b.2.2))))

/-- The comparison `operator>` of tuples: `a > b` is `b < a`. -/
def tupleGt (a b : Int × Int × Int) : Bool := tupleLt b a

namespace Date

/-- The result of `std::tie(year, month, day)`. -/
def tie (d : Date) : Int × Int × Int := (d.year, d.month, d.day)

/-- Body of `Date::operator<`. -/
def lt (d other : Date) : Bool := tupleLt d.tie other.tie

/-- Body of `Date::operator>`. -/
def gt (d other : Date) : Bool := tupleGt d.tie other.tie

/-- Body of `Date::operator==`. -/
def eq (d other : Date) : Bool := !d.lt other && !d.gt other

/-- Body of `Date::operator<=`. -/
def le (d other : Date) : Bool := d.lt other || d.eq other

/-- Body of `Date::operator>=`. -/
def ge (d other : Date) : Bool := d.gt other || d.eq other

end Date

/-- The struct `ControlPoint`. -/
structure ControlPoint where
  UID : ID
  startPoint : Date
  endPoint : Date
  deriving DecidableEq, Repr

/-- Body of `ControlPoint::operator<`. -/
def ControlPoint.lt (c other : ControlPoint) : Bool := c.startPoint.lt other.startPoint

/-- The struct `LesionClass`. -/
structure LesionClass where
  UID : ID
  classType : String
  deriving DecidableEq, Repr

/-- The struct `Lesion`. -/
structure Lesion where
  UID : ID
  lesionClass : LesionClass
  deriving DecidableEq, Repr

/-- The value-initialised `Lesion()`: empty UIDs and empty class type. -/
def Lesion.default : Lesion := { UID := "", lesionClass := { UID := "", classType := "" } }

end SemanticTypes

namespace mitk

/-! ## SemanticRelations: data model and operations -/

/-- The modifying calls that `SemanticRelations` can issue to its `RelationStorage`. -/
inductive RelationStorageCall where
  | AddLesion (caseID : SemanticTypes.CaseID) (lesion : SemanticTypes.Lesion)
  | OverwriteLesion (caseID : SemanticTypes.CaseID) (lesion : SemanticTypes.Lesion)
  | LinkSegmentationToLesion (caseID : SemanticTypes.CaseID)
      (segmentationID : SemanticTypes.ID) (lesion : SemanticTypes.Lesion)
  | RemoveLesion (caseID : SemanticTypes.CaseID) (lesion : SemanticTypes.Lesion)
  deriving DecidableEq, Repr

/-- What `SemanticRelations` uses of `mitk::RelationStorage` and of `NodeIdentifier`
(classes outside the embedded files), taken as parameters: the answers of the storage to
the queries `GetAllLesionsOfCase`, `GetAllSegmentationsOfCase` (data node pointers,
`none` for a null pointer) and `GetRepresentedLesion`, the case ID and the ID that
`NodeIdentifier` reads from a data node, and the modifying calls received so far. -/
structure RelationStorage (Node : Type) where
  GetAllLesionsOfCase : SemanticTypes.CaseID → List SemanticTypes.Lesion
  GetAllSegmentationsOfCase : SemanticTypes.CaseID → List (Option Node)
  GetRepresentedLesion : SemanticTypes.CaseID → SemanticTypes.ID → SemanticTypes.Lesion
  GetCaseIDFromData : Node → SemanticTypes.CaseID
  GetIDFromData : Node → SemanticTypes.ID
  modifyingCalls : List RelationStorageCall

/-- The exception class thrown by `SemanticRelations`. -/
inductive SemanticRelationException where
  | thrown
  deriving DecidableEq, Repr

/-- The data member `m_RelationStorage` of `mitk::SemanticRelations`. -/
structure SemanticRelations (Node : Type) where
  m_RelationStorage : RelationStorage Node

namespace SemanticRelations

variable {Node : Type}

/-- Body of `GetAllLesionsOfCase(caseID)`. -/
def GetAllLesionsOfCase (r : SemanticRelations Node) (caseID : SemanticTypes.CaseID) :
    List SemanticTypes.Lesion :=
  r.m_RelationStorage.GetAllLesionsOfCase caseID

/-- Body of `InstanceExists(caseID, lesion)`: `std::find_if` for a lesion with the UID
of the given lesion. -/
def InstanceExists (r : SemanticRelations Node) (caseID : SemanticTypes.CaseID)
    (lesion : SemanticTypes.Lesion) : Bool :=
  let allLesions := r.GetAllLesionsOfCase caseID
  match allLesions.find? (fun currentLesion => currentLesion.UID == lesion.UID) with
  | some _ => true
  | none => false

/-- Body of `GetRepresentedLesion(segmentationNode)`. -/
def GetRepresentedLesion (r : SemanticRelations Node) (segmentationNode : Option Node) :
    Except SemanticRelationException SemanticTypes.Lesion :=
  match segmentationNode with
  | none => pure SemanticTypes.Lesion.default
  | some node =>
    let caseID := r.m_RelationStorage.GetCaseIDFromData node
    let segmentationID := r.m_RelationStorage.GetIDFromData node
    let representedLesion := r.m_RelationStorage.GetRepresentedLesion caseID segmentationID
    if representedLesion.UID.isEmpty then
      throw SemanticRelationException.thrown
    else pure representedLesion

/-- Body of `IsRepresentingALesion(segmentationNode)`. -/
def IsRepresentingALesion (r : SemanticRelations Node) (segmentationNode : Option Node) :
    Bool :=
  match r.GetRepresentedLesion segmentationNode with
  | Except.ok _ => true
  | Except.error _ => false

/-- Body of `GetAllSegmentationsOfLesion(caseID, lesion)`: the predicate of
`std::remove_if` is true for the segmentations to drop. -/
def GetAllSegmentationsOfLesion (r : SemanticRelations Node)
    (caseID : SemanticTypes.CaseID) (lesion : SemanticTypes.Lesion) :
    Except SemanticRelationException (List (Option Node)) :=
  if r.InstanceExists caseID lesion then
    let allSegmentationsOfLesion := r.m_RelationStorage.GetAllSegmentationsOfCase caseID
    pure (allSegmentationsOfLesion.filter (fun segmentation =>
      !(match r.GetRepresentedLesion segmentation with
        | Except.ok representedLesion => lesion.UID != representedLesion.UID
        | Except.error _ => true)))
  else throw SemanticRelationException.thrown

/-- Body of `RemoveLesion(caseID, lesion)`; the call `m_RelationStorage->RemoveLesion`
is recorded in the modifying calls of the storage. -/
def RemoveLesion (r : SemanticRelations Node) (caseID : SemanticTypes.CaseID)
    (lesion : SemanticTypes.Lesion) :
    Except SemanticRelationException (SemanticRelations Node) :=
  if r.InstanceExists caseID lesion then do
    let allSegmentationsOfLesion ← r.GetAllSegmentationsOfLesion caseID lesion
    if allSegmentationsOfLesion.isEmpty then
      pure { r with m_RelationStorage :=
        { r.m_RelationStorage with modifyingCalls :=
            r.m_RelationStorage.modifyingCalls ++
              [RelationStorageCall.RemoveLesion caseID lesion] } }
    else throw SemanticRelationException.thrown
  else throw SemanticRelationException.thrown

end SemanticRelations

/-! ## ExtractSliceFilter: data model and operations -/

/-- The enum `ExtractSliceFilter::ResliceInterpolation`. -/
inductive ResliceInterpolation where
  | RESLICE_NEAREST
  | RESLICE_LINEAR
  | RESLICE_CUBIC
  deriving DecidableEq, Repr

/-- The enumerator values `RESLICE_NEAREST = 0`, `RESLICE_LINEAR = 1`,
`RESLICE_CUBIC = 3`. -/
def ResliceInterpolation.value : ResliceInterpolation → Nat
  | ResliceInterpolation.RESLICE_NEAREST => 0
  | ResliceInterpolation.RESLICE_LINEAR => 1
  | ResliceInterpolation.RESLICE_CUBIC => 3

/-- Modelled from the spec: the plane description consumed by the slice extractor, in
the index space of the volume (the `PlaneGeometry` class lies outside the embedded
files): an origin and two spanning axes; the output pixel `(i, j)` is sampled at
`origin + i * right + j * bottom`. -/
structure PlaneDescriptor (S : Type) where
  origin : S × S × S
  right : S × S × S
  bottom : S × S × S
  deriving DecidableEq, Repr

/-- Modelled from the spec: the volume container as the slice extractor consumes it:
the extents per axis and the scalar value of each voxel. -/
structure Volume (S : Type) where
  dimensions : Nat × Nat × Nat
  voxel : Nat → Nat → Nat → S

/-- The data members of `mitk::ExtractSliceFilter` declared in the header, apart from
the VTK reslicer, the reslice transform and the cached axes and bounds. -/
structure ExtractSliceFilter (S : Type) where
  m_WorldGeometry : Option (PlaneDescriptor S)
  m_TimeStep : Nat
  m_OutputDimension : Nat
  m_ZSpacing : S
  m_ZMin : Int
  m_ZMax : Int
  m_InterpolationMode : ResliceInterpolation
  m_InPlaneResampleExtentByGeometry : Bool
  m_VtkOutputRequested : Bool
  m_BackgroundLevel : S
  m_Component : Nat
  deriving DecidableEq, Repr

namespace ExtractSliceFilter

variable {S : Type}

/-- Body of `SetWorldGeometry` (the modification time stamp is not embedded). -/
def SetWorldGeometry (f : ExtractSliceFilter S) (geometry : Option (PlaneDescriptor S)) :
    ExtractSliceFilter S :=
  { f with m_WorldGeometry := geometry }

/-- Body of `SetTimeStep`. -/
def SetTimeStep (f : ExtractSliceFilter S) (timestep : Nat) : ExtractSliceFilter S :=
  { f with m_TimeStep := timestep }

/-- Body of `GetTimeStep`. -/
def GetTimeStep (f : ExtractSliceFilter S) : Nat := f.m_TimeStep

/-- Body of `SetComponent`. -/
def SetComponent (f : ExtractSliceFilter S) (component : Nat) : ExtractSliceFilter S :=
  { f with m_Component := component }

/-- Body of `SetInPlaneResampleExtentByGeometry`. -/
def SetInPlaneResampleExtentByGeometry (f : ExtractSliceFilter S)
    (inPlaneResampleExtentByGeometry : Bool) : ExtractSliceFilter S :=
  { f with m_InPlaneResampleExtentByGeometry := inPlaneResampleExtentByGeometry }

/-- Body of `SetOutputDimensionality`. -/
def SetOutputDimensionality (f : ExtractSliceFilter S) (dimension : Nat) :
    ExtractSliceFilter S :=
  { f with m_OutputDimension := dimension }

/-- Body of `SetOutputSpacingZDirection`. -/
def SetOutputSpacingZDirection (f : ExtractSliceFilter S) (zSpacing : S) :
    ExtractSliceFilter S :=
  { f with m_ZSpacing := zSpacing }

/-- Body of `SetOutputExtentZDirection`. -/
def SetOutputExtentZDirection (f : ExtractSliceFilter S) (zMin zMax : Int) :
    ExtractSliceFilter S :=
  { f with m_ZMin := zMin, m_ZMax := zMax }

/-- Body of `SetVtkOutputRequest`. -/
def SetVtkOutputRequest (f : ExtractSliceFilter S) (isRequested : Bool) :
    ExtractSliceFilter S :=
  { f with m_VtkOutputRequested := isRequested }

/-- Body of `SetBackgroundLevel`. -/
def SetBackgroundLevel (f : ExtractSliceFilter S) (backgroundLevel : S) :
    ExtractSliceFilter S :=
  { f with m_BackgroundLevel := backgroundLevel }

/-- Body of `SetInterpolationMode`. -/
def SetInterpolationMode (f : ExtractSliceFilter S) (interpolation : ResliceInterpolation) :
    ExtractSliceFilter S :=
  { f with m_InterpolationMode := interpolation }

variable [LinearOrderedField S] [FloorRing S]

/-- Modelled from the spec: the position in volume index space at which the output
pixel `(i, j)` is sampled. -/
def samplePosition (plane : PlaneDescriptor S) (i j : Nat) : S × S × S :=
  (plane.origin.1 + i * plane.right.1 + j * plane.bottom.1,
   plane.origin.2.1 + i * plane.right.2.1 + j * plane.bottom.2.1,
   plane.origin.2.2 + i * plane.right.2.2 + j * plane.bottom.2.2)

/-- Modelled from the spec: a sample position lies inside the volume when each of its
index coordinates lies between the first and the last voxel of its axis. -/
def IsInsideVolume (volume : Volume S) (p : S × S × S) : Bool :=
  decide (0 ≤ p.1 ∧ p.1 ≤ (volume.dimensions.1 : S) - 1 ∧
          0 ≤ p.2.1 ∧ p.2.1 ≤ (volume.dimensions.2.1 : S) - 1 ∧
          0 ≤ p.2.2 ∧ p.2.2 ≤ (volume.dimensions.2.2 : S) - 1)

/-- Modelled from the spec: the interpolation kernel along one axis, as the voxel indices
it reads and their weights: the nearest voxel; the two neighbours with linear weights;
the four neighbours with the weights of cubic convolution. -/
def kernel (mode : ResliceInterpolation) (x : S) : List (Int × S) :=
  match mode with
  | ResliceInterpolation.RESLICE_NEAREST => [(round x, 1)]
  | ResliceInterpolation.RESLICE_LINEAR =>
    let i := Int.floor x
    let f := x - i
    [(i, 1 - f), (i + 1, f)]
  | ResliceInterpolation.RESLICE_CUBIC =>
    let i := Int.floor x
    let f := x - i
    [(i - 1, (-f ^ 3 + 2 * f ^ 2 - f) / 2),
     (i, (3 * f ^ 3 - 5 * f ^ 2 + 2) / 2),
     (i + 1, (-3 * f ^ 3 + 4 * f ^ 2 + f) / 2),
     (i + 2, (f ^ 3 - f ^ 2) / 2)]

/-- Modelled from the spec: a voxel index read by a kernel is moved to the nearest
voxel of the axis when it lies beyond the volume. -/
def clampIndex (extent : Nat) (i : Int) : Nat := (max 0 (min i ((extent : Int) - 1))).toNat

/-- Modelled from the spec: the interpolated value at a position: the sum over the
kernels of the three axes of the product of the weights times the voxel value. -/
def interpolate (mode : ResliceInterpolation) (volume : Volume S) (p : S × S × S) : S :=
  ((kernel mode p.1).map (fun a =>
    ((kernel mode p.2.1).map (fun b =>
      ((kernel mode p.2.2).map (fun c =>
        a.2 * b.2 * c.2 *
          volume.voxel (clampIndex volume.dimensions.1 a.1)
            (clampIndex volume.dimensions.2.1 b.1)
            (clampIndex volume.dimensions.2.2 c.1))).sum)).sum)).sum

/-- Modelled from the spec: the value of the output pixel `(i, j)`: "resample using the
configured interpolation kernel (nearest / linear / cubic) at each output pixel, reading
through the inverse of the plane transform into volume index space; out-of-volume samples
receive `backgroundLevel`". -/
def resample (f : ExtractSliceFilter S) (volume : Volume S) (plane : PlaneDescriptor S)
    (i j : Nat) : S :=
  if IsInsideVolume volume (samplePosition plane i j) then
    interpolate f.m_InterpolationMode volume (samplePosition plane i j)
  else f.m_BackgroundLevel

/-- Modelled from the spec: `GenerateData` (its body lies outside the embedded files):
"a null world geometry is fatal (operation refuses to execute)"; otherwise the output
holds the resampled value at each output pixel. -/
def GenerateData (f : ExtractSliceFilter S) (volume : Volume S) : Option (Nat → Nat → S) :=
  match f.m_WorldGeometry with
  | none => none
  | some plane => some (fun i j => resample f volume plane i j)

end ExtractSliceFilter

namespace Examples

/-! ## Concrete inputs used in evaluations -/

/-- The window `LevelWindow(127.5, 255)`: `[0, 255]` inside the range
`[-2048, 4096]`. -/
def window255 : LevelWindow ℚ := LevelWindow.ctor (255 / 2) 255

/-- A 16-bit signed integer image of `10 x 20 x 1` voxels with the value counts
`0:100, 5:1, 10:98, 15:1` and without pic descriptor. -/
def countsImageData : ImageData ℚ :=
  { initialized := true
    scalarValueMin := 0
    scalarValue2ndMin := 5
    scalarValue2ndMax := 10
    scalarValueMax := 15
    countOfMinValuedVoxels := 100
    countOfMaxValuedVoxels := 1
    dimension := 3
    dimensions := [10, 20, 1]
    pixelType := { type := ipPicType_t.ipPicInt, bpe := 16 }
    pic := none }

/-- The image of `countsImageData`; it has a single slice, so its central
slice carries the same data. -/
def countsImage : Image ℚ := { whole := countsImageData, centralSlice := countsImageData }

/-- A 16-bit signed integer image of `10 x 20 x 1` voxels, all of value `5`,
whose pic descriptor carries no `LEVEL/WINDOW` annotation. -/
def uniformImageData : ImageData ℚ :=
  { initialized := true
    scalarValueMin := 5
    scalarValue2ndMin := 5
    scalarValue2ndMax := 5
    scalarValueMax := 5
    countOfMinValuedVoxels := 200
    countOfMaxValuedVoxels := 200
    dimension := 3
    dimensions := [10, 20, 1]
    pixelType := { type := ipPicType_t.ipPicInt, bpe := 16 }
    pic := some { levelWindowTag := none } }

/-- The image of `uniformImageData`. -/
def uniformImage : Image ℚ := { whole := uniformImageData, centralSlice := uniformImageData }

/-- The data of `uniformImageData` with the annotation
`LEVEL/WINDOW = (100, 50)` added. -/
def uniformTaggedImageData : ImageData ℚ :=
  { uniformImageData with pic := some { levelWindowTag := some (100, 50) } }

/-- The image of `uniformTaggedImageData`. -/
def uniformTaggedImage : Image ℚ :=
  { whole := uniformTaggedImageData, centralSlice := uniformTaggedImageData }

/-- Points with integer coordinates `(x, y, z)`. -/
abbrev Point3 : Type := ℤ × ℤ × ℤ

/-- The plane `z = 0`; the distance of `(x, y, z)` from it is `|z|`. -/
def planeZ0 : PlaneGeometry Point3 := { DistanceFromPlane := fun p => |(p.2.2 : ℚ)| }

/-- Image data whose region contains every point. -/
def wholeSpace : BaseData Point3 := { IsInside := fun _ => true }

/-- An idle tool bound to working data and reference data. -/
def idleTool : EditableContourTool Point3 :=
  EditableContourTool.idle (some (some wholeSpace)) (some wholeSpace)

/-- A position event at `p` sent by a renderer showing the plane `z = 0`. -/
def eventAt (p : Point3) : InteractionEvent Point3 := InteractionEvent.position p planeZ0

/-- A tool bound neither to working data nor to reference data. -/
def unboundTool : EditableContourTool Point3 := EditableContourTool.idle none none

/-- The 16-bit signed image of `countsImageData` declared with 4 bits per
element and the smallest value `-8 = -2^3`. -/
def fourBitImageData : ImageData ℚ :=
  { countsImageData with
    scalarValueMin := -8
    pixelType := { type := ipPicType_t.ipPicInt, bpe := 4 } }

/-- The image of `fourBitImageData`. -/
def fourBitImage : Image ℚ := { whole := fourBitImageData, centralSlice := fourBitImageData }

/-- A 16-bit signed image whose smallest value is the sentinel `-32768` and
whose second smallest value is `5`, without `LEVEL/WINDOW` annotation. -/
def sentinelImageData : ImageData ℚ :=
  { countsImageData with scalarValueMin := -32768 }

/-- The image of `sentinelImageData`. -/
def sentinelImage : Image ℚ := { whole := sentinelImageData, centralSlice := sentinelImageData }

/-- A `3 x 2` label slice. -/
def labelSlice : ItkImage ℚ :=
  { regionIndex := [0, 0], regionSize := [3, 2], pixels := [0, 7, 7, 3, 7, 0] }

/-- The data of `sentinelImageData` with the annotation
`LEVEL/WINDOW = (100, 50)` added. -/
def sentinelTaggedImageData : ImageData ℚ :=
  { sentinelImageData with pic := some { levelWindowTag := some (100, 50) } }

/-- The image of `sentinelTaggedImageData`. -/
def sentinelTaggedImage : Image ℚ :=
  { whole := sentinelTaggedImageData, centralSlice := sentinelTaggedImageData }

/-- A tool after `InitContour` at `(0,0,0)` and `MouseMoved` at `(1,0,0)` on the plane
`z = 0`: working contour `(0,0,0)`, preview contour `(0,0,0), (1,0,0)`. -/
def trackingTool : EditableContourTool Point3 :=
  { idleTool with
    m_Contour := some { vertices := [⟨(0, 0, 0), true⟩], closed := false }
    m_ContourNode := some { visible := true }
    m_PreviewContour :=
      some { vertices := [⟨(0, 0, 0), false⟩, ⟨(1, 0, 0), false⟩], closed := false }
    m_PreviewContourNode := some { visible := true }
    m_ClosureContour :=
      some { vertices := [⟨(1, 0, 0), false⟩, ⟨(0, 0, 0), false⟩], closed := false }
    m_ClosureContourNode := some { visible := true }
    m_CurrentRestrictedArea := some ContourModel.New
    m_PlaneGeometry := some planeZ0 }

/-- The tool after `InitContour` at `(0,0,0)` on the plane `z = 0`: working contour
`(0,0,0)`, preview contour `(0,0,0), (0,0,0)`, closure contour `(0,0,0)`. -/
def initialisedTool : EditableContourTool Point3 :=
  { idleTool with
    m_Contour := some { vertices := [⟨(0, 0, 0), true⟩], closed := false }
    m_ContourNode := some { visible := true }
    m_PreviewContour :=
      some { vertices := [⟨(0, 0, 0), false⟩, ⟨(0, 0, 0), false⟩], closed := false }
    m_PreviewContourNode := some { visible := true }
    m_ClosureContour := some { vertices := [⟨(0, 0, 0), false⟩], closed := false }
    m_ClosureContourNode := some { visible := true }
    m_CurrentRestrictedArea := some ContourModel.New
    m_PlaneGeometry := some planeZ0 }

/-- The date 2019-01-31 with the UID `a`. -/
def dateJanuary : SemanticTypes.Date := { UID := "a", year := 2019, month := 1, day := 31 }

/-- The date 2019-02-01 with the UID `b`. -/
def dateFebruary : SemanticTypes.Date := { UID := "b", year := 2019, month := 2, day := 1 }

/-- The date 2020-01-01 with the UID `c`. -/
def dateNextYear : SemanticTypes.Date := { UID := "c", year := 2020, month := 1, day := 1 }

/-- A lesion with the UID `L1`. -/
def lesionL1 : SemanticTypes.Lesion :=
  { UID := "L1", lesionClass := { UID := "K1", classType := "tumor" } }

/-- A lesion with the UID `L2`. -/
def lesionL2 : SemanticTypes.Lesion :=
  { UID := "L2", lesionClass := { UID := "K1", classType := "tumor" } }

/-- A storage with one case `case1` holding the lesions `L1` and `L2` and the single
segmentation node `seg1`, which represents `L2`; data nodes are given by their ID, all
of the case `case1`. -/
def exampleStorage : RelationStorage String :=
  { GetAllLesionsOfCase := fun caseID => if caseID = "case1" then [lesionL1, lesionL2] else []
    GetAllSegmentationsOfCase := fun caseID => if caseID = "case1" then [some "seg1"] else []
    GetRepresentedLesion := fun caseID segmentationID =>
      if caseID = "case1" ∧ segmentationID = "seg1" then lesionL2
      else SemanticTypes.Lesion.default
    GetCaseIDFromData := fun _ => "case1"
    GetIDFromData := fun node => node
    modifyingCalls := [] }

/-- The semantic relations over `exampleStorage`. -/
def exampleRelations : SemanticRelations String := { m_RelationStorage := exampleStorage }

/-- A volume of `4 x 4 x 4` voxels, all of intensity `5`. -/
def constantVolume : Volume ℚ := { dimensions := (4, 4, 4), voxel := fun _ _ _ => 5 }

/-- The axis-aligned plane `z = 3/2` of the index space, starting at `(-1, 1/2, 3/2)`
with half a voxel between neighbouring output pixels. -/
def axialPlane : PlaneDescriptor ℚ :=
  { origin := (-1, 1 / 2, 3 / 2), right := (1 / 2, 0, 0), bottom := (0, 1 / 2, 0) }

/-- A slice filter without world geometry, with the default properties named in the
class documentation. -/
def sliceFilter : ExtractSliceFilter ℚ :=
  { m_WorldGeometry := none
    m_TimeStep := 0
    m_OutputDimension := 2
    m_ZSpacing := 1
    m_ZMin := 0
    m_ZMax := 0
    m_InterpolationMode := ResliceInterpolation.RESLICE_NEAREST
    m_InPlaneResampleExtentByGeometry := false
    m_VtkOutputRequested := false
    m_BackgroundLevel := 0
    m_Component := 0 }

end Examples

/-! ## LevelWindow: theorems -/

namespace LevelWindow

variable {S : Type} [LinearOrderedField S]
open Examples

/-- Every mutator that starts with the `IsFixed` test leaves a fixed window
untouched. -/
theorem fixed_guarded_mutators_noop (lw : LevelWindow S) (hfix : lw.m_Fixed = true)
    (a b : S) (pic : Option (ipPicDescriptor S)) (image : Option (Image S)) (t g : Bool) :
    lw.SetLevelWindow a b = lw ∧ lw.SetMinMax a b = lw ∧ lw.SetRangeMinMax a b = lw ∧
    lw.SetDefaultRangeMinMax a b = lw ∧ lw.SetDefaultLevelWindow a b = lw ∧
    lw.ResetDefaultLevelWindow = lw ∧ lw.ResetDefaultRangeMinMax = lw ∧
    lw.SetAuto image t g = lw ∧ lw.SetAutoByPicTags pic = (false, lw) := by
  simp [SetLevelWindow, SetMinMax, SetRangeMinMax, SetDefaultRangeMinMax,
    SetDefaultLevelWindow, ResetDefaultLevelWindow, ResetDefaultRangeMinMax, SetAuto,
    SetAutoByPicTags, IsFixed, hfix]

theorem testValues_fields (lw : LevelWindow S) :
    (testValues lw).m_RangeMin = lw.m_RangeMin ∧ (testValues lw).m_RangeMax = lw.m_RangeMax ∧
    (testValues lw).m_DefaultRangeMin = lw.m_DefaultRangeMin ∧
    (testValues lw).m_DefaultRangeMax = lw.m_DefaultRangeMax ∧
    (testValues lw).m_DefaultLevel = lw.m_DefaultLevel ∧
    (testValues lw).m_DefaultWindow = lw.m_DefaultWindow ∧
    (testValues lw).m_Fixed = lw.m_Fixed := by
  unfold testValues
  split_ifs <;> simp

theorem testValues_of_lt (lw : LevelWindow S) (h : lw.m_Min < lw.m_Max) : testValues lw = lw := by
  unfold testValues
  rw [if_neg (not_lt.mpr h.le), if_neg h.ne]

/-- Claim C7. Level and window are derived from the stored `[m_Min, m_Max]` pair and
round-trip exactly: on a non-fixed window, for every `level` and every `window > 0`,
`SetLevelWindow(level, window)` is followed by `GetLevel() = level` and
`GetWindow() = window`, where `GetLevel() = (m_Max - m_Min)/2 + m_Min` and
`GetWindow() = m_Max - m_Min`. -/
theorem SetLevelWindow_roundtrip (lw : LevelWindow S) (level window : S)
    (hfix : lw.m_Fixed = false) (hw : 0 < window) :
    (lw.SetLevelWindow level window).GetLevel = level ∧
    (lw.SetLevelWindow level window).GetWindow = window ∧
    (∀ s : LevelWindow S, s.GetLevel = (s.m_Max - s.m_Min) / 2 + s.m_Min) ∧
    (∀ s : LevelWindow S, s.GetWindow = s.m_Max - s.m_Min) := by
  have hlt : level - window / 2 < level + window / 2 := by linarith
  have h : lw.SetLevelWindow level window =
      { lw with m_Min := level - window / 2, m_Max := level + window / 2 } := by
    simp only [SetLevelWindow, IsFixed, hfix]
    exact testValues_of_lt _ hlt
  refine ⟨?_, ?_, fun _ => rfl, fun _ => rfl⟩
  · rw [h]; simp only [GetLevel]; ring
  · rw [h]; simp only [GetWindow]; ring

/-- Claim C7 applied to `LevelWindow(0, 1)` with `SetLevelWindow(40, 400)`. -/
theorem SetLevelWindow_roundtrip_witness :
    ((LevelWindow.ctor (0 : ℚ) 1).SetLevelWindow 40 400).GetLevel = 40 ∧
    ((LevelWindow.ctor (0 : ℚ) 1).SetLevelWindow 40 400).GetWindow = 400 :=
  ⟨(SetLevelWindow_roundtrip (LevelWindow.ctor (0 : ℚ) 1) 40 400 rfl (by norm_num)).1,
   (SetLevelWindow_roundtrip (LevelWindow.ctor (0 : ℚ) 1) 40 400 rfl (by norm_num)).2.1⟩

/-- Claim C8. `ResetDefaultLevelWindow` is idempotent: for every state, fixed or not,
applying it twice yields the same nine-field state as applying it once. -/
theorem ResetDefaultLevelWindow_idempotent (lw : LevelWindow S) :
    lw.ResetDefaultLevelWindow.ResetDefaultLevelWindow = lw.ResetDefaultLevelWindow := by
  obtain ⟨mn, mx, rmn, rmx, drmn, drmx, dl, dw, fx⟩ := lw
  cases fx
  · simp only [ResetDefaultLevelWindow, SetLevelWindow, IsFixed, testValues]
    split_ifs <;> simp_all
  · simp [ResetDefaultLevelWindow, IsFixed]

/-- Claim C9. `a == b` is true exactly when `a` and `b` agree on `m_RangeMin`,
`m_RangeMax`, `m_Min`, `m_Max`, `m_DefaultLevel`, `m_DefaultWindow`, `m_DefaultRangeMin`,
`m_DefaultRangeMax` and `m_Fixed` (that is, when they are the same state); `a != b` is
the negation of `a == b`; and after the assignment `a = b`, `a == b` holds. -/
theorem opEq_iff_fields (a b : LevelWindow S) :
    (a.opEq b = true ↔
      (a.m_RangeMin = b.m_RangeMin ∧ a.m_RangeMax = b.m_RangeMax ∧
       a.m_Min = b.m_Min ∧ a.m_Max = b.m_Max ∧
       a.m_DefaultLevel = b.m_DefaultLevel ∧ a.m_DefaultWindow = b.m_DefaultWindow ∧
       a.m_DefaultRangeMin = b.m_DefaultRangeMin ∧ a.m_DefaultRangeMax = b.m_DefaultRangeMax ∧
       a.m_Fixed = b.m_Fixed)) ∧
    (a.opEq b = true ↔ a = b) ∧
    a.opNe b = !(a.opEq b) ∧
    (a.assign b).opEq b = true ∧ a.assign b = b := by
  have h1 : a.opEq b = true ↔
      (a.m_RangeMin = b.m_RangeMin ∧ a.m_RangeMax = b.m_RangeMax ∧
       a.m_Min = b.m_Min ∧ a.m_Max = b.m_Max ∧
       a.m_DefaultLevel = b.m_DefaultLevel ∧ a.m_DefaultWindow = b.m_DefaultWindow ∧
       a.m_DefaultRangeMin = b.m_DefaultRangeMin ∧ a.m_DefaultRangeMax = b.m_DefaultRangeMax ∧
       a.m_Fixed = b.m_Fixed) := by
    simp [opEq, GetRangeMin, GetRangeMax, GetMin, GetMax, GetDefaultLevel, GetDefaultWindow,
      GetDefaultRangeMin, GetDefaultRangeMax, IsFixed]
  refine ⟨h1, ?_, rfl, ?_, ?_⟩
  · rw [h1]
    constructor
    · intro h
      obtain ⟨_, _, _, _, _, _, _, _, _⟩ := a
      obtain ⟨_, _, _, _, _, _, _, _, _⟩ := b
      simp_all
    · rintro rfl
      simp
  · simp [opEq, assign, GetRangeMin, GetRangeMax, GetMin, GetMax, GetDefaultLevel,
      GetDefaultWindow, GetDefaultRangeMin, GetDefaultRangeMax, GetFixed, IsFixed]
  · obtain ⟨_, _, _, _, _, _, _, _, _⟩ := b
    simp [assign, GetRangeMin, GetRangeMax, GetMin, GetMax, GetDefaultLevel, GetDefaultWindow,
      GetDefaultRangeMin, GetDefaultRangeMax, GetFixed]

/-- The range bounds after `SetRangeMinMax` are strictly ordered whenever they
were strictly ordered before; on a non-fixed window they are strictly ordered
unconditionally. -/
theorem SetRangeMinMax_range_lt (lw : LevelWindow S) (a b : S)
    (h : lw.m_Fixed = false ∨ lw.m_RangeMin < lw.m_RangeMax) :
    (lw.SetRangeMinMax a b).m_RangeMin < (lw.SetRangeMinMax a b).m_RangeMax := by
  cases hfix : lw.m_Fixed
  · simp only [SetRangeMinMax, IsFixed, hfix, Bool.false_eq_true, if_false]
    rw [(testValues_fields _).1, (testValues_fields _).2.1]
    simp only
    by_cases h1 : a > b
    · simp only [h1, if_true]
      split_ifs <;> linarith
    · simp only [h1, if_false]
      split_ifs with h2
      · linarith
      · exact lt_of_le_of_ne (not_lt.mp h1) h2
  · rcases h with h | h
    · simp [hfix] at h
    · simpa [SetRangeMinMax, IsFixed, hfix] using h

/-- Claim C1, evaluated at a failing input. The window `LevelWindow(127.5, 255)` is not
fixed and its range `[-2048, 4096]` satisfies `rangeMin < rangeMax`; after the single
call `SetRangeMinMax(-1, -0.5)` the range is `[-1, -0.5]` and `m_Min = -1.5`, which is
below `m_RangeMin`: the statement `if (m_Min >= m_RangeMax) m_Min = m_RangeMax - 1`
leaves the range when the range is narrower than one unit. -/
theorem SetRangeMinMax_narrow_range_min_below_rangeMin :
    window255.m_Fixed = false ∧ window255.m_RangeMin < window255.m_RangeMax ∧
    (window255.SetRangeMinMax (-1) (-1 / 2)).m_RangeMin = -1 ∧
    (window255.SetRangeMinMax (-1) (-1 / 2)).m_RangeMax = -1 / 2 ∧
    (window255.SetRangeMinMax (-1) (-1 / 2)).m_Min = -3 / 2 ∧
    (window255.SetRangeMinMax (-1) (-1 / 2)).m_Min
      < (window255.SetRangeMinMax (-1) (-1 / 2)).m_RangeMin := by
  norm_num [window255, LevelWindow.ctor, SetRangeMinMax, testValues, IsFixed]

/-- Claim C2, evaluated at a failing input. On the fixed window obtained from
`LevelWindow(127.5, 255)` by `SetFixed(true)`, with `m_Min = 0` and `m_Max = 255`,
`SetToMaxWindowSize()` stores `m_Min = -2048` and `m_Max = 4096`: it is the one mutator
without the `IsFixed` test. -/
theorem SetToMaxWindowSize_ignores_fixed :
    (window255.SetFixed true).m_Fixed = true ∧
    (window255.SetFixed true).m_Min = 0 ∧ (window255.SetFixed true).m_Max = 255 ∧
    (window255.SetFixed true).SetToMaxWindowSize.m_Min = -2048 ∧
    (window255.SetFixed true).SetToMaxWindowSize.m_Max = 4096 := by
  norm_num [window255, LevelWindow.ctor, SetFixed, SetToMaxWindowSize]

/-- Claim C3, evaluated at a failing input. For the non-fixed window
`LevelWindow(127.5, 255)` and the volume with value counts `0:100, 5:1, 10:98, 15:1`,
`SetAuto` leaves `m_Min = 0` (the smallest value) and `m_Max = 15`, with or without the
central-slice guess and the tag lookup; the lower bound is not `2.5`. -/
theorem SetAuto_counts_image_min :
    (window255.SetAuto (some countsImage) false false).m_Min = 0 ∧
    (window255.SetAuto (some countsImage) false false).m_Max = 15 ∧
    (window255.SetAuto (some countsImage) true true).m_Min = 0 ∧
    (window255.SetAuto (some countsImage) true true).m_Max = 15 := by
  norm_num [window255, countsImage, countsImageData, LevelWindow.ctor, SetAuto, SetRangeMinMax,
    SetDefaultRangeMinMax, SetMinMax, SetDefaultLevelWindow, SetAutoByPicTags, testValues,
    IsFixed, numPixels]

/-- Claim C4, refuted as stated. The volume `uniformTaggedImage` is initialised, all
its voxels have the value `5` (slice scan and whole-volume scan report
`minValue = maxValue = 5`), `5` is not the sentinel `-2^15`, and the window is not
fixed; yet after `SetAuto(image, true, true)` the range is `[4, 125]` and the window is
`[75, 125]`, because the `LEVEL/WINDOW` annotation `(100, 50)` of the volume overrides
the computed values. -/
theorem SetAuto_uniform_tagged_image :
    uniformTaggedImage.whole.initialized = true ∧
    uniformTaggedImage.whole.scalarValueMin = 5 ∧ uniformTaggedImage.whole.scalarValueMax = 5 ∧
    uniformTaggedImage.centralSlice.scalarValueMin = 5 ∧
    uniformTaggedImage.centralSlice.scalarValueMax = 5 ∧
    (5 : ℚ) ≠ -((2 : ℚ) ^ uniformTaggedImage.whole.pixelType.bpe / 2) ∧
    (window255.SetAuto (some uniformTaggedImage) true true).m_RangeMin = 4 ∧
    (window255.SetAuto (some uniformTaggedImage) true true).m_RangeMax = 125 ∧
    (window255.SetAuto (some uniformTaggedImage) true true).m_Min = 75 ∧
    (window255.SetAuto (some uniformTaggedImage) true true).m_Max = 125 := by
  norm_num [window255, uniformTaggedImage, uniformTaggedImageData, uniformImageData, LevelWindow.ctor, SetAuto,
    SetRangeMinMax, SetDefaultRangeMinMax, SetMinMax, SetDefaultLevelWindow, SetAutoByPicTags,
    SetLevelWindow, testValues, IsFixed, numPixels, GetRangeMin, GetRangeMax]

theorem SetRangeMinMax_frame (lw : LevelWindow S) (a b : S) :
    (lw.SetRangeMinMax a b).m_Fixed = lw.m_Fixed ∧
    (lw.SetRangeMinMax a b).m_DefaultRangeMin = lw.m_DefaultRangeMin ∧
    (lw.SetRangeMinMax a b).m_DefaultRangeMax = lw.m_DefaultRangeMax ∧
    (lw.SetRangeMinMax a b).m_DefaultLevel = lw.m_DefaultLevel ∧
    (lw.SetRangeMinMax a b).m_DefaultWindow = lw.m_DefaultWindow := by
  cases hfix : lw.m_Fixed
  · simp only [SetRangeMinMax, IsFixed, hfix, Bool.false_eq_true, if_false, testValues_fields, and_self]
  · simp [SetRangeMinMax, IsFixed, hfix]

theorem SetRangeMinMax_of_lt (lw : LevelWindow S) (a b : S) (hfix : lw.m_Fixed = false)
    (hab : a < b) :
    (lw.SetRangeMinMax a b).m_RangeMin = a ∧ (lw.SetRangeMinMax a b).m_RangeMax = b := by
  simp only [SetRangeMinMax, IsFixed, hfix, Bool.false_eq_true, if_false, testValues_fields,
    gt_iff_lt, if_neg (not_lt.mpr hab.le), if_neg hab.ne, and_self]

theorem SetDefaultRangeMinMax_frame (lw : LevelWindow S) (a b : S) :
    (lw.SetDefaultRangeMinMax a b).m_Fixed = lw.m_Fixed ∧
    (lw.SetDefaultRangeMinMax a b).m_RangeMin = lw.m_RangeMin ∧
    (lw.SetDefaultRangeMinMax a b).m_RangeMax = lw.m_RangeMax ∧
    (lw.SetDefaultRangeMinMax a b).m_Min = lw.m_Min ∧
    (lw.SetDefaultRangeMinMax a b).m_Max = lw.m_Max ∧
    (lw.SetDefaultRangeMinMax a b).m_DefaultLevel = lw.m_DefaultLevel ∧
    (lw.SetDefaultRangeMinMax a b).m_DefaultWindow = lw.m_DefaultWindow := by
  cases hfix : lw.m_Fixed
  · simp only [SetDefaultRangeMinMax, IsFixed, hfix, Bool.false_eq_true, if_false, and_self]
  · simp [SetDefaultRangeMinMax, IsFixed, hfix]

theorem SetDefaultRangeMinMax_of_lt (lw : LevelWindow S) (a b : S) (hfix : lw.m_Fixed = false)
    (hab : a < b) :
    (lw.SetDefaultRangeMinMax a b).m_DefaultRangeMin = a ∧
    (lw.SetDefaultRangeMinMax a b).m_DefaultRangeMax = b := by
  simp only [SetDefaultRangeMinMax, IsFixed, hfix, Bool.false_eq_true, if_false,
    gt_iff_lt, if_neg (not_lt.mpr hab.le), if_neg hab.ne, and_self]

theorem SetMinMax_frame (lw : LevelWindow S) (a b : S) :
    (lw.SetMinMax a b).m_Fixed = lw.m_Fixed ∧
    (lw.SetMinMax a b).m_RangeMin = lw.m_RangeMin ∧
    (lw.SetMinMax a b).m_RangeMax = lw.m_RangeMax ∧
    (lw.SetMinMax a b).m_DefaultRangeMin = lw.m_DefaultRangeMin ∧
    (lw.SetMinMax a b).m_DefaultRangeMax = lw.m_DefaultRangeMax ∧
    (lw.SetMinMax a b).m_DefaultLevel = lw.m_DefaultLevel ∧
    (lw.SetMinMax a b).m_DefaultWindow = lw.m_DefaultWindow := by
  cases hfix : lw.m_Fixed
  · simp only [SetMinMax, IsFixed, hfix, Bool.false_eq_true, if_false, testValues_fields, and_self]
  · simp [SetMinMax, IsFixed, hfix]

/-- Setting the window to the full range: `SetMinMax(a, b)` on a non-fixed
window whose range is `[a, b]` with `a < b` stores exactly `a` and `b`. -/
theorem SetMinMax_full_range (lw : LevelWindow S) (a b : S) (hfix : lw.m_Fixed = false)
    (hab : a < b) (hmin : lw.m_RangeMin = a) (hmax : lw.m_RangeMax = b) :
    (lw.SetMinMax a b).m_Min = a ∧ (lw.SetMinMax a b).m_Max = b := by
  have h : lw.SetMinMax a b = { lw with m_Min := a, m_Max := b } := by
    simp only [SetMinMax, IsFixed, hfix, Bool.false_eq_true, if_false, hmin, hmax, gt_iff_lt,
      if_neg (not_lt.mpr hab.le), lt_irrefl, ge_iff_le, if_neg (not_le.mpr hab), le_refl]
    exact testValues_of_lt _ hab
  rw [h]
  exact ⟨rfl, rfl⟩

theorem SetLevelWindow_frame (lw : LevelWindow S) (a b : S) :
    (lw.SetLevelWindow a b).m_Fixed = lw.m_Fixed ∧
    (lw.SetLevelWindow a b).m_RangeMin = lw.m_RangeMin ∧
    (lw.SetLevelWindow a b).m_RangeMax = lw.m_RangeMax ∧
    (lw.SetLevelWindow a b).m_DefaultRangeMin = lw.m_DefaultRangeMin ∧
    (lw.SetLevelWindow a b).m_DefaultRangeMax = lw.m_DefaultRangeMax ∧
    (lw.SetLevelWindow a b).m_DefaultLevel = lw.m_DefaultLevel ∧
    (lw.SetLevelWindow a b).m_DefaultWindow = lw.m_DefaultWindow := by
  cases hfix : lw.m_Fixed
  · simp only [SetLevelWindow, IsFixed, hfix, Bool.false_eq_true, if_false, testValues_fields, and_self]
  · simp [SetLevelWindow, IsFixed, hfix]

theorem SetDefaultLevelWindow_frame (lw : LevelWindow S) (a b : S) :
    (lw.SetDefaultLevelWindow a b).m_Fixed = lw.m_Fixed ∧
    (lw.SetDefaultLevelWindow a b).m_RangeMin = lw.m_RangeMin ∧
    (lw.SetDefaultLevelWindow a b).m_RangeMax = lw.m_RangeMax ∧
    (lw.SetDefaultLevelWindow a b).m_Min = lw.m_Min ∧
    (lw.SetDefaultLevelWindow a b).m_Max = lw.m_Max ∧
    (lw.SetDefaultLevelWindow a b).m_DefaultRangeMin = lw.m_DefaultRangeMin ∧
    (lw.SetDefaultLevelWindow a b).m_DefaultRangeMax = lw.m_DefaultRangeMax := by
  cases hfix : lw.m_Fixed
  · simp only [SetDefaultLevelWindow, IsFixed, hfix, Bool.false_eq_true, if_false, and_self]
  · simp [SetDefaultLevelWindow, IsFixed, hfix]

theorem SetDefaultLevelWindow_of_not_fixed (lw : LevelWindow S) (a b : S)
    (hfix : lw.m_Fixed = false) :
    (lw.SetDefaultLevelWindow a b).m_DefaultLevel = a ∧
    (lw.SetDefaultLevelWindow a b).m_DefaultWindow = b := by
  simp [SetDefaultLevelWindow, IsFixed, hfix]

/-- The four calls at the end of `SetAuto`, for `minValue < maxValue`, on a
non-fixed window. -/
theorem SetAuto_chain (lw : LevelWindow S) (a b l w : S) (hfix : lw.m_Fixed = false)
    (hab : a < b) :
    let r := (((lw.SetRangeMinMax a b).SetDefaultRangeMinMax a b).SetMinMax a b).SetDefaultLevelWindow l w
    r.m_Min = a ∧ r.m_Max = b ∧ r.m_RangeMin = a ∧ r.m_RangeMax = b ∧
    r.m_DefaultRangeMin = a ∧ r.m_DefaultRangeMax = b ∧
    r.m_DefaultLevel = l ∧ r.m_DefaultWindow = w ∧ r.m_Fixed = false := by
  intro r
  have f1 : (lw.SetRangeMinMax a b).m_Fixed = false := by
    rw [(SetRangeMinMax_frame lw a b).1, hfix]
  have r1 := SetRangeMinMax_of_lt lw a b hfix hab
  have f2 : ((lw.SetRangeMinMax a b).SetDefaultRangeMinMax a b).m_Fixed = false := by
    rw [(SetDefaultRangeMinMax_frame _ a b).1, f1]
  have d2 := SetDefaultRangeMinMax_of_lt (lw.SetRangeMinMax a b) a b f1 hab
  have k2 := SetDefaultRangeMinMax_frame (lw.SetRangeMinMax a b) a b
  have m3 := SetMinMax_full_range ((lw.SetRangeMinMax a b).SetDefaultRangeMinMax a b) a b f2 hab
    (by rw [k2.2.1, r1.1]) (by rw [k2.2.2.1, r1.2])
  have k3 := SetMinMax_frame ((lw.SetRangeMinMax a b).SetDefaultRangeMinMax a b) a b
  have f3 : (((lw.SetRangeMinMax a b).SetDefaultRangeMinMax a b).SetMinMax a b).m_Fixed = false := by
    rw [k3.1, f2]
  have k4 := SetDefaultLevelWindow_frame
    (((lw.SetRangeMinMax a b).SetDefaultRangeMinMax a b).SetMinMax a b) l w
  have d4 := SetDefaultLevelWindow_of_not_fixed
    (((lw.SetRangeMinMax a b).SetDefaultRangeMinMax a b).SetMinMax a b) l w f3
  refine ⟨?_, ?_, ?_, ?_, ?_, ?_, d4.1, d4.2, ?_⟩
  · rw [k4.2.2.2.1, m3.1]
  · rw [k4.2.2.2.2.1, m3.2]
  · rw [k4.2.1, k3.2.1, k2.2.1, r1.1]
  · rw [k4.2.2.1, k3.2.2.1, k2.2.2.1, r1.2]
  · rw [k4.2.2.2.2.2.1, k3.2.2.2.1, d2.1]
  · rw [k4.2.2.2.2.2.2, k3.2.2.2.2.1, d2.2]
  · rw [k4.1, f3]

theorem SetAutoByPicTags_untagged (lw : LevelWindow S) (aPic : Option (ipPicDescriptor S))
    (h : ∀ pic, aPic = some pic → pic.levelWindowTag = none) :
    lw.SetAutoByPicTags aPic = (false, lw) := by
  unfold SetAutoByPicTags
  split_ifs
  · rfl
  · cases aPic with
    | none => rfl
    | some pic => simp only [h pic rfl]

/-- Claim C4, amended. For every non-fixed window and every initialised volume for
which the scanned image and the whole volume both report `minValue = maxValue = v`,
`v` not being the signed-integer sentinel, and provided that `tryPicTags` is false or
the scanned image carries no `LEVEL/WINDOW` annotation, `SetAuto` leaves
`m_RangeMin = v - 1`, `m_RangeMax = v`, `m_Min = v - 1 < m_Max = v`, the default range
`[v - 1, v]`, default level `v - 1/2` and default window `1`. The function is total, and
no value is divided by the width `maxValue - minValue`. -/
theorem SetAuto_uniform_untagged (lw : LevelWindow S) (img : Image S)
    (tryPicTags guessByCentralSlice : Bool) (v : S)
    (hfix : lw.m_Fixed = false)
    (hinit : (if guessByCentralSlice then img.centralSlice else img.whole).initialized = true)
    (hsmin : (if guessByCentralSlice then img.centralSlice else img.whole).scalarValueMin = v)
    (hsmax : (if guessByCentralSlice then img.centralSlice else img.whole).scalarValueMax = v)
    (hwmin : img.whole.scalarValueMin = v) (hwmax : img.whole.scalarValueMax = v)
    (hsentinel : ¬ ((if guessByCentralSlice then img.centralSlice else img.whole).pixelType.type
          = ipPicType_t.ipPicInt ∧
        (if guessByCentralSlice then img.centralSlice else img.whole).pixelType.bpe ≥ 8 ∧
        v = -((2 : S) ^ (if guessByCentralSlice then img.centralSlice else img.whole).pixelType.bpe
              / 2)))
    (htag : tryPicTags = false ∨
      ∀ pic, (if guessByCentralSlice then img.centralSlice else img.whole).pic = some pic →
        pic.levelWindowTag = none) :
    (lw.SetAuto (some img) tryPicTags guessByCentralSlice).m_RangeMin = v - 1 ∧
    (lw.SetAuto (some img) tryPicTags guessByCentralSlice).m_RangeMax = v ∧
    (lw.SetAuto (some img) tryPicTags guessByCentralSlice).m_Min = v - 1 ∧
    (lw.SetAuto (some img) tryPicTags guessByCentralSlice).m_Max = v ∧
    (lw.SetAuto (some img) tryPicTags guessByCentralSlice).m_Min
      < (lw.SetAuto (some img) tryPicTags guessByCentralSlice).m_Max ∧
    (lw.SetAuto (some img) tryPicTags guessByCentralSlice).m_DefaultRangeMin = v - 1 ∧
    (lw.SetAuto (some img) tryPicTags guessByCentralSlice).m_DefaultRangeMax = v ∧
    (lw.SetAuto (some img) tryPicTags guessByCentralSlice).m_DefaultLevel = v - 1 / 2 ∧
    (lw.SetAuto (some img) tryPicTags guessByCentralSlice).m_DefaultWindow = 1 := by
  generalize hI : (if guessByCentralSlice then img.centralSlice else img.whole) = image at *
  have hlt : v - 1 < v := by linarith
  have f1 : (lw.SetRangeMinMax (v - 1) v).m_Fixed = false := by
    rw [(SetRangeMinMax_frame lw _ _).1, hfix]
  have f2 : ((lw.SetRangeMinMax (v - 1) v).SetDefaultRangeMinMax (v - 1) v).m_Fixed = false := by
    rw [(SetDefaultRangeMinMax_frame _ _ _).1, f1]
  have hc := SetAuto_chain ((lw.SetRangeMinMax (v - 1) v).SetDefaultRangeMinMax (v - 1) v)
    (v - 1) v ((v - (v - 1)) / 2 + (v - 1)) (v - (v - 1)) f2 hlt
  have hsent : (if image.pixelType.type = ipPicType_t.ipPicInt ∧ image.pixelType.bpe ≥ 8 then
        if v = -((2 : S) ^ image.pixelType.bpe / 2) then img.whole.scalarValue2ndMin else v
      else v) = v := by
    split_ifs with h1 h2
    · exact absurd ⟨h1.1, h1.2, h2⟩ hsentinel
    · rfl
    · rfl
  have hS : lw.SetAuto (some img) tryPicTags guessByCentralSlice =
      (((((lw.SetRangeMinMax (v - 1) v).SetDefaultRangeMinMax (v - 1) v).SetRangeMinMax (v - 1) v
        ).SetDefaultRangeMinMax (v - 1) v).SetMinMax (v - 1) v).SetDefaultLevelWindow
          ((v - (v - 1)) / 2 + (v - 1)) (v - (v - 1)) := by
    simp only [SetAuto, IsFixed, hfix, Bool.false_eq_true, if_false, hI, hinit, Bool.not_true,
      hsmin, hsmax, hwmin, hwmax, decide_True, if_true, hsent]
    rcases htag with h | h
    · simp [h]
    · rw [SetAutoByPicTags_untagged _ _ h]
      simp
  rw [hS]
  obtain ⟨h1, h2, h3, h4, h5, h6, h7, h8, -⟩ := hc
  refine ⟨h3, h4, h1, h2, ?_, h5, h6, ?_, ?_⟩
  · rw [h1, h2]; exact hlt
  · rw [h7]; ring
  · rw [h8]; ring

/-- The amended claim C4 applied to the untagged uniform volume of value `5`. -/
theorem SetAuto_uniform_untagged_witness :
    (window255.SetAuto (some uniformImage) true true).m_RangeMin = 5 - 1 ∧
    (window255.SetAuto (some uniformImage) true true).m_RangeMax = 5 :=
  ⟨(SetAuto_uniform_untagged window255 uniformImage true true 5 rfl rfl rfl rfl rfl rfl
      (by norm_num [uniformImage, uniformImageData])
      (Or.inr (by simp [uniformImage, uniformImageData]))).1,
   (SetAuto_uniform_untagged window255 uniformImage true true 5 rfl rfl rfl rfl rfl rfl
      (by norm_num [uniformImage, uniformImageData])
      (Or.inr (by simp [uniformImage, uniformImageData]))).2.1⟩

theorem ite_range_lt (c : Prop) [Decidable c] (A B : LevelWindow S)
    (hA : A.m_RangeMin < A.m_RangeMax) (hB : B.m_RangeMin < B.m_RangeMax) :
    (if c then A else B).m_RangeMin < (if c then A else B).m_RangeMax := by
  split_ifs
  · exact hA
  · exact hB

theorem SetDefaultRangeMinMax_range_lt (lw : LevelWindow S) (a b : S)
    (h : lw.m_RangeMin < lw.m_RangeMax) :
    (lw.SetDefaultRangeMinMax a b).m_RangeMin < (lw.SetDefaultRangeMinMax a b).m_RangeMax := by
  rw [(SetDefaultRangeMinMax_frame _ _ _).2.1, (SetDefaultRangeMinMax_frame _ _ _).2.2.1]
  exact h

theorem SetDefaultLevelWindow_range_lt (lw : LevelWindow S) (a b : S)
    (h : lw.m_RangeMin < lw.m_RangeMax) :
    (lw.SetDefaultLevelWindow a b).m_RangeMin < (lw.SetDefaultLevelWindow a b).m_RangeMax := by
  rw [(SetDefaultLevelWindow_frame _ _ _).2.1, (SetDefaultLevelWindow_frame _ _ _).2.2.1]
  exact h

theorem SetLevelWindow_range_lt (lw : LevelWindow S) (a b : S)
    (h : lw.m_RangeMin < lw.m_RangeMax) :
    (lw.SetLevelWindow a b).m_RangeMin < (lw.SetLevelWindow a b).m_RangeMax := by
  rw [(SetLevelWindow_frame _ _ _).2.1, (SetLevelWindow_frame _ _ _).2.2.1]
  exact h

theorem SetMinMax_range_lt (lw : LevelWindow S) (a b : S)
    (h : lw.m_RangeMin < lw.m_RangeMax) :
    (lw.SetMinMax a b).m_RangeMin < (lw.SetMinMax a b).m_RangeMax := by
  rw [(SetMinMax_frame _ _ _).2.1, (SetMinMax_frame _ _ _).2.2.1]
  exact h

theorem SetAutoByPicTags_range_lt (lw : LevelWindow S) (aPic : Option (ipPicDescriptor S))
    (h : lw.m_RangeMin < lw.m_RangeMax) :
    (lw.SetAutoByPicTags aPic).2.m_RangeMin < (lw.SetAutoByPicTags aPic).2.m_RangeMax := by
  unfold SetAutoByPicTags
  split_ifs
  · exact h
  · rcases aPic with _ | ⟨⟨_ | ⟨level, window⟩⟩⟩
    · exact h
    · exact h
    · dsimp only
      apply SetDefaultLevelWindow_range_lt
      apply SetLevelWindow_range_lt
      apply SetDefaultRangeMinMax_range_lt
      exact SetRangeMinMax_range_lt _ _ _ (Or.inr h)

theorem SetAuto_range_lt (lw : LevelWindow S) (image : Option (Image S)) (t g : Bool)
    (h : lw.m_RangeMin < lw.m_RangeMax) :
    (lw.SetAuto image t g).m_RangeMin < (lw.SetAuto image t g).m_RangeMax := by
  unfold SetAuto
  apply ite_range_lt _ _ _ h
  rcases image with _ | img
  · exact h
  · dsimp only
    apply ite_range_lt _ _ _ h
    have chain : ∀ (l : LevelWindow S) (a b c d : S), l.m_RangeMin < l.m_RangeMax →
        ((((l.SetRangeMinMax a b).SetDefaultRangeMinMax a b).SetMinMax a b
          ).SetDefaultLevelWindow c d).m_RangeMin <
        ((((l.SetRangeMinMax a b).SetDefaultRangeMinMax a b).SetMinMax a b
          ).SetDefaultLevelWindow c d).m_RangeMax := by
      intro l a b c d hl
      apply SetDefaultLevelWindow_range_lt
      apply SetMinMax_range_lt
      apply SetDefaultRangeMinMax_range_lt
      exact SetRangeMinMax_range_lt _ _ _ (Or.inr hl)
    have pre : ∀ (c : Prop) [Decidable c] (a b : S),
        (if c then (lw.SetRangeMinMax a b).SetDefaultRangeMinMax a b else lw).m_RangeMin <
        (if c then (lw.SetRangeMinMax a b).SetDefaultRangeMinMax a b else lw).m_RangeMax := by
      intro c _ a b
      apply ite_range_lt _ _ _ _ h
      apply SetDefaultRangeMinMax_range_lt
      exact SetRangeMinMax_range_lt _ _ _ (Or.inr h)
    apply ite_range_lt
    · apply SetAutoByPicTags_range_lt
      exact chain _ _ _ _ _ (pre _ _ _)
    · exact chain _ _ _ _ _ (pre _ _ _)

/-- Claim C10. In every state reachable from the constructor by any sequence of
`SetLevelWindow`, `SetMinMax`, `SetRangeMinMax`, `SetDefaultRangeMinMax`,
`SetDefaultLevelWindow`, `ResetDefaultLevelWindow`, `ResetDefaultRangeMinMax`,
`SetAutoByPicTags`, `SetAuto`, `SetToMaxWindowSize`, `SetFixed` and assignment from
another reachable window, with arbitrary arguments, `m_RangeMin < m_RangeMax`. -/
theorem Reachable_rangeMin_lt_rangeMax (lw : LevelWindow S) (h : Reachable lw) :
    lw.m_RangeMin < lw.m_RangeMax := by
  induction h with
  | ctor level window => simp only [LevelWindow.ctor]; norm_num
  | SetLevelWindow level window _ ih =>
    rw [(SetLevelWindow_frame _ _ _).2.1, (SetLevelWindow_frame _ _ _).2.2.1]; exact ih
  | SetMinMax min max _ ih =>
    rw [(SetMinMax_frame _ _ _).2.1, (SetMinMax_frame _ _ _).2.2.1]; exact ih
  | SetRangeMinMax min max _ ih => exact SetRangeMinMax_range_lt _ _ _ (Or.inr ih)
  | SetDefaultRangeMinMax min max _ ih =>
    rw [(SetDefaultRangeMinMax_frame _ _ _).2.1, (SetDefaultRangeMinMax_frame _ _ _).2.2.1]
    exact ih
  | SetDefaultLevelWindow level window _ ih =>
    rw [(SetDefaultLevelWindow_frame _ _ _).2.1, (SetDefaultLevelWindow_frame _ _ _).2.2.1]
    exact ih
  | ResetDefaultLevelWindow _ ih =>
    unfold ResetDefaultLevelWindow
    split_ifs
    · exact ih
    · rw [(SetLevelWindow_frame _ _ _).2.1, (SetLevelWindow_frame _ _ _).2.2.1]; exact ih
  | ResetDefaultRangeMinMax _ ih => exact SetRangeMinMax_range_lt _ _ _ (Or.inr ih)
  | SetAutoByPicTags aPic _ ih => exact SetAutoByPicTags_range_lt _ _ ih
  | SetAuto image t g _ ih => exact SetAuto_range_lt _ _ _ _ ih
  | SetToMaxWindowSize _ ih => exact ih
  | SetFixed isFixed _ ih => exact ih
  | assign _ _ _ ih => exact ih

/-- Claim C10 applied to the state reached by `LevelWindow(40, 400)`,
`SetRangeMinMax(7, 7)`, `SetMinMax(3, 9)`. -/
theorem Reachable_rangeMin_lt_rangeMax_witness :
    (((LevelWindow.ctor 40 400 : LevelWindow ℚ).SetRangeMinMax 7 7).SetMinMax 3 9).m_RangeMin
      < (((LevelWindow.ctor 40 400 : LevelWindow ℚ).SetRangeMinMax 7 7).SetMinMax 3 9).m_RangeMax :=
  Reachable_rangeMin_lt_rangeMax _
    (Reachable.SetMinMax 3 9 (Reachable.SetRangeMinMax 7 7 (Reachable.ctor 40 400)))

end LevelWindow

namespace EditableContourTool

variable {Point : Type}
open Examples

/-! ## EditableContourTool: theorems -/

/-- The handlers that start with the plane test (`OnAddPoint`, `OnMouseMoved`,
`OnFinish`) return without any change for an off-plane position. -/
theorem offPlane_guarded_handlers_noop (t : EditableContourTool Point) (p : Point)
    (s : PlaneGeometry Point) (h : t.offPlane p = true) :
    t.OnAddPoint (InteractionEvent.position p s) = Except.ok t ∧
    t.OnMouseMoved (InteractionEvent.position p s) = Except.ok t ∧
    t.OnFinish (InteractionEvent.position p s) = Except.ok t := by
  simp [OnAddPoint, OnMouseMoved, OnFinish, h, pure, Except.pure]

/-- Claim C5, refuted as stated. From the idle tool bound to working and reference
data, the four events `InitContour` at `P0 = (0,0,0)`, `AddPoint` at `P1 = (1,0,0)`,
`AddPoint` at `P2 = (1,1,0)`, `Finish` at `P2`, all on the plane `z = 0` and inside the
image region, end with a closed working contour whose control vertices are `P0, P0`:
the positions of the `AddPoint` events never enter the working contour, which is fed
from the preview contour only. -/
theorem four_event_sequence_control_points :
    (idleTool.run [(Action.InitObject, eventAt (0, 0, 0)), (Action.AddPoint, eventAt (1, 0, 0)),
        (Action.AddPoint, eventAt (1, 1, 0)),
        (Action.FinishContour, eventAt (1, 1, 0))]).toOption.map
      (fun t => t.m_Contour.map (fun c => (c.closed, c.controlPoints)))
      = some (some (true, [(0, 0, 0), (0, 0, 0)])) := by
  norm_num [run, handle, OnInitContour, OnAddPoint, OnFinish, idleTool, idle, eventAt, planeZ0,
    offPlane, sqrteps, FinalizePreviewContour, InitializePreviewContour, CreateNewContour,
    GetWorkingData, deref, IsPositionEventInsideImageRegion, wholeSpace, PrepareInitContour,
    ReleaseHelperObjects, ContourModel.New, ContourModel.AddVertex, ContourModel.RemoveVertexAt,
    ContourModel.SetControlVertexAt, ContourModel.GetNumberOfVertices, ContourModel.Concatenate,
    ContourModel.Close, ContourModel.GetTimeSteps, ContourModel.controlPoints,
    bind, Except.bind, pure, Except.pure, Except.toOption]
  decide

/-- Claim C5, amended. From an idle tool bound to working data and reference data, the
sequence `InitContour` at `P0` (inside the image region), `MouseMoved` at `P1`,
`AddPoint` at `P1`, `MouseMoved` at `P2`, `AddPoint` at `P2`, `Finish` at `P2` (`P1`, `P2`
within `sqrteps` of the pinned plane) succeeds and ends with the closed working contour
`P0, P1, P2`, all three being control vertices: its control vertices are exactly
`P0, P1, P2`. -/
theorem tracked_sequence_control_points (data ref : BaseData Point)
    (plane s1 s2 s3 s4 s5 : PlaneGeometry Point) (P0 P1 P2 : Point)
    (hin : data.IsInside P0 = true)
    (hP1 : plane.DistanceFromPlane P1 ≤ sqrteps)
    (hP2 : plane.DistanceFromPlane P2 ≤ sqrteps) :
    ∃ t, (idle (some (some data)) (some ref)).run
          [(Action.InitObject, InteractionEvent.position P0 plane),
           (Action.MovePoint, InteractionEvent.position P1 s1),
           (Action.AddPoint, InteractionEvent.position P1 s2),
           (Action.MovePoint, InteractionEvent.position P2 s3),
           (Action.AddPoint, InteractionEvent.position P2 s4),
           (Action.FinishContour, InteractionEvent.position P2 s5)] = Except.ok t ∧
      t.m_Contour = some
        { vertices := [⟨P0, true⟩, ⟨P1, true⟩, ⟨P2, true⟩], closed := true } ∧
      (∀ c, t.m_Contour = some c → c.closed = true ∧ c.controlPoints = [P0, P1, P2]) := by
  have n1 : ¬ (sqrteps < plane.DistanceFromPlane P1) := not_lt.mpr hP1
  have n2 : ¬ (sqrteps < plane.DistanceFromPlane P2) := not_lt.mpr hP2
  simp [run, handle, OnInitContour, OnAddPoint, OnFinish, OnMouseMoved, idle,
    offPlane, FinalizePreviewContour, InitializePreviewContour, UpdatePreviewContour,
    UpdateClosureContour, CreateNewContour,
    GetWorkingData, deref, IsPositionEventInsideImageRegion, PrepareInitContour,
    ReleaseHelperObjects, ContourModel.New, ContourModel.AddVertex, ContourModel.RemoveVertexAt,
    ContourModel.SetControlVertexAt, ContourModel.GetNumberOfVertices, ContourModel.Concatenate,
    ContourModel.AddVertexAtFront,
    ContourModel.Close, ContourModel.GetTimeSteps, ContourModel.controlPoints,
    bind, Except.bind, pure, Except.pure, hin, n1, n2, List.range_succ]

/-- The amended claim C5 applied to `P0 = (0,0,0)`, `P1 = (1,0,0)`, `P2 = (1,1,0)` on the
plane `z = 0`. -/
theorem tracked_sequence_control_points_witness :
    ∃ t, idleTool.run
          [(Action.InitObject, eventAt (0, 0, 0)),
           (Action.MovePoint, eventAt (1, 0, 0)),
           (Action.AddPoint, eventAt (1, 0, 0)),
           (Action.MovePoint, eventAt (1, 1, 0)),
           (Action.AddPoint, eventAt (1, 1, 0)),
           (Action.FinishContour, eventAt (1, 1, 0))] = Except.ok t ∧
      t.m_Contour = some
        { vertices := [⟨(0, 0, 0), true⟩, ⟨(1, 0, 0), true⟩, ⟨(1, 1, 0), true⟩], closed := true } ∧
      (∀ c, t.m_Contour = some c →
        c.closed = true ∧ c.controlPoints = [(0, 0, 0), (1, 0, 0), (1, 1, 0)]) :=
  tracked_sequence_control_points wholeSpace wholeSpace planeZ0 planeZ0 planeZ0 planeZ0 planeZ0
    planeZ0 (0, 0, 0) (1, 0, 0) (1, 1, 0) rfl
    (by norm_num [planeZ0, sqrteps]) (by norm_num [planeZ0, sqrteps])

/-- Claim C6, evaluated at a failing input. After `InitContour` at `(0,0,0)` has pinned
the plane `z = 0`, the position `(2,2,5)` lies at distance `5 > sqrteps` from that
plane; a `Drawing` event there appends the vertex `(2,2,5)` to the working contour
(one vertex before, two after), and an `EndDrawing` event there replaces the preview
contour `(0,0,0), (0,0,0)` by the single vertex `(2,2,5)`. Neither handler tests the
plane. -/
theorem off_plane_Drawing_and_EndDrawing_mutate :
    planeZ0.DistanceFromPlane (2, 2, 5) > sqrteps ∧
    (idleTool.run [(Action.InitObject, eventAt (0, 0, 0))]).toOption.map
      (fun t => (t.m_Contour.map (fun c => c.vertices),
                 t.m_PreviewContour.map (fun c => c.vertices)))
      = some (some [⟨(0, 0, 0), true⟩], some [⟨(0, 0, 0), false⟩, ⟨(0, 0, 0), false⟩]) ∧
    (idleTool.run [(Action.InitObject, eventAt (0, 0, 0)),
        (Action.Drawing, eventAt (2, 2, 5))]).toOption.map
      (fun t => t.m_Contour.map (fun c => c.vertices))
      = some (some [⟨(0, 0, 0), true⟩, ⟨(2, 2, 5), false⟩]) ∧
    (idleTool.run [(Action.InitObject, eventAt (0, 0, 0)),
        (Action.EndDrawing, eventAt (2, 2, 5))]).toOption.map
      (fun t => t.m_PreviewContour.map (fun c => c.vertices))
      = some (some [⟨(2, 2, 5), false⟩]) := by
  refine ⟨by norm_num [planeZ0, sqrteps], ?_, ?_, ?_⟩ <;>
  simp [run, handle, OnInitContour, OnDrawing, OnEndDrawing, idleTool, idle, eventAt,
    InitializePreviewContour, UpdateClosureContour, CreateNewContour,
    GetWorkingData, deref, IsPositionEventInsideImageRegion, wholeSpace, PrepareInitContour,
    ContourModel.New, ContourModel.AddVertex, ContourModel.RemoveVertexAt,
    ContourModel.SetControlVertexAt, ContourModel.GetNumberOfVertices,
    ContourModel.AddVertexAtFront, ContourModel.Clone,
    bind, Except.bind, pure, Except.pure, Except.toOption]

end EditableContourTool

/-! ## LevelWindow: further theorems -/

namespace LevelWindow

variable {S : Type} [LinearOrderedField S]
open Examples

/-- Claim C11, refuted as stated. On the non-fixed window `LevelWindow(127.5, 255)`,
`SetRangeMinMax(7, 7)` leaves the range `[6, 7]`, not `[7, 8]`: the collision is
resolved by `m_RangeMin = m_RangeMax - 1`. -/
theorem SetRangeMinMax_collision_example :
    window255.m_Fixed = false ∧
    (window255.SetRangeMinMax 7 7).m_RangeMin = 6 ∧
    (window255.SetRangeMinMax 7 7).m_RangeMax = 7 ∧
    (window255.SetRangeMinMax 7 7).m_RangeMin ≠ 7 ∧
    (window255.SetRangeMinMax 7 7).m_RangeMax ≠ 7 + 1 := by
  norm_num [window255, LevelWindow.ctor, SetRangeMinMax, testValues, IsFixed]

/-- Claim C11, amended. `SetRangeMinMax` auto-swaps its arguments and resolves a
collision by lowering the lower bound: on every non-fixed window and for every `a`,
after `SetRangeMinMax(a, a)` the range is `m_RangeMin = a - 1`, `m_RangeMax = a`; and
for all `a`, `b` (and every window, fixed or not) `SetRangeMinMax(a, b)` and
`SetRangeMinMax(b, a)` produce the same state. -/
theorem SetRangeMinMax_collision_and_swap (lw : LevelWindow S) (a : S)
    (hfix : lw.m_Fixed = false) :
    (lw.SetRangeMinMax a a).m_RangeMin = a - 1 ∧
    (lw.SetRangeMinMax a a).m_RangeMax = a ∧
    (∀ (l : LevelWindow S) (x y : S), l.SetRangeMinMax x y = l.SetRangeMinMax y x) := by
  refine ⟨?_, ?_, ?_⟩
  · simp only [SetRangeMinMax, IsFixed, hfix, Bool.false_eq_true, if_false, testValues_fields,
      gt_iff_lt, lt_irrefl, if_true]
  · simp only [SetRangeMinMax, IsFixed, hfix, Bool.false_eq_true, if_false, testValues_fields,
      gt_iff_lt, lt_irrefl]
  · intro l x y
    rcases lt_trichotomy x y with h | h | h
    · simp only [SetRangeMinMax, gt_iff_lt, if_neg (not_lt.mpr h.le), if_pos h]
    · subst h; rfl
    · simp only [SetRangeMinMax, gt_iff_lt, if_neg (not_lt.mpr h.le), if_pos h]

/-- The amended claim C11 applied to `LevelWindow(127.5, 255)` and `a = 7`. -/
theorem SetRangeMinMax_collision_and_swap_witness :
    (window255.SetRangeMinMax 7 7).m_RangeMin = 7 - 1 ∧
    (window255.SetRangeMinMax 7 7).m_RangeMax = 7 ∧
    window255.SetRangeMinMax 3 9 = window255.SetRangeMinMax 9 3 :=
  ⟨(SetRangeMinMax_collision_and_swap window255 7 rfl).1,
   (SetRangeMinMax_collision_and_swap window255 7 rfl).2.1,
   (SetRangeMinMax_collision_and_swap window255 7 rfl).2.2 window255 3 9⟩

/-- The state left by `SetAuto` when the scan (of the scanned image, or of the whole
volume when the scanned image is uniform) yields `minValue`, `maxValue`, `min2ndValue`,
the sentinel step turns `minValue` into `m < maxValue`, and no tag override applies. -/
theorem SetAuto_of_lt (lw : LevelWindow S) (img : Image S)
    (tryPicTags guessByCentralSlice : Bool) (minValue maxValue min2ndValue m : S)
    (hfix : lw.m_Fixed = false)
    (hinit : (if guessByCentralSlice then img.centralSlice else img.whole).initialized = true)
    (hscan :
      ((if guessByCentralSlice then img.centralSlice else img.whole).scalarValueMin ≠
          (if guessByCentralSlice then img.centralSlice else img.whole).scalarValueMax ∧
        minValue = (if guessByCentralSlice then img.centralSlice else img.whole).scalarValueMin ∧
        maxValue = (if guessByCentralSlice then img.centralSlice else img.whole).scalarValueMax ∧
        min2ndValue =
          (if guessByCentralSlice then img.centralSlice else img.whole).scalarValue2ndMin) ∨
      ((if guessByCentralSlice then img.centralSlice else img.whole).scalarValueMin =
          (if guessByCentralSlice then img.centralSlice else img.whole).scalarValueMax ∧
        minValue = img.whole.scalarValueMin ∧ maxValue = img.whole.scalarValueMax ∧
        min2ndValue = img.whole.scalarValue2ndMin))
    (hm : (if (if guessByCentralSlice then img.centralSlice else img.whole).pixelType.type
              = ipPicType_t.ipPicInt ∧
            (if guessByCentralSlice then img.centralSlice else img.whole).pixelType.bpe ≥ 8 then
          if minValue = -((2 : S) ^
              (if guessByCentralSlice then img.centralSlice else img.whole).pixelType.bpe / 2)
          then min2ndValue else minValue
        else minValue) = m)
    (hlt : m < maxValue)
    (htag : tryPicTags = false ∨
      ∀ pic, (if guessByCentralSlice then img.centralSlice else img.whole).pic = some pic →
        pic.levelWindowTag = none) :
    (lw.SetAuto (some img) tryPicTags guessByCentralSlice).m_Min = m ∧
    (lw.SetAuto (some img) tryPicTags guessByCentralSlice).m_Max = maxValue ∧
    (lw.SetAuto (some img) tryPicTags guessByCentralSlice).m_RangeMin = m ∧
    (lw.SetAuto (some img) tryPicTags guessByCentralSlice).m_RangeMax = maxValue ∧
    (lw.SetAuto (some img) tryPicTags guessByCentralSlice).m_DefaultRangeMin = m ∧
    (lw.SetAuto (some img) tryPicTags guessByCentralSlice).m_DefaultRangeMax = maxValue ∧
    (lw.SetAuto (some img) tryPicTags guessByCentralSlice).m_DefaultLevel
      = (maxValue - m) / 2 + m ∧
    (lw.SetAuto (some img) tryPicTags guessByCentralSlice).m_DefaultWindow = maxValue - m ∧
    (lw.SetAuto (some img) tryPicTags guessByCentralSlice).m_Fixed = false := by
  generalize hI : (if guessByCentralSlice then img.centralSlice else img.whole) = image at *
  have hS : lw.SetAuto (some img) tryPicTags guessByCentralSlice =
      (((lw.SetRangeMinMax m maxValue).SetDefaultRangeMinMax m maxValue).SetMinMax m maxValue
        ).SetDefaultLevelWindow ((maxValue - m) / 2 + m) (maxValue - m) := by
    have hne : ¬ (m = maxValue) := hlt.ne
    rcases hscan with ⟨h1, h2, h3, h4⟩ | ⟨h1, h2, h3, h4⟩
    · subst h2 h3 h4
      simp only [SetAuto, IsFixed, hfix, Bool.false_eq_true, if_false, hI, hinit, Bool.not_true,
        h1, decide_False, hm, hne]
      rcases htag with h | h
      · simp [h]
      · rw [SetAutoByPicTags_untagged _ _ h]
        simp
    · subst h2 h3 h4
      simp only [SetAuto, IsFixed, hfix, Bool.false_eq_true, if_false, hI, hinit, Bool.not_true,
        h1, decide_True, if_true, hm, decide_False, hne]
      rcases htag with h | h
      · simp [h]
      · rw [SetAutoByPicTags_untagged _ _ h]
        simp
  rw [hS]
  exact SetAuto_chain lw m maxValue _ _ hfix hlt

/-- Claim C12. For every non-fixed window and every initialised volume whose scan (of
the scanned image, or of the whole volume when the scanned image is uniform) reports
`minValue < maxValue`, without sentinel correction and without tag override, after
`SetAuto`: `m_RangeMin = m_DefaultRangeMin = m_Min = minValue`,
`m_RangeMax = m_DefaultRangeMax = m_Max = maxValue`,
`m_DefaultLevel = (maxValue - minValue)/2 + minValue` and
`m_DefaultWindow = maxValue - minValue`. -/
theorem SetAuto_nonuniform (lw : LevelWindow S) (img : Image S)
    (tryPicTags guessByCentralSlice : Bool) (minValue maxValue : S)
    (hfix : lw.m_Fixed = false)
    (hinit : (if guessByCentralSlice then img.centralSlice else img.whole).initialized = true)
    (hscan :
      ((if guessByCentralSlice then img.centralSlice else img.whole).scalarValueMin ≠ (if guessByCentralSlice then img.centralSlice else img.whole).scalarValueMax ∧
        minValue = (if guessByCentralSlice then img.centralSlice else img.whole).scalarValueMin ∧ maxValue = (if guessByCentralSlice then img.centralSlice else img.whole).scalarValueMax) ∨
      ((if guessByCentralSlice then img.centralSlice else img.whole).scalarValueMin = (if guessByCentralSlice then img.centralSlice else img.whole).scalarValueMax ∧
        minValue = img.whole.scalarValueMin ∧ maxValue = img.whole.scalarValueMax))
    (hlt : minValue < maxValue)
    (hsentinel : ¬ ((if guessByCentralSlice then img.centralSlice else img.whole).pixelType.type = ipPicType_t.ipPicInt ∧ (if guessByCentralSlice then img.centralSlice else img.whole).pixelType.bpe ≥ 8 ∧
        minValue = -((2 : S) ^ (if guessByCentralSlice then img.centralSlice else img.whole).pixelType.bpe / 2)))
    (htag : tryPicTags = false ∨ ∀ pic, (if guessByCentralSlice then img.centralSlice else img.whole).pic = some pic → pic.levelWindowTag = none) :
    (lw.SetAuto (some img) tryPicTags guessByCentralSlice).m_RangeMin = minValue ∧
    (lw.SetAuto (some img) tryPicTags guessByCentralSlice).m_DefaultRangeMin = minValue ∧
    (lw.SetAuto (some img) tryPicTags guessByCentralSlice).m_Min = minValue ∧
    (lw.SetAuto (some img) tryPicTags guessByCentralSlice).m_RangeMax = maxValue ∧
    (lw.SetAuto (some img) tryPicTags guessByCentralSlice).m_DefaultRangeMax = maxValue ∧
    (lw.SetAuto (some img) tryPicTags guessByCentralSlice).m_Max = maxValue ∧
    (lw.SetAuto (some img) tryPicTags guessByCentralSlice).m_DefaultLevel
      = (maxValue - minValue) / 2 + minValue ∧
    (lw.SetAuto (some img) tryPicTags guessByCentralSlice).m_DefaultWindow
      = maxValue - minValue := by
  have hm : ∀ x : S, (if (if guessByCentralSlice then img.centralSlice else img.whole).pixelType.type = ipPicType_t.ipPicInt ∧ (if guessByCentralSlice then img.centralSlice else img.whole).pixelType.bpe ≥ 8 then
        if minValue = -((2 : S) ^ (if guessByCentralSlice then img.centralSlice else img.whole).pixelType.bpe / 2) then x else minValue
      else minValue) = minValue := by
    intro x
    by_cases h1 : (if guessByCentralSlice then img.centralSlice else img.whole).pixelType.type = ipPicType_t.ipPicInt ∧ (if guessByCentralSlice then img.centralSlice else img.whole).pixelType.bpe ≥ 8
    · rw [if_pos h1]
      by_cases h2 : minValue = -((2 : S) ^ (if guessByCentralSlice then img.centralSlice else img.whole).pixelType.bpe / 2)
      · exact absurd ⟨h1.1, h1.2, h2⟩ hsentinel
      · rw [if_neg h2]
    · rw [if_neg h1]
  have key : ∃ min2ndValue,
      ((if guessByCentralSlice then img.centralSlice else img.whole).scalarValueMin ≠ (if guessByCentralSlice then img.centralSlice else img.whole).scalarValueMax ∧
        minValue = (if guessByCentralSlice then img.centralSlice else img.whole).scalarValueMin ∧ maxValue = (if guessByCentralSlice then img.centralSlice else img.whole).scalarValueMax ∧
        min2ndValue = (if guessByCentralSlice then img.centralSlice else img.whole).scalarValue2ndMin) ∨
      ((if guessByCentralSlice then img.centralSlice else img.whole).scalarValueMin = (if guessByCentralSlice then img.centralSlice else img.whole).scalarValueMax ∧
        minValue = img.whole.scalarValueMin ∧ maxValue = img.whole.scalarValueMax ∧
        min2ndValue = img.whole.scalarValue2ndMin) := by
    rcases hscan with ⟨h1, h2, h3⟩ | ⟨h1, h2, h3⟩
    · exact ⟨_, Or.inl ⟨h1, h2, h3, rfl⟩⟩
    · exact ⟨_, Or.inr ⟨h1, h2, h3, rfl⟩⟩
  obtain ⟨min2ndValue, hs⟩ := key
  obtain ⟨h1, h2, h3, h4, h5, h6, h7, h8, -⟩ :=
    SetAuto_of_lt lw img tryPicTags guessByCentralSlice minValue maxValue min2ndValue minValue
      hfix hinit hs (hm min2ndValue) hlt htag
  exact ⟨h3, h5, h1, h4, h6, h2, h7, h8⟩

/-- Claim C12 applied to `LevelWindow(127.5, 255)` and the volume with value counts
`0:100, 5:1, 10:98, 15:1`. -/
theorem SetAuto_nonuniform_witness :
    (window255.SetAuto (some countsImage) true true).m_RangeMin = 0 ∧
    (window255.SetAuto (some countsImage) true true).m_RangeMax = 15 ∧
    (window255.SetAuto (some countsImage) true true).m_DefaultWindow = 15 - 0 :=
  have h := SetAuto_nonuniform window255 countsImage true true 0 15 rfl rfl
    (Or.inl (by norm_num [countsImage, countsImageData])) (by norm_num)
    (by norm_num [countsImage, countsImageData])
    (Or.inr (by simp [countsImage, countsImageData]))
  ⟨h.1, h.2.2.2.1, h.2.2.2.2.2.2.2⟩

/-- Claim C13, refuted as stated. (1) A signed-integer image with 4 bits per element
whose smallest value is `-8 = -2^(4-1)` and whose second smallest value is `5`: `SetAuto`
uses `-8` unchanged (range `[-8, 15]`), because the correction is guarded by
`GetBpe() >= 8`. (2) A 16-bit signed image with smallest value `-32768 = -2^15`, second
smallest value `5 < 15` and the annotation `LEVEL/WINDOW = (100, 50)`: with `tryPicTags`
the resulting range is `[5, 125]`, not `[5, 15]`. -/
theorem SetAuto_sentinel_examples :
    fourBitImageData.pixelType.type = ipPicType_t.ipPicInt ∧
    fourBitImageData.scalarValueMin = -(2 : ℚ) ^ (fourBitImageData.pixelType.bpe - 1) ∧
    fourBitImageData.scalarValue2ndMin = 5 ∧
    (window255.SetAuto (some fourBitImage) false false).m_RangeMin = -8 ∧
    (window255.SetAuto (some fourBitImage) false false).m_RangeMax = 15 ∧
    sentinelTaggedImageData.scalarValueMin
      = -(2 : ℚ) ^ (sentinelTaggedImageData.pixelType.bpe - 1) ∧
    (window255.SetAuto (some sentinelTaggedImage) true false).m_RangeMin = 5 ∧
    (window255.SetAuto (some sentinelTaggedImage) true false).m_RangeMax = 125 := by
  norm_num [window255, fourBitImage, fourBitImageData, sentinelTaggedImage,
    sentinelTaggedImageData, sentinelImageData, countsImageData, LevelWindow.ctor, SetAuto,
    SetRangeMinMax, SetDefaultRangeMinMax, SetMinMax, SetDefaultLevelWindow, SetAutoByPicTags,
    SetLevelWindow, testValues, IsFixed, numPixels, GetRangeMin, GetRangeMax]

/-- Claim C13, amended. Sentinel correction in `SetAuto`, on a non-fixed window, for
an initialised volume and without tag override: if the pixel type is signed integer
with bit depth `B >= 8` and the scanned `minValue` equals `-2^(B-1)`, then `minValue` is
replaced by `min2ndValue` before the range is set, so that (when
`min2ndValue < maxValue`) the resulting range, default range and window are
`[min2ndValue, maxValue]`; for any other `minValue`, any bit depth below 8 or any
non-signed-integer pixel type, `minValue` is used unchanged (when
`minValue < maxValue` the resulting range, default range and window are
`[minValue, maxValue]`). -/
theorem SetAuto_sentinel (lw : LevelWindow S) (img : Image S)
    (tryPicTags guessByCentralSlice : Bool) (minValue maxValue min2ndValue : S)
    (hfix : lw.m_Fixed = false)
    (hinit : (if guessByCentralSlice then img.centralSlice else img.whole).initialized = true)
    (hscan :
      ((if guessByCentralSlice then img.centralSlice else img.whole).scalarValueMin ≠ (if guessByCentralSlice then img.centralSlice else img.whole).scalarValueMax ∧
        minValue = (if guessByCentralSlice then img.centralSlice else img.whole).scalarValueMin ∧ maxValue = (if guessByCentralSlice then img.centralSlice else img.whole).scalarValueMax ∧
        min2ndValue = (if guessByCentralSlice then img.centralSlice else img.whole).scalarValue2ndMin) ∨
      ((if guessByCentralSlice then img.centralSlice else img.whole).scalarValueMin = (if guessByCentralSlice then img.centralSlice else img.whole).scalarValueMax ∧
        minValue = img.whole.scalarValueMin ∧ maxValue = img.whole.scalarValueMax ∧
        min2ndValue = img.whole.scalarValue2ndMin))
    (htag : tryPicTags = false ∨ ∀ pic, (if guessByCentralSlice then img.centralSlice else img.whole).pic = some pic → pic.levelWindowTag = none) :
    ((if guessByCentralSlice then img.centralSlice else img.whole).pixelType.type = ipPicType_t.ipPicInt → (if guessByCentralSlice then img.centralSlice else img.whole).pixelType.bpe ≥ 8 →
      minValue = -(2 : S) ^ ((if guessByCentralSlice then img.centralSlice else img.whole).pixelType.bpe - 1) → min2ndValue < maxValue →
      (lw.SetAuto (some img) tryPicTags guessByCentralSlice).m_RangeMin = min2ndValue ∧
      (lw.SetAuto (some img) tryPicTags guessByCentralSlice).m_RangeMax = maxValue ∧
      (lw.SetAuto (some img) tryPicTags guessByCentralSlice).m_DefaultRangeMin = min2ndValue ∧
      (lw.SetAuto (some img) tryPicTags guessByCentralSlice).m_DefaultRangeMax = maxValue ∧
      (lw.SetAuto (some img) tryPicTags guessByCentralSlice).m_Min = min2ndValue ∧
      (lw.SetAuto (some img) tryPicTags guessByCentralSlice).m_Max = maxValue) ∧
    (¬ ((if guessByCentralSlice then img.centralSlice else img.whole).pixelType.type = ipPicType_t.ipPicInt ∧ (if guessByCentralSlice then img.centralSlice else img.whole).pixelType.bpe ≥ 8 ∧
          minValue = -(2 : S) ^ ((if guessByCentralSlice then img.centralSlice else img.whole).pixelType.bpe - 1)) → minValue < maxValue →
      (lw.SetAuto (some img) tryPicTags guessByCentralSlice).m_RangeMin = minValue ∧
      (lw.SetAuto (some img) tryPicTags guessByCentralSlice).m_RangeMax = maxValue ∧
      (lw.SetAuto (some img) tryPicTags guessByCentralSlice).m_DefaultRangeMin = minValue ∧
      (lw.SetAuto (some img) tryPicTags guessByCentralSlice).m_DefaultRangeMax = maxValue ∧
      (lw.SetAuto (some img) tryPicTags guessByCentralSlice).m_Min = minValue ∧
      (lw.SetAuto (some img) tryPicTags guessByCentralSlice).m_Max = maxValue) := by
  have hpow : ∀ B : Nat, B ≥ 8 → (2 : S) ^ B / 2 = (2 : S) ^ (B - 1) := by
    intro B hB
    obtain ⟨k, rfl⟩ : ∃ k, B = k + 1 := ⟨B - 1, by omega⟩
    rw [pow_succ, Nat.add_sub_cancel]
    field_simp
  constructor
  · intro hT hB hmin hlt
    have hm : (if (if guessByCentralSlice then img.centralSlice else img.whole).pixelType.type = ipPicType_t.ipPicInt ∧ (if guessByCentralSlice then img.centralSlice else img.whole).pixelType.bpe ≥ 8 then
          if minValue = -((2 : S) ^ (if guessByCentralSlice then img.centralSlice else img.whole).pixelType.bpe / 2) then min2ndValue else minValue
        else minValue) = min2ndValue := by
      rw [if_pos ⟨hT, hB⟩, hpow _ hB, if_pos hmin]
    obtain ⟨h1, h2, h3, h4, h5, h6, -, -, -⟩ :=
      SetAuto_of_lt lw img tryPicTags guessByCentralSlice minValue maxValue min2ndValue
        min2ndValue hfix hinit hscan hm hlt htag
    exact ⟨h3, h4, h5, h6, h1, h2⟩
  · intro hno hlt
    have hm : (if (if guessByCentralSlice then img.centralSlice else img.whole).pixelType.type = ipPicType_t.ipPicInt ∧ (if guessByCentralSlice then img.centralSlice else img.whole).pixelType.bpe ≥ 8 then
          if minValue = -((2 : S) ^ (if guessByCentralSlice then img.centralSlice else img.whole).pixelType.bpe / 2) then min2ndValue else minValue
        else minValue) = minValue := by
      by_cases h1 : (if guessByCentralSlice then img.centralSlice else img.whole).pixelType.type = ipPicType_t.ipPicInt ∧ (if guessByCentralSlice then img.centralSlice else img.whole).pixelType.bpe ≥ 8
      · rw [if_pos h1]
        by_cases h2 : minValue = -((2 : S) ^ (if guessByCentralSlice then img.centralSlice else img.whole).pixelType.bpe / 2)
        · exact absurd ⟨h1.1, h1.2, by rw [h2, hpow _ h1.2]⟩ hno
        · rw [if_neg h2]
      · rw [if_neg h1]
    obtain ⟨h1, h2, h3, h4, h5, h6, -, -, -⟩ :=
      SetAuto_of_lt lw img tryPicTags guessByCentralSlice minValue maxValue min2ndValue
        minValue hfix hinit hscan hm hlt htag
    exact ⟨h3, h4, h5, h6, h1, h2⟩

/-- The amended claim C13 applied to the 16-bit image with smallest value `-32768`,
second smallest value `5` and largest value `15`: the range is `[5, 15]`. -/
theorem SetAuto_sentinel_witness :
    (window255.SetAuto (some sentinelImage) true false).m_RangeMin = 5 ∧
    (window255.SetAuto (some sentinelImage) true false).m_RangeMax = 15 :=
  have h := (SetAuto_sentinel window255 sentinelImage true false (-32768) 15 5 rfl rfl
    (Or.inl (by norm_num [sentinelImage, sentinelImageData, countsImageData]))
    (Or.inr (by simp [sentinelImage, sentinelImageData, countsImageData]))).1
    rfl (by norm_num [sentinelImage, sentinelImageData, countsImageData])
    (by norm_num [sentinelImage, sentinelImageData, countsImageData]) (by norm_num)
  ⟨h.1, h.2.1⟩

theorem SetLevelWindow_of_pos (lw : LevelWindow S) (level window : S)
    (hfix : lw.m_Fixed = false) (hw : 0 < window) :
    (lw.SetLevelWindow level window).m_Min = level - window / 2 ∧
    (lw.SetLevelWindow level window).m_Max = level + window / 2 := by
  have hlt : level - window / 2 < level + window / 2 := by linarith
  have h : lw.SetLevelWindow level window =
      { lw with m_Min := level - window / 2, m_Max := level + window / 2 } := by
    simp only [SetLevelWindow, IsFixed, hfix]
    exact testValues_of_lt _ hlt
  rw [h]
  exact ⟨rfl, rfl⟩

/-- Claim C14. `SetAutoByPicTags` returns true if and only if the window is not fixed,
the descriptor is non-null and it carries a `LEVEL/WINDOW` annotation `(level, window)`.
When it returns true with `window > 0`, the working window becomes
`m_Min = level - window/2`, `m_Max = level + window/2`, the default level and window
become `(level, window)`, and the range is only widened:
`m_RangeMin = min(old m_RangeMin, level - window/2)`,
`m_RangeMax = max(old m_RangeMax, level + window/2)`, the default range being set to the
same pair. When it returns false the state is unchanged. -/
theorem SetAutoByPicTags_spec (lw : LevelWindow S) (aPic : Option (ipPicDescriptor S)) :
    ((lw.SetAutoByPicTags aPic).1 = true ↔
      (lw.m_Fixed = false ∧ ∃ pic level window,
        aPic = some pic ∧ pic.levelWindowTag = some (level, window))) ∧
    (∀ pic level window, (lw.SetAutoByPicTags aPic).1 = true → aPic = some pic →
      pic.levelWindowTag = some (level, window) → 0 < window →
      (lw.SetAutoByPicTags aPic).2.m_Min = level - window / 2 ∧
      (lw.SetAutoByPicTags aPic).2.m_Max = level + window / 2 ∧
      (lw.SetAutoByPicTags aPic).2.m_DefaultLevel = level ∧
      (lw.SetAutoByPicTags aPic).2.m_DefaultWindow = window ∧
      (lw.SetAutoByPicTags aPic).2.m_RangeMin = min lw.m_RangeMin (level - window / 2) ∧
      (lw.SetAutoByPicTags aPic).2.m_RangeMax = max lw.m_RangeMax (level + window / 2) ∧
      (lw.SetAutoByPicTags aPic).2.m_DefaultRangeMin = min lw.m_RangeMin (level - window / 2) ∧
      (lw.SetAutoByPicTags aPic).2.m_DefaultRangeMax
        = max lw.m_RangeMax (level + window / 2)) ∧
    ((lw.SetAutoByPicTags aPic).1 = false → (lw.SetAutoByPicTags aPic).2 = lw) := by
  have hret : (lw.SetAutoByPicTags aPic).1 = true ↔
      (lw.m_Fixed = false ∧ ∃ pic level window,
        aPic = some pic ∧ pic.levelWindowTag = some (level, window)) := by
    cases hfix : lw.m_Fixed
    · rcases aPic with _ | ⟨⟨_ | ⟨level, window⟩⟩⟩
      · simp [SetAutoByPicTags, IsFixed, hfix]
      · simp [SetAutoByPicTags, IsFixed, hfix]
      · simp [SetAutoByPicTags, IsFixed, hfix]
    · simp [SetAutoByPicTags, IsFixed, hfix]
  refine ⟨hret, ?_, ?_⟩
  · intro pic level window htrue hpic htagv hw
    have hfix : lw.m_Fixed = false := (hret.mp htrue).1
    subst hpic
    have hmin : (if lw.GetRangeMin > level - window / 2 then level - window / 2
        else lw.GetRangeMin) = min lw.m_RangeMin (level - window / 2) := by
      simp only [GetRangeMin, gt_iff_lt]
      split_ifs with h
      · exact (min_eq_right h.le).symm
      · exact (min_eq_left (not_lt.mp h)).symm
    have hmax : (if lw.GetRangeMax < level + window / 2 then level + window / 2
        else lw.GetRangeMax) = max lw.m_RangeMax (level + window / 2) := by
      simp only [GetRangeMax]
      split_ifs with h
      · exact (max_eq_right h.le).symm
      · exact (max_eq_left (not_lt.mp h)).symm
    have hS : (lw.SetAutoByPicTags (some pic)).2 =
        (((lw.SetRangeMinMax (min lw.m_RangeMin (level - window / 2))
              (max lw.m_RangeMax (level + window / 2))).SetDefaultRangeMinMax
            (min lw.m_RangeMin (level - window / 2))
            (max lw.m_RangeMax (level + window / 2))).SetLevelWindow level window
          ).SetDefaultLevelWindow level window := by
      simp only [SetAutoByPicTags, IsFixed, hfix, Bool.false_eq_true, if_false, htagv, hmin, hmax]
    have hab : min lw.m_RangeMin (level - window / 2) < max lw.m_RangeMax (level + window / 2) :=
      lt_of_le_of_lt (min_le_right _ _)
        (lt_of_lt_of_le (by linarith) (le_max_right _ _))
    generalize min lw.m_RangeMin (level - window / 2) = a at hS hab ⊢
    generalize max lw.m_RangeMax (level + window / 2) = b at hS hab ⊢
    rw [hS]
    have f1 : (lw.SetRangeMinMax a b).m_Fixed = false := by
      rw [(SetRangeMinMax_frame lw a b).1, hfix]
    have r1 := SetRangeMinMax_of_lt lw a b hfix hab
    have k2 := SetDefaultRangeMinMax_frame (lw.SetRangeMinMax a b) a b
    have d2 := SetDefaultRangeMinMax_of_lt (lw.SetRangeMinMax a b) a b f1 hab
    have f2 : ((lw.SetRangeMinMax a b).SetDefaultRangeMinMax a b).m_Fixed = false := by
      rw [k2.1, f1]
    have k3 := SetLevelWindow_frame ((lw.SetRangeMinMax a b).SetDefaultRangeMinMax a b)
      level window
    have m3 := SetLevelWindow_of_pos ((lw.SetRangeMinMax a b).SetDefaultRangeMinMax a b)
      level window f2 hw
    have f3 : (((lw.SetRangeMinMax a b).SetDefaultRangeMinMax a b).SetLevelWindow
        level window).m_Fixed = false := by
      rw [k3.1, f2]
    have k4 := SetDefaultLevelWindow_frame
      (((lw.SetRangeMinMax a b).SetDefaultRangeMinMax a b).SetLevelWindow level window)
      level window
    have d4 := SetDefaultLevelWindow_of_not_fixed
      (((lw.SetRangeMinMax a b).SetDefaultRangeMinMax a b).SetLevelWindow level window)
      level window f3
    refine ⟨?_, ?_, d4.1, d4.2, ?_, ?_, ?_, ?_⟩
    · rw [k4.2.2.2.1, m3.1]
    · rw [k4.2.2.2.2.1, m3.2]
    · rw [k4.2.1, k3.2.1, k2.2.1, r1.1]
    · rw [k4.2.2.1, k3.2.2.1, k2.2.2.1, r1.2]
    · rw [k4.2.2.2.2.2.1, k3.2.2.2.1, d2.1]
    · rw [k4.2.2.2.2.2.2, k3.2.2.2.2.1, d2.2]
  · intro hfalse
    cases hfix : lw.m_Fixed
    · rcases aPic with _ | ⟨⟨_ | ⟨level, window⟩⟩⟩
      · simp [SetAutoByPicTags, IsFixed, hfix]
      · simp [SetAutoByPicTags, IsFixed, hfix]
      · simp [SetAutoByPicTags, IsFixed, hfix] at hfalse
    · simp [SetAutoByPicTags, IsFixed, hfix]

/-- Claim C14 applied to `LevelWindow(127.5, 255)` (range `[-2048, 4096]`) and the
annotation `LEVEL/WINDOW = (5000, 400)`: the window becomes `[4800, 5200]` and the range
`[-2048, 5200]`. -/
theorem SetAutoByPicTags_spec_witness :
    (window255.SetAutoByPicTags (some { levelWindowTag := some (5000, 400) })).1 = true ∧
    (window255.SetAutoByPicTags (some { levelWindowTag := some (5000, 400) })).2.m_Min
      = 5000 - 400 / 2 ∧
    (window255.SetAutoByPicTags (some { levelWindowTag := some (5000, 400) })).2.m_RangeMax
      = max window255.m_RangeMax (5000 + 400 / 2) :=
  have h1 : (window255.SetAutoByPicTags (some { levelWindowTag := some (5000, 400) })).1
      = true := rfl
  have h := (SetAutoByPicTags_spec window255
    (some { levelWindowTag := some (5000, 400) })).2.1 _ 5000 400 h1 rfl rfl (by norm_num)
  ⟨h1, h.1, h.2.2.2.2.2.1⟩

end LevelWindow

/-! ## EditableContourTool: further theorems -/

namespace EditableContourTool

variable {Point : Type}
open Examples

/-- Claim C15, refuted as stated. On a tool bound neither to reference data nor to
working data, `ConfirmSegmentation(true)` raises nothing: it returns normally, having
released the helper objects and reset the state machine once. -/
theorem ConfirmSegmentation_unbound_example :
    unboundTool.GetReferenceData.isNone = true ∧ unboundTool.GetWorkingData.isNone = true ∧
    ∃ t, unboundTool.ConfirmSegmentation true = Except.ok t ∧
      t.resetToStartStateCalls = unboundTool.resetToStartStateCalls + 1 :=
  ⟨rfl, rfl, _, rfl, rfl⟩

/-- Claim C15, amended. `ConfirmSegmentation` invoked on a session that has no
reference data or no working data bound signals no failure: it skips the write-back
(nothing is handed to `WriteBackSegmentationResults`), releases the helper objects
including the working contour, resets the state machine when `resetStatMachine` is
set, and returns normally. -/
theorem ConfirmSegmentation_unbound (t : EditableContourTool Point) (resetStatMachine : Bool)
    (h : t.GetReferenceData = none ∨ t.GetWorkingData = none) :
    t.ConfirmSegmentation resetStatMachine =
      Except.ok (if resetStatMachine then (t.ReleaseHelperObjects true).ResetToStartState
                 else t.ReleaseHelperObjects true) ∧
    (∀ t', t.ConfirmSegmentation resetStatMachine = Except.ok t' →
      t'.writtenBack = t.writtenBack ∧ t'.m_Contour = none ∧ t'.m_PreviewContour = none ∧
      t'.m_ClosureContour = none) := by
  have h1 : t.ConfirmSegmentation resetStatMachine =
      Except.ok (if resetStatMachine then (t.ReleaseHelperObjects true).ResetToStartState
                 else t.ReleaseHelperObjects true) := by
    unfold ConfirmSegmentation
    rcases h with h | h
    · rw [h]; rfl
    · rw [h]
      cases t.GetReferenceData <;> rfl
  refine ⟨h1, ?_⟩
  intro t' ht'
  rw [h1] at ht'
  cases ht'
  cases resetStatMachine <;> simp [ReleaseHelperObjects, ResetToStartState]

/-- The amended claim C15 applied to the tool without any data. -/
theorem ConfirmSegmentation_unbound_witness :
    unboundTool.ConfirmSegmentation false = Except.ok (unboundTool.ReleaseHelperObjects true) :=
  (ConfirmSegmentation_unbound unboundTool false (Or.inl rfl)).1

/-- On a tool without preview contour and without pinned plane, `OnAddPoint` with a
position event fails by dereferencing the null preview contour. -/
theorem OnAddPoint_without_preview (t : EditableContourTool Point) (p : Point)
    (s : PlaneGeometry Point) (hplane : t.m_PlaneGeometry = none)
    (hpreview : t.m_PreviewContour = none) :
    t.OnAddPoint (InteractionEvent.position p s) = Except.error ToolError.nullDereference := by
  simp [OnAddPoint, offPlane, hplane, FinalizePreviewContour, hpreview, deref, bind,
    Except.bind, throw, throwThe, MonadExceptOf.throw]

/-- Claim C16, evaluated at a failing input. On the idle tool (bound to working and
reference data, `InitContour` not yet run: working, preview and closure contours and
the pinned plane unset) an `AddPoint` position event is not rejected: no plane being
pinned, the plane test is skipped and `FinalizePreviewContour` dereferences the null
preview contour. -/
theorem OnAddPoint_before_InitContour :
    idleTool.m_Contour = none ∧ idleTool.m_PreviewContour = none ∧
    idleTool.m_ClosureContour = none ∧ idleTool.m_PlaneGeometry.isNone = true ∧
    idleTool.OnAddPoint (eventAt (1, 0, 0)) = Except.error ToolError.nullDereference :=
  ⟨rfl, rfl, rfl, rfl, rfl⟩

/-- Claim C19. `InitContour` on a session with no contour in progress (working,
preview and closure contours unset) and a working data node: if the click lies outside
the spatial region of the working image (or the node has no data), no contour is
allocated (the three contours remain unset) and the state machine is reset; otherwise
(reference data being bound) the working contour consists of exactly one vertex, the
click, marked as a control vertex, the closure contour is `[click]`, the preview contour
is non-empty and each of its vertices equals the click, and the current plane of the
sender is recorded as the pinned plane. -/
theorem OnInitContour_spec (t : EditableContourTool Point) (click : Point)
    (senderPlane : PlaneGeometry Point) (data : Option (BaseData Point))
    (hworking : t.m_Contour = none) (hpreview : t.m_PreviewContour = none)
    (hclosure : t.m_ClosureContour = none)
    (hnode : t.workingDataNode = some data) :
    (IsPositionEventInsideImageRegion click data = false →
      t.OnInitContour (InteractionEvent.position click senderPlane)
        = Except.ok t.ResetToStartState ∧
      t.ResetToStartState.m_Contour = none ∧ t.ResetToStartState.m_PreviewContour = none ∧
      t.ResetToStartState.m_ClosureContour = none ∧
      t.ResetToStartState.resetToStartStateCalls = t.resetToStartStateCalls + 1) ∧
    (IsPositionEventInsideImageRegion click data = true → t.referenceData.isSome = true →
      ∃ t', t.OnInitContour (InteractionEvent.position click senderPlane) = Except.ok t' ∧
        t'.m_Contour = some { vertices := [⟨click, true⟩], closed := false } ∧
        t'.m_ClosureContour = some { vertices := [⟨click, false⟩], closed := false } ∧
        (∃ preview, t'.m_PreviewContour = some preview ∧ preview.vertices ≠ [] ∧
          ∀ v ∈ preview.vertices, v.Coordinates = click) ∧
        t'.m_PlaneGeometry = some senderPlane ∧
        t'.resetToStartStateCalls = t.resetToStartStateCalls) := by
  constructor
  · intro hout
    refine ⟨?_, hworking, hpreview, hclosure, rfl⟩
    simp [OnInitContour, hworking, hnode, deref, hout, bind, Except.bind, pure, Except.pure]
  · intro hin href
    obtain ⟨ref, href⟩ := Option.isSome_iff_exists.mp href
    obtain ⟨d, rfl⟩ : ∃ d, data = some d := by
      cases data with
      | none => simp [IsPositionEventInsideImageRegion] at hin
      | some d => exact ⟨d, rfl⟩
    simp [OnInitContour, hworking, hnode, deref, hin, href, CreateNewContour, GetWorkingData,
      InitializePreviewContour, PrepareInitContour, ContourModel.New, ContourModel.AddVertex,
      bind, Except.bind, pure, Except.pure]

/-- Claim C19 applied to the idle tool and a click at `(0,0,0)` inside the image
region. -/
theorem OnInitContour_spec_witness :
    ∃ t', idleTool.OnInitContour (eventAt (0, 0, 0)) = Except.ok t' ∧
      t'.m_Contour = some { vertices := [⟨(0, 0, 0), true⟩], closed := false } ∧
      t'.m_ClosureContour = some { vertices := [⟨(0, 0, 0), false⟩], closed := false } ∧
      (∃ preview, t'.m_PreviewContour = some preview ∧ preview.vertices ≠ [] ∧
        ∀ v ∈ preview.vertices, v.Coordinates = (0, 0, 0)) ∧
      t'.m_PlaneGeometry = some planeZ0 ∧
      t'.resetToStartStateCalls = idleTool.resetToStartStateCalls :=
  (OnInitContour_spec idleTool (0, 0, 0) planeZ0 (some wholeSpace) rfl rfl rfl rfl).2 rfl rfl

theorem modify_last {α : Type} (f : α → α) (init : List α) (last : α) :
    List.modify f init.length (init ++ [last]) = init ++ [f last] := by
  induction init with
  | nil => rfl
  | cons a l ih => simp [ih]

/-- What `FinalizePreviewContour` leaves of a preview contour `v0 :: rest`: the
vertices `rest`, the last of them marked as control vertex. -/
theorem FinalizePreviewContour_vertices (t : EditableContourTool Point) (p : Point)
    (v0 : ContourModelVertex Point) (rest : List (ContourModelVertex Point)) (cl : Bool)
    (hp : t.m_PreviewContour = some { vertices := v0 :: rest, closed := cl }) :
    ∃ vs, t.FinalizePreviewContour p =
        Except.ok { t with m_PreviewContour := some { vertices := vs, closed := cl } } ∧
      (rest = [] → vs = []) ∧
      (∀ init vk, rest = init ++ [vk] → vs = init ++ [⟨vk.Coordinates, true⟩]) := by
  rcases List.eq_nil_or_concat rest with rfl | ⟨init, vk, hrest⟩
  · refine ⟨[], ?_, fun _ => rfl, ?_⟩
    · simp [FinalizePreviewContour, hp, deref, ContourModel.RemoveVertexAt,
        ContourModel.SetControlVertexAt, ContourModel.GetNumberOfVertices, bind, Except.bind,
        pure, Except.pure]
    · intro init vk h
      simp at h
  · rw [List.concat_eq_append] at hrest
    subst hrest
    refine ⟨init ++ [⟨vk.Coordinates, true⟩], ?_, ?_, ?_⟩
    · have hnn : ¬ ((init.length : Int) + 1 - 1 < 0) := by omega
      have hidx : ((init.length : Int) + 1 - 1).toNat = init.length := by omega
      simp [FinalizePreviewContour, hp, deref, ContourModel.RemoveVertexAt,
        ContourModel.SetControlVertexAt, ContourModel.GetNumberOfVertices, bind, Except.bind,
        pure, Except.pure, hnn, hidx, modify_last]
    · intro h
      simp at h
    · intro init2 vk2 h
      obtain ⟨h1, h2⟩ := List.append_inj_left' h rfl, List.append_inj_right' h rfl
      simp at h2
      rw [h1, h2]

/-- Claim C20. `Finish` on an initialised session (working and preview contour set)
with an on-plane position event and a preview contour `v0, v1, ..., vk` (`k >= 0`):
the handler succeeds; afterwards the working contour equals the previous working
contour followed by `v1 .. vk` with `vk` marked as control (unchanged when `k = 0`), it
is closed, the preview and closure contours and their nodes are released (unset), and
the working contour, its node, the current restricted area, the archived restricted
areas and the pinned plane are retained. -/
theorem OnFinish_spec (t : EditableContourTool Point) (p : Point) (s : PlaneGeometry Point)
    (c : ContourModel Point) (v0 : ContourModelVertex Point)
    (rest : List (ContourModelVertex Point)) (cl : Bool)
    (hc : t.m_Contour = some c)
    (hp : t.m_PreviewContour = some { vertices := v0 :: rest, closed := cl })
    (hon : t.offPlane p = false) :
    ∃ t' c', t.OnFinish (InteractionEvent.position p s) = Except.ok t' ∧
      t'.m_Contour = some c' ∧ c'.closed = true ∧
      (rest = [] → c'.vertices = c.vertices) ∧
      (∀ init vk, rest = init ++ [vk] →
        c'.vertices = c.vertices ++ init ++ [⟨vk.Coordinates, true⟩]) ∧
      t'.m_PreviewContour = none ∧ t'.m_PreviewContourNode = none ∧
      t'.m_ClosureContour = none ∧ t'.m_ClosureContourNode = none ∧
      t'.m_ContourNode = t.m_ContourNode ∧
      t'.m_CurrentRestrictedArea = t.m_CurrentRestrictedArea ∧
      t'.m_RestrictedAreas = t.m_RestrictedAreas ∧
      t'.m_PlaneGeometry = t.m_PlaneGeometry := by
  obtain ⟨vs, hfin, hnil, hlast⟩ := FinalizePreviewContour_vertices t p v0 rest cl hp
  refine ⟨ReleaseHelperObjects
      { t with m_PreviewContour := some { vertices := vs, closed := cl },
               m_Contour := some { vertices := c.vertices ++ vs, closed := true } } false,
    { vertices := c.vertices ++ vs, closed := true }, ?_, rfl, rfl, ?_, ?_,
    rfl, rfl, rfl, rfl, rfl, rfl, rfl, rfl⟩
  · simp [OnFinish, hon, hfin, hc, deref, bind, Except.bind, pure, Except.pure,
      ContourModel.Concatenate, ContourModel.GetTimeSteps, ContourModel.Close,
      ReleaseHelperObjects, List.range_succ]
  · intro h
    simp [hnil h]
  · intro init vk h
    simp [hlast init vk h]

/-- Claim C20 applied to the tool with working contour `(0,0,0)` and preview contour
`(0,0,0), (1,0,0)` and a `Finish` event at `(1,0,0)`: the working contour becomes the
closed contour `(0,0,0), (1,0,0)`, both control vertices. -/
theorem OnFinish_spec_witness :
    trackingTool.offPlane (1, 0, 0) = false ∧
    ∃ t' c', trackingTool.OnFinish (eventAt (1, 0, 0)) = Except.ok t' ∧
      t'.m_Contour = some c' ∧ c'.closed = true ∧
      c'.vertices = [⟨(0, 0, 0), true⟩, ⟨(1, 0, 0), true⟩] ∧
      t'.m_PreviewContour = none ∧ t'.m_ClosureContour = none :=
  have hon : trackingTool.offPlane (1, 0, 0) = false := by
    norm_num [trackingTool, offPlane, planeZ0, sqrteps]
  have h := OnFinish_spec trackingTool (1, 0, 0) planeZ0
    { vertices := [⟨(0, 0, 0), true⟩], closed := false } ⟨(0, 0, 0), false⟩
    [⟨(1, 0, 0), false⟩] false rfl rfl hon
  ⟨hon, h.choose, h.choose_spec.choose, h.choose_spec.choose_spec.1,
    h.choose_spec.choose_spec.2.1, h.choose_spec.choose_spec.2.2.1,
    h.choose_spec.choose_spec.2.2.2.2.1 [] ⟨(1, 0, 0), false⟩ rfl,
    h.choose_spec.choose_spec.2.2.2.2.2.1, h.choose_spec.choose_spec.2.2.2.2.2.2.2.1⟩

end EditableContourTool

/-! ## ImageToContourFilter: theorems -/

namespace ImageToContourFilter

variable {S : Type} [LinearOrderedField S]
open Examples

/-- The contour value handed to the tracer by `Itk2DContourExtraction` is the stored
contour value minus one, for every stored value: the test `fabs(m_ContourValue) < 0`
never succeeds. -/
theorem Itk2DContourExtraction_contourValue (f : ImageToContourFilter S)
    (sliceImage : ItkImage S) :
    (f.Itk2DContourExtraction sliceImage).2.contourValue = f.m_ContourValue - 1 := by
  simp only [Itk2DContourExtraction, if_neg (not_lt.mpr (abs_nonneg f.m_ContourValue))]

/-- Claim C17, evaluated at a failing input. With the label value `0` set by
`SetContourValue(0)`, whose magnitude is non-positive, `Itk2DContourExtraction` hands the
contour value `0 - 1 = -1` to the tracer, not `0.5`. -/
theorem Itk2DContourExtraction_label_zero :
    |(((ctor 0).SetContourValue 0 : ImageToContourFilter ℚ)).m_ContourValue| ≤ 0 ∧
    (((ctor 0).SetContourValue 0 : ImageToContourFilter ℚ).Itk2DContourExtraction
        labelSlice).2.contourValue = -1 ∧
    (((ctor 0).SetContourValue 0 : ImageToContourFilter ℚ).Itk2DContourExtraction
        labelSlice).2.contourValue ≠ 1 / 2 := by
  norm_num [ctor, SetContourValue, Itk2DContourExtraction]

end ImageToContourFilter

/-- The loop of `ExtractLabelledContours` visits every pixel once, in order. -/
theorem ExtractLabelledContours.loop_eq_map {S : Type} [LinearOrderedField S] (t : S)
    (pixels : List S) :
    ExtractLabelledContours.loop t pixels
      = pixels.map (fun value => if |value - t| < 1 / 100 then value else 0) := by
  induction pixels with
  | nil => rfl
  | cons value rest ih => simp [ExtractLabelledContours.loop, ih]

/-- Claim C18. Label isolation: for every slice and target value `t`, the result of
`ExtractLabelledContours` has the same region as the input (and as many pixels) and, at
every pixel position, equals the input value if `|input - t| < 0.01` and `0` otherwise;
consequently, when no pixel of the slice lies within `0.01` of `t`, every pixel of the
isolated image is zero. -/
theorem ExtractLabelledContours_spec {S : Type} [LinearOrderedField S]
    (sliceImage : ItkImage S) (t : S) :
    (ExtractLabelledContours sliceImage t).regionIndex = sliceImage.regionIndex ∧
    (ExtractLabelledContours sliceImage t).regionSize = sliceImage.regionSize ∧
    (ExtractLabelledContours sliceImage t).pixels.length = sliceImage.pixels.length ∧
    (∀ i, (ExtractLabelledContours sliceImage t).pixels.get? i =
      (sliceImage.pixels.get? i).map
        (fun value => if |value - t| < 1 / 100 then value else 0)) ∧
    ((∀ value ∈ sliceImage.pixels, ¬ |value - t| < 1 / 100) →
      ∀ value ∈ (ExtractLabelledContours sliceImage t).pixels, value = 0) := by
  refine ⟨rfl, rfl, ?_, ?_, ?_⟩
  · simp [ExtractLabelledContours, ExtractLabelledContours.loop_eq_map]
  · intro i
    simp [ExtractLabelledContours, ExtractLabelledContours.loop_eq_map]
  · intro h value hv
    simp only [ExtractLabelledContours, ExtractLabelledContours.loop_eq_map,
      List.mem_map] at hv
    obtain ⟨x, hx, rfl⟩ := hv
    rw [if_neg (h x hx)]

/-- Claim C18 applied to the `3 x 2` slice `0, 7, 7, 3, 7, 0`: no pixel lies within
`0.01` of the label `5`, so every pixel of the isolated image is zero. -/
theorem ExtractLabelledContours_spec_witness :
    ∀ value ∈ (ExtractLabelledContours Examples.labelSlice (5 : ℚ)).pixels, value = (0 : ℚ) :=
  (ExtractLabelledContours_spec Examples.labelSlice (5 : ℚ)).2.2.2.2
    (by norm_num [Examples.labelSlice, abs_lt])

/-! ## LevelWindow and ImageToContourFilter: behaviour of `SetMinMax` and of repeated runs -/

namespace LevelWindow

variable {S : Type} [LinearOrderedField S]
open Examples

/-- The four clamping statements of `SetMinMax` on scalars: for a range at least one
unit wide and `lo < hi` they yield `rangeMin <= m < M <= rangeMax`, and they leave values
inside the range unchanged. -/
theorem clamp_statements (rmin rmax lo hi : S) (hwide : rmax - rmin ≥ 1) (hlt : lo < hi) :
    rmin ≤ (if (if lo < rmin then rmin else lo) ≥ rmax then rmax - 1
            else (if lo < rmin then rmin else lo)) ∧
    (if (if lo < rmin then rmin else lo) ≥ rmax then rmax - 1
      else (if lo < rmin then rmin else lo)) <
    (if (if hi > rmax then rmax else hi) ≤ rmin then rmin + 1
      else (if hi > rmax then rmax else hi)) ∧
    (if (if hi > rmax then rmax else hi) ≤ rmin then rmin + 1
      else (if hi > rmax then rmax else hi)) ≤ rmax ∧
    (rmin ≤ lo → hi ≤ rmax →
      (if (if lo < rmin then rmin else lo) ≥ rmax then rmax - 1
        else (if lo < rmin then rmin else lo)) = lo ∧
      (if (if hi > rmax then rmax else hi) ≤ rmin then rmin + 1
        else (if hi > rmax then rmax else hi)) = hi) := by
  refine ⟨?_, ?_, ?_, ?_⟩
  · split_ifs <;> linarith
  · split_ifs <;> linarith
  · split_ifs <;> linarith
  · intro h1 h2
    constructor <;> split_ifs <;> linarith

/-- The state left by `SetMinMax(lo, hi)` for `lo < hi` on a non-fixed window whose
range is at least one unit wide. -/
theorem SetMinMax_of_lt (lw : LevelWindow S) (lo hi : S)
    (hfix : lw.m_Fixed = false) (hwide : lw.m_RangeMax - lw.m_RangeMin ≥ 1) (hlt : lo < hi) :
    lw.m_RangeMin ≤ (lw.SetMinMax lo hi).m_Min ∧
    (lw.SetMinMax lo hi).m_Min < (lw.SetMinMax lo hi).m_Max ∧
    (lw.SetMinMax lo hi).m_Max ≤ lw.m_RangeMax ∧
    (lw.m_RangeMin ≤ lo → hi ≤ lw.m_RangeMax →
      (lw.SetMinMax lo hi).m_Min = lo ∧ (lw.SetMinMax lo hi).m_Max = hi) := by
  have hc := clamp_statements lw.m_RangeMin lw.m_RangeMax lo hi hwide hlt
  have h : lw.SetMinMax lo hi = { lw with
      m_Min := (if (if lo < lw.m_RangeMin then lw.m_RangeMin else lo) ≥ lw.m_RangeMax
        then lw.m_RangeMax - 1 else (if lo < lw.m_RangeMin then lw.m_RangeMin else lo)),
      m_Max := (if (if hi > lw.m_RangeMax then lw.m_RangeMax else hi) ≤ lw.m_RangeMin
        then lw.m_RangeMin + 1 else (if hi > lw.m_RangeMax then lw.m_RangeMax else hi)) } := by
    simp only [SetMinMax, IsFixed, hfix, Bool.false_eq_true, if_false, gt_iff_lt,
      if_neg (not_lt.mpr hlt.le)]
    exact testValues_of_lt _ hc.2.1
  rw [h]
  exact hc

/-- `SetMinMax` orders its arguments. -/
theorem SetMinMax_swap (lw : LevelWindow S) (a b : S) :
    lw.SetMinMax a b = lw.SetMinMax b a := by
  rcases lt_trichotomy a b with h | h | h
  · simp only [SetMinMax, gt_iff_lt, if_neg (not_lt.mpr h.le), if_pos h]
  · subst h; rfl
  · simp only [SetMinMax, gt_iff_lt, if_neg (not_lt.mpr h.le), if_pos h]

/-- Claim C26. For every non-fixed window whose range is at least one unit wide
(`m_RangeMax - m_RangeMin >= 1`) and all `a != b`, after `SetMinMax(a, b)` the state
satisfies `m_RangeMin <= m_Min < m_Max <= m_RangeMax`, the range is unchanged, and if
both `a` and `b` lie in `[m_RangeMin, m_RangeMax]` then `m_Min = min(a, b)` and
`m_Max = max(a, b)` exactly. -/
theorem SetMinMax_in_range (lw : LevelWindow S) (a b : S)
    (hfix : lw.m_Fixed = false) (hwide : lw.m_RangeMax - lw.m_RangeMin ≥ 1) (hab : a ≠ b) :
    lw.m_RangeMin ≤ (lw.SetMinMax a b).m_Min ∧
    (lw.SetMinMax a b).m_Min < (lw.SetMinMax a b).m_Max ∧
    (lw.SetMinMax a b).m_Max ≤ lw.m_RangeMax ∧
    (lw.SetMinMax a b).m_RangeMin = lw.m_RangeMin ∧
    (lw.SetMinMax a b).m_RangeMax = lw.m_RangeMax ∧
    (lw.m_RangeMin ≤ a → a ≤ lw.m_RangeMax → lw.m_RangeMin ≤ b → b ≤ lw.m_RangeMax →
      (lw.SetMinMax a b).m_Min = min a b ∧ (lw.SetMinMax a b).m_Max = max a b) := by
  have hframe := SetMinMax_frame lw a b
  rcases lt_or_gt_of_ne hab with h | h
  · obtain ⟨h1, h2, h3, h4⟩ := SetMinMax_of_lt lw a b hfix hwide h
    refine ⟨h1, h2, h3, hframe.2.1, hframe.2.2.1, ?_⟩
    intro ha1 _ _ hb2
    rw [min_eq_left h.le, max_eq_right h.le]
    exact h4 ha1 hb2
  · rw [SetMinMax_swap lw a b]
    obtain ⟨h1, h2, h3, h4⟩ := SetMinMax_of_lt lw b a hfix hwide h
    have hframe2 := SetMinMax_frame lw b a
    refine ⟨h1, h2, h3, hframe2.2.1, hframe2.2.2.1, ?_⟩
    intro _ ha2 hb1 _
    rw [min_eq_right h.le, max_eq_left h.le]
    exact h4 hb1 ha2

/-- Claim C26 applied to `LevelWindow(127.5, 255)` and `SetMinMax(300, 100)`. -/
theorem SetMinMax_in_range_witness :
    (window255.SetMinMax 300 100).m_Min = min 300 100 ∧
    (window255.SetMinMax 300 100).m_Max = max 300 100 :=
  (SetMinMax_in_range window255 300 100 rfl
    (by norm_num [window255, LevelWindow.ctor]) (by norm_num)).2.2.2.2.2
    (by norm_num [window255, LevelWindow.ctor]) (by norm_num [window255, LevelWindow.ctor])
    (by norm_num [window255, LevelWindow.ctor]) (by norm_num [window255, LevelWindow.ctor])

end LevelWindow

namespace ImageToContourFilter
open Examples

/-- Claim C27, evaluated at a failing input. After `SetContourValue(7)`, one run of
`Itk2DContourExtraction` on the slice `0, 7, 7, 3, 7, 0` isolates the label `7` and traces
at `6`, but leaves the stored contour value `6` instead of `7`; the second run on the
same slice therefore isolates the label `6` (the isolated image is all zero) and traces
at `5`. -/
theorem Itk2DContourExtraction_overwrites_contour_value :
    ((ctor 0).SetContourValue 7 : ImageToContourFilter ℚ).m_ContourValue = 7 ∧
    (((ctor 0).SetContourValue 7 : ImageToContourFilter ℚ).Itk2DContourExtraction
        labelSlice).1.m_ContourValue = 6 ∧
    (((ctor 0).SetContourValue 7 : ImageToContourFilter ℚ).Itk2DContourExtraction
        labelSlice).2.padInput.pixels = [0, 7, 7, 0, 7, 0] ∧
    (((ctor 0).SetContourValue 7 : ImageToContourFilter ℚ).Itk2DContourExtraction
        labelSlice).2.contourValue = 6 ∧
    ((((ctor 0).SetContourValue 7 : ImageToContourFilter ℚ).Itk2DContourExtraction
        labelSlice).1.Itk2DContourExtraction labelSlice).2.padInput.pixels
      = [0, 0, 0, 0, 0, 0] ∧
    ((((ctor 0).SetContourValue 7 : ImageToContourFilter ℚ).Itk2DContourExtraction
        labelSlice).1.Itk2DContourExtraction labelSlice).2.contourValue = 5 := by
  norm_num [ctor, SetContourValue, Itk2DContourExtraction, ExtractLabelledContours,
    ExtractLabelledContours.loop, labelSlice, abs_lt]

end ImageToContourFilter

/-! ## EditableContourTool: event handlers, invariant and reachable states -/

namespace EditableContourTool

variable {Point : Type}
open Examples

/-- The state left by `OnAddPoint` for an on-plane position event on a session with
working contour `c` and preview contour `v0 :: rest`: the finalised preview vertices `vs`
are appended to the working contour and the preview is re-seeded with the position. -/
theorem OnAddPoint_eq (t : EditableContourTool Point) (q : Point) (s : PlaneGeometry Point)
    (c : ContourModel Point) (v0 : ContourModelVertex Point)
    (rest : List (ContourModelVertex Point)) (cl : Bool)
    (hc : t.m_Contour = some c)
    (hp : t.m_PreviewContour = some { vertices := v0 :: rest, closed := cl })
    (hnode : t.m_PreviewContourNode.isSome = true)
    (hdata : t.GetWorkingData.isSome = true)
    (hon : t.offPlane q = false) :
    ∃ vs, t.OnAddPoint (InteractionEvent.position q s) = Except.ok
        { t with m_Contour := some { vertices := c.vertices ++ vs, closed := c.closed },
                 m_PreviewContour := some { vertices := [⟨q, false⟩], closed := false } } ∧
      (rest = [] → vs = []) ∧
      (∀ init vk, rest = init ++ [vk] → vs = init ++ [⟨vk.Coordinates, true⟩]) := by
  obtain ⟨vs, hfin, hnil, hlast⟩ := FinalizePreviewContour_vertices t q v0 rest cl hp
  obtain ⟨d, hd⟩ := Option.isSome_iff_exists.mp hdata
  obtain ⟨n, hn⟩ := Option.isSome_iff_exists.mp hnode
  refine ⟨vs, ?_, hnil, hlast⟩
  simp only [OnAddPoint, hon, Bool.false_eq_true, if_false, hfin, bind, Except.bind, hc,
    deref, pure, Except.pure, InitializePreviewContour, CreateNewContour, GetWorkingData] at hd ⊢
  simp only [hd, hn, pure, Except.pure]
  rfl

/-- Claim C22. `AddPoint` on an initialised session (working contour, preview contour
and preview node set, working data bound) with an on-plane position event at `q` and a
preview contour `v0, v1, ..., vk` with `k >= 1`: the handler succeeds; afterwards the
working contour equals the previous working contour (same vertices, order, control
flags and closed flag) followed by `v1 .. vk` with `vk` marked as a control vertex,
and the preview contour is the fresh single-vertex contour `[q]`; closure contour,
restricted areas and pinned plane are unchanged. -/
theorem OnAddPoint_spec (t : EditableContourTool Point) (q : Point) (s : PlaneGeometry Point)
    (c : ContourModel Point) (v0 : ContourModelVertex Point)
    (init : List (ContourModelVertex Point)) (vk : ContourModelVertex Point) (cl : Bool)
    (hc : t.m_Contour = some c)
    (hp : t.m_PreviewContour = some { vertices := v0 :: (init ++ [vk]), closed := cl })
    (hnode : t.m_PreviewContourNode.isSome = true)
    (hdata : t.GetWorkingData.isSome = true)
    (hon : t.offPlane q = false) :
    ∃ t', t.OnAddPoint (InteractionEvent.position q s) = Except.ok t' ∧
      t'.m_Contour = some { vertices := c.vertices ++ init ++ [⟨vk.Coordinates, true⟩],
                            closed := c.closed } ∧
      t'.m_PreviewContour = some { vertices := [⟨q, false⟩], closed := false } ∧
      t'.m_ClosureContour = t.m_ClosureContour ∧
      t'.m_CurrentRestrictedArea = t.m_CurrentRestrictedArea ∧
      t'.m_RestrictedAreas = t.m_RestrictedAreas ∧
      t'.m_PlaneGeometry = t.m_PlaneGeometry := by
  obtain ⟨vs, h, -, hlast⟩ := OnAddPoint_eq t q s c v0 (init ++ [vk]) cl hc hp hnode hdata hon
  have hvs := hlast init vk rfl
  subst hvs
  exact ⟨_, h, by simp, rfl, rfl, rfl, rfl, rfl⟩

/-- Claim C22 applied to the tool with working contour `(0,0,0)` and preview contour
`(0,0,0), (1,0,0)` and an `AddPoint` event at `(1,0,0)`. -/
theorem OnAddPoint_spec_witness :
    ∃ t', trackingTool.OnAddPoint (eventAt (1, 0, 0)) = Except.ok t' ∧
      t'.m_Contour = some { vertices := [⟨(0, 0, 0), true⟩, ⟨(1, 0, 0), true⟩],
                            closed := false } ∧
      t'.m_PreviewContour = some { vertices := [⟨(1, 0, 0), false⟩], closed := false } :=
  have h := OnAddPoint_spec trackingTool (1, 0, 0) planeZ0
    { vertices := [⟨(0, 0, 0), true⟩], closed := false } ⟨(0, 0, 0), false⟩ []
    ⟨(1, 0, 0), false⟩ false rfl rfl rfl rfl
    (by norm_num [trackingTool, offPlane, planeZ0, sqrteps])
  ⟨h.choose, h.choose_spec.1, h.choose_spec.2.1, h.choose_spec.2.2.1⟩

/-- The state left by `OnEndDrawing` for a position event at `q` on a session with
working contour `c`, current restricted area `ra`, preview node and working data. -/
theorem OnEndDrawing_eq (t : EditableContourTool Point) (q : Point) (s : PlaneGeometry Point)
    (c ra : ContourModel Point) (n : DataNode)
    (hc : t.m_Contour = some c) (hra : t.m_CurrentRestrictedArea = some ra)
    (hnode : t.m_PreviewContourNode = some n)
    (hdata : t.GetWorkingData.isSome = true) :
    t.OnEndDrawing (InteractionEvent.position q s) = Except.ok
      { t with
        m_RestrictedAreas :=
          if ra.GetNumberOfVertices > 1 then t.m_RestrictedAreas ++ [ra]
          else t.m_RestrictedAreas
        m_CurrentRestrictedArea := some ContourModel.New
        m_PreviewContourNode := some { n with visible := true }
        m_Contour := some (c.SetControlVertexAt (c.GetNumberOfVertices - 1))
        m_PreviewContour := some { vertices := [⟨q, false⟩], closed := false } } := by
  obtain ⟨d, hd⟩ := Option.isSome_iff_exists.mp hdata
  by_cases hgt : ra.GetNumberOfVertices > 1
  · simp only [OnEndDrawing, hra, deref, bind, Except.bind, pure, Except.pure, hgt, if_true,
      CreateNewContour, GetWorkingData, InitializePreviewContour, hnode, hc,
      ContourModel.Clone] at hd ⊢
    simp only [hd, pure, Except.pure]
    rfl
  · simp only [OnEndDrawing, hra, deref, bind, Except.bind, pure, Except.pure, hgt, if_false,
      CreateNewContour, GetWorkingData, InitializePreviewContour, hnode, hc,
      ContourModel.Clone] at hd ⊢
    simp only [hd, pure, Except.pure]
    rfl

/-- Marking the last vertex: `SetControlVertexAt(GetNumberOfVertices() - 1)` sets the
control flag of the last vertex and changes nothing else; on an empty contour it
changes nothing. -/
theorem SetControlVertexAt_last (c : ContourModel Point) :
    (c.SetControlVertexAt (c.GetNumberOfVertices - 1)).closed = c.closed ∧
    (c.vertices = [] → (c.SetControlVertexAt (c.GetNumberOfVertices - 1)).vertices = []) ∧
    (∀ init last, c.vertices = init ++ [last] →
      (c.SetControlVertexAt (c.GetNumberOfVertices - 1)).vertices
        = init ++ [⟨last.Coordinates, true⟩]) := by
  refine ⟨?_, ?_, ?_⟩
  · unfold ContourModel.SetControlVertexAt
    split_ifs <;> rfl
  · intro h
    simp [ContourModel.SetControlVertexAt, ContourModel.GetNumberOfVertices, h]
  · intro init last h
    have hnn : ¬ ((init.length : Int) + 1 - 1 < 0) := by omega
    have hidx : ((init.length : Int) + 1 - 1).toNat = init.length := by omega
    have hnn2 : ¬ ((init.length : Int) < 0) := by omega
    simp [ContourModel.SetControlVertexAt, ContourModel.GetNumberOfVertices, h, hnn, hidx,
      modify_last, hnn2]

/-- Claim C25. `EndDrawing` at position `q` on an initialised session (working
contour, current restricted-area path and preview node set, working data bound): the
handler succeeds; the list of archived restricted areas grows by exactly one element,
a copy of the current restricted-area path, if that path has more than one vertex, and
is unchanged otherwise; afterwards the current restricted-area path is empty, the last
vertex of the working contour is marked as a control vertex with all other working
vertices unchanged, and the preview contour is `[q]`. Consequently, if every archived
restricted area had at least 2 vertices before, every one has at least 2 afterwards. -/
theorem OnEndDrawing_spec (t : EditableContourTool Point) (q : Point)
    (s : PlaneGeometry Point) (c ra : ContourModel Point)
    (hc : t.m_Contour = some c) (hra : t.m_CurrentRestrictedArea = some ra)
    (hnode : t.m_PreviewContourNode.isSome = true)
    (hdata : t.GetWorkingData.isSome = true) :
    ∃ t' c', t.OnEndDrawing (InteractionEvent.position q s) = Except.ok t' ∧
      (ra.vertices.length > 1 → t'.m_RestrictedAreas = t.m_RestrictedAreas ++ [ra]) ∧
      (ra.vertices.length ≤ 1 → t'.m_RestrictedAreas = t.m_RestrictedAreas) ∧
      t'.m_CurrentRestrictedArea = some { vertices := [], closed := false } ∧
      t'.m_Contour = some c' ∧ c'.closed = c.closed ∧
      (c.vertices = [] → c'.vertices = []) ∧
      (∀ init last, c.vertices = init ++ [last] →
        c'.vertices = init ++ [⟨last.Coordinates, true⟩]) ∧
      t'.m_PreviewContour = some { vertices := [⟨q, false⟩], closed := false } ∧
      ((∀ a ∈ t.m_RestrictedAreas, 2 ≤ a.vertices.length) →
        ∀ a ∈ t'.m_RestrictedAreas, 2 ≤ a.vertices.length) := by
  obtain ⟨n, hn⟩ := Option.isSome_iff_exists.mp hnode
  have h := OnEndDrawing_eq t q s c ra n hc hra hn hdata
  obtain ⟨k1, k2, k3⟩ := SetControlVertexAt_last c
  have hiff : ra.GetNumberOfVertices > 1 ↔ ra.vertices.length > 1 := by
    simp [ContourModel.GetNumberOfVertices]
  refine ⟨_, _, h, ?_, ?_, rfl, rfl, k1, k2, k3, rfl, ?_⟩
  · intro hgt
    simp only [if_pos (hiff.mpr hgt)]
  · intro hle
    simp only [if_neg (fun hgt => absurd (hiff.mp hgt) (not_lt.mpr hle))]
  · intro hall a ha
    by_cases hgt : ra.GetNumberOfVertices > 1
    · simp only [if_pos hgt, List.mem_append, List.mem_singleton] at ha
      rcases ha with ha | rfl
      · exact hall a ha
      · exact hiff.mp hgt
    · simp only [if_neg hgt] at ha
      exact hall a ha

/-- Claim C25 applied to the tool with working contour `(0,0,0)`, an empty current
restricted-area path and an `EndDrawing` event at `(1,0,0)`. -/
theorem OnEndDrawing_spec_witness :
    ∃ t' c', trackingTool.OnEndDrawing (eventAt (1, 0, 0)) = Except.ok t' ∧
      t'.m_RestrictedAreas = trackingTool.m_RestrictedAreas ∧
      t'.m_Contour = some c' ∧ c'.vertices = [⟨(0, 0, 0), true⟩] ∧
      t'.m_PreviewContour = some { vertices := [⟨(1, 0, 0), false⟩], closed := false } :=
  have h := OnEndDrawing_spec trackingTool (1, 0, 0) planeZ0
    { vertices := [⟨(0, 0, 0), true⟩], closed := false } ContourModel.New rfl rfl rfl rfl
  ⟨h.choose, h.choose_spec.choose, h.choose_spec.choose_spec.1,
    h.choose_spec.choose_spec.2.2.1 (by simp [ContourModel.New]),
    h.choose_spec.choose_spec.2.2.2.2.1,
    h.choose_spec.choose_spec.2.2.2.2.2.2.2.1 [] ⟨(0, 0, 0), true⟩ rfl,
    h.choose_spec.choose_spec.2.2.2.2.2.2.2.2.1⟩

/-- The state left by `UpdateClosureContour(e)` on a session whose closure contour and
closure node are set, whose working contour starts with the vertex `w` and whose
working data is bound: the closure contour holds exactly two vertices, the first being
`e`; the second is the start point of the working contour when the closure contour held
no or more than two vertices, and its previous last vertex otherwise. -/
theorem UpdateClosureContour_eq (t : EditableContourTool Point) (e : Point)
    (c cl : ContourModel Point) (w : ContourModelVertex Point)
    (ws : List (ContourModelVertex Point))
    (hc : t.m_Contour = some c) (hw : c.vertices = w :: ws)
    (hcl : t.m_ClosureContour = some cl)
    (hnode : t.m_ClosureContourNode.isSome = true)
    (hdata : t.GetWorkingData.isSome = true) :
    ∃ x closed, t.UpdateClosureContour e = Except.ok
        { t with m_ClosureContour := some { vertices := [⟨e, false⟩, x], closed := closed } } ∧
      ((cl.vertices = [] ∨ cl.vertices.length > 2) → x = ⟨w.Coordinates, false⟩) ∧
      (∀ a, cl.vertices = [a] → x = a) ∧
      (∀ a b, cl.vertices = [a, b] → x = b) := by
  obtain ⟨d, hd⟩ := Option.isSome_iff_exists.mp hdata
  obtain ⟨n, hn⟩ := Option.isSome_iff_exists.mp hnode
  obtain ⟨vs, clo⟩ := cl
  rcases vs with _ | ⟨a, _ | ⟨b, _ | ⟨d3, rest⟩⟩⟩
  · refine ⟨⟨w.Coordinates, false⟩, clo, ?_, fun _ => rfl, ?_, ?_⟩
    · simp [UpdateClosureContour, hcl, hc, hw, deref, bind, Except.bind, pure, Except.pure,
        ContourModel.GetNumberOfVertices, ContourModel.GetVertexAt, ContourModel.AddVertex,
        ContourModel.AddVertexAtFront]
    · intro a h; simp at h
    · intro a b h; simp at h
  · refine ⟨a, clo, ?_, ?_, ?_, ?_⟩
    · simp [UpdateClosureContour, hcl, deref, bind, Except.bind, pure, Except.pure,
        ContourModel.GetNumberOfVertices, ContourModel.AddVertexAtFront]
    · intro h; simp at h
    · intro a' h; simp at h; exact h
    · intro a' b' h; simp at h
  · refine ⟨b, clo, ?_, ?_, ?_, ?_⟩
    · simp [UpdateClosureContour, hcl, deref, bind, Except.bind, pure, Except.pure,
        ContourModel.GetNumberOfVertices, ContourModel.AddVertexAtFront,
        ContourModel.RemoveVertexAt]
    · intro h; simp at h
    · intro a' h; simp at h
    · intro a' b' h; simp at h; exact h.2
  · refine ⟨⟨w.Coordinates, false⟩, false, ?_, fun _ => rfl, ?_, ?_⟩
    · have h3 : ((rest.length : Int) + 1 + 1 + 1 > 2) := by omega
      simp [UpdateClosureContour, hcl, hc, hw, hn, hd, deref, bind, Except.bind, pure,
        Except.pure, ContourModel.GetNumberOfVertices, ContourModel.GetVertexAt,
        ContourModel.AddVertex, ContourModel.AddVertexAtFront, CreateNewContour,
        ContourModel.New, h3]
    · intro a' h; simp at h
    · intro a' b' h; simp at h

theorem getVertexAt_last (c : ContourModel Point) (init : List (ContourModelVertex Point))
    (last : ContourModelVertex Point) (h : c.vertices = init ++ [last]) :
    c.GetVertexAt (c.GetNumberOfVertices - 1) = some last := by
  have hnn : ¬ ((init.length : Int) + 1 - 1 < 0) := by omega
  have hnn2 : ¬ ((init.length : Int) < 0) := by omega
  have hidx : ((init.length : Int) + 1 - 1).toNat = init.length := by omega
  simp [ContourModel.GetVertexAt, ContourModel.GetNumberOfVertices, h, hnn, hnn2, hidx]

/-- The state left by `UpdatePreviewContour(p)` on a session whose preview contour is
set (and, for a preview of more than two vertices, whose preview node is set, whose
working data is bound and whose working contour ends with the vertex `wl`): a preview
of one or two vertices keeps its first vertex and gets `p` as second and last vertex; a
preview of more than two vertices becomes `[wl, p]`; an empty preview becomes `[p]`. -/
theorem UpdatePreviewContour_eq (t : EditableContourTool Point) (p : Point)
    (c pv : ContourModel Point) (init : List (ContourModelVertex Point))
    (wl : ContourModelVertex Point)
    (hc : t.m_Contour = some c) (hw : c.vertices = init ++ [wl])
    (hpv : t.m_PreviewContour = some pv)
    (hnode : t.m_PreviewContourNode.isSome = true)
    (hdata : t.GetWorkingData.isSome = true) :
    ∃ vs closed, t.UpdatePreviewContour p = Except.ok
        { t with m_PreviewContour := some { vertices := vs, closed := closed } } ∧
      vs.getLast? = some ⟨p, false⟩ ∧ vs.length ≤ 2 ∧
      (pv.vertices = [] → vs = [⟨p, false⟩]) ∧
      (∀ a, pv.vertices = [a] → vs = [a, ⟨p, false⟩]) ∧
      (∀ a b, pv.vertices = [a, b] → vs = [a, ⟨p, false⟩]) ∧
      (pv.vertices.length > 2 → vs = [⟨wl.Coordinates, false⟩, ⟨p, false⟩]) := by
  obtain ⟨d, hd⟩ := Option.isSome_iff_exists.mp hdata
  obtain ⟨n, hn⟩ := Option.isSome_iff_exists.mp hnode
  obtain ⟨vs, clo⟩ := pv
  rcases vs with _ | ⟨a, _ | ⟨b, _ | ⟨d3, rest⟩⟩⟩
  · refine ⟨[⟨p, false⟩], clo, ?_, rfl, by simp, fun _ => rfl, ?_, ?_, ?_⟩
    · simp [UpdatePreviewContour, hpv, deref, bind, Except.bind, pure, Except.pure,
        ContourModel.GetNumberOfVertices, ContourModel.AddVertex]
    · intro a h; simp at h
    · intro a b h; simp at h
    · intro h; simp at h
  · refine ⟨[a, ⟨p, false⟩], clo, ?_, rfl, by simp, ?_, ?_, ?_, ?_⟩
    · simp [UpdatePreviewContour, hpv, deref, bind, Except.bind, pure, Except.pure,
        ContourModel.GetNumberOfVertices, ContourModel.AddVertex]
    · intro h; simp at h
    · intro a' h; simp at h; rw [h]
    · intro a' b' h; simp at h
    · intro h; simp at h
  · refine ⟨[a, ⟨p, false⟩], clo, ?_, rfl, by simp, ?_, ?_, ?_, ?_⟩
    · simp [UpdatePreviewContour, hpv, deref, bind, Except.bind, pure, Except.pure,
        ContourModel.GetNumberOfVertices, ContourModel.AddVertex,
        ContourModel.RemoveVertexAt]
    · intro h; simp at h
    · intro a' h; simp at h
    · intro a' b' h; simp at h; rw [h.1]
    · intro h; simp at h
  · refine ⟨[⟨wl.Coordinates, false⟩, ⟨p, false⟩], false, ?_, rfl, by simp, ?_, ?_, ?_,
      fun _ => rfl⟩
    · have h3 : ((rest.length : Int) + 1 + 1 + 1 > 2) := by omega
      have hlast : c.GetVertexAt ((c.vertices.length : Int) - 1) = some wl :=
        getVertexAt_last c init wl hw
      simp [UpdatePreviewContour, hpv, hc, hlast, hn, hd, deref, bind, Except.bind, pure,
        Except.pure, ContourModel.GetNumberOfVertices, ContourModel.AddVertex,
        InitializePreviewContour, CreateNewContour, ContourModel.New, h3]
    · intro h; simp at h
    · intro a' h; simp at h
    · intro a' b' h; simp at h

theorem ConfirmSegmentation_ok (t : EditableContourTool Point) (resetStatMachine : Bool) :
    ∃ t1, t.ConfirmSegmentation resetStatMachine = Except.ok t1 ∧
      t1.workingDataNode = t.workingDataNode ∧ t1.referenceData = t.referenceData := by
  unfold ConfirmSegmentation
  cases t.GetReferenceData <;> cases t.GetWorkingData <;> cases resetStatMachine <;>
    first
    | exact ⟨_, rfl, rfl, rfl⟩
    | (cases t.m_Contour with
       | none => exact ⟨_, rfl, rfl, rfl⟩
       | some contour =>
         dsimp only
         by_cases hE : contour.IsEmpty = true
         · rw [if_pos hE]; exact ⟨_, rfl, rfl, rfl⟩
         · rw [if_neg hE]; exact ⟨_, rfl, rfl, rfl⟩)

/-- What an accepted `InitContour` leaves, whatever the state before: the working
contour `[click]` (a control vertex), the preview contour `[click, click]`, the closure
contour `[click]`, an empty restricted-area path, the helper nodes, the plane of the
sender; working data is bound. -/
theorem OnInitContour_accepted (t0 t : EditableContourTool Point) (click : Point)
    (senderPlane : PlaneGeometry Point) (data : Option (BaseData Point))
    (hnode : t0.workingDataNode = some data)
    (hin : IsPositionEventInsideImageRegion click data = true)
    (h : t0.OnInitContour (InteractionEvent.position click senderPlane) = Except.ok t) :
    t.m_Contour = some { vertices := [⟨click, true⟩], closed := false } ∧
    t.m_PreviewContour = some { vertices := [⟨click, false⟩, ⟨click, false⟩], closed := false } ∧
    t.m_ClosureContour = some { vertices := [⟨click, false⟩], closed := false } ∧
    t.m_CurrentRestrictedArea = some { vertices := [], closed := false } ∧
    t.m_PreviewContourNode.isSome = true ∧ t.m_ClosureContourNode.isSome = true ∧
    t.m_PlaneGeometry = some senderPlane ∧
    t.GetWorkingData.isSome = true := by
  obtain ⟨d, rfl⟩ : ∃ d, data = some d := by
    cases data with
    | none => simp [IsPositionEventInsideImageRegion] at hin
    | some d => exact ⟨d, rfl⟩
  have core : ∀ t1 : EditableContourTool Point, t1.workingDataNode = some (some d) →
      (do
        let t ← (pure t1 : Except ToolError (EditableContourTool Point))
        let data ← deref t0.workingDataNode
        if !IsPositionEventInsideImageRegion click data then
          pure t.ResetToStartState
        else do
          let contour ← t.CreateNewContour
          let t := { t with m_Contour := some contour, m_ContourNode := some { visible := true } }
          let preview ← t.CreateNewContour
          let t := { t with m_PreviewContour := some preview,
                            m_PreviewContourNode := some { visible := true } }
          let closure ← t.CreateNewContour
          let t := { t with m_ClosureContour := some closure,
                            m_ClosureContourNode := some { visible := true } }
          let restricted ← t.CreateNewContour
          let t := { t with m_CurrentRestrictedArea := some restricted }
          let _ ← deref t.referenceData
          let t := { t with m_PlaneGeometry := some senderPlane }
          let click := PrepareInitContour click
          let t ← t.InitializePreviewContour click
          let contour ← deref t.m_Contour
          let t := { t with m_Contour := some (contour.AddVertex click true) }
          let preview ← deref t.m_PreviewContour
          let t := { t with m_PreviewContour := some (preview.AddVertex click false) }
          let closure ← deref t.m_ClosureContour
          pure { t with m_ClosureContour := some (closure.AddVertex click false) }) = Except.ok t →
      t.m_Contour = some { vertices := [⟨click, true⟩], closed := false } ∧
      t.m_PreviewContour
        = some { vertices := [⟨click, false⟩, ⟨click, false⟩], closed := false } ∧
      t.m_ClosureContour = some { vertices := [⟨click, false⟩], closed := false } ∧
      t.m_CurrentRestrictedArea = some { vertices := [], closed := false } ∧
      t.m_PreviewContourNode.isSome = true ∧ t.m_ClosureContourNode.isSome = true ∧
      t.m_PlaneGeometry = some senderPlane ∧
      t.GetWorkingData.isSome = true := by
    intro t1 hwd hrun
    cases href : t1.referenceData with
    | none =>
      simp [hnode, deref, hin, href, hwd, CreateNewContour, GetWorkingData,
        InitializePreviewContour, PrepareInitContour, ContourModel.New,
        ContourModel.AddVertex, bind, Except.bind, pure, Except.pure, throw, throwThe,
        MonadExceptOf.throw] at hrun
    | some ref =>
      simp [hnode, deref, hin, href, hwd, CreateNewContour, GetWorkingData,
        InitializePreviewContour, PrepareInitContour, ContourModel.New,
        ContourModel.AddVertex, bind, Except.bind, pure, Except.pure] at hrun
      subst hrun
      simp [GetWorkingData, hwd]
  unfold OnInitContour at h
  dsimp only at h
  by_cases hsome : t0.m_Contour.isSome = true
  · obtain ⟨t1, h1, hwd, -⟩ := ConfirmSegmentation_ok t0 false
    rw [if_pos hsome, h1] at h
    exact core t1 (hwd.trans hnode) h
  · rw [if_neg hsome] at h
    exact core t0 hnode h

theorem TrackingInvariant_of_init (t0 t : EditableContourTool Point) (click : Point)
    (senderPlane : PlaneGeometry Point) (data : Option (BaseData Point))
    (hnode : t0.workingDataNode = some data)
    (hin : IsPositionEventInsideImageRegion click data = true)
    (h : t0.OnInitContour (InteractionEvent.position click senderPlane) = Except.ok t) :
    TrackingInvariant t := by
  obtain ⟨h1, h2, h3, h4, h5, h6, -, h8⟩ :=
    OnInitContour_accepted t0 t click senderPlane data hnode hin h
  exact ⟨_, _, _, _, ⟨click, true⟩, [], h1, rfl, h2, by simp, by simp, h3, Or.inl rfl, h4,
    h5, h6, h8⟩

/-- The state left by `OnDrawing` for a position event at `p` on a tracking session:
`p` is appended to the working contour and to the restricted-area path, the preview
node is hidden, and the closure contour becomes `[p, s]`. -/
theorem OnDrawing_eq (t : EditableContourTool Point) (p : Point) (s : PlaneGeometry Point)
    (c cl ra : ContourModel Point) (w : ContourModelVertex Point)
    (ws : List (ContourModelVertex Point)) (n : DataNode)
    (hc : t.m_Contour = some c) (hw : c.vertices = w :: ws)
    (hcl : t.m_ClosureContour = some cl)
    (hclv : cl.vertices = [⟨w.Coordinates, false⟩] ∨
      ∃ e, cl.vertices = [⟨e, false⟩, ⟨w.Coordinates, false⟩])
    (hra : t.m_CurrentRestrictedArea = some ra)
    (hn : t.m_PreviewContourNode = some n)
    (hcn : t.m_ClosureContourNode.isSome = true)
    (hdata : t.GetWorkingData.isSome = true) :
    ∃ closed, t.OnDrawing (InteractionEvent.position p s) = Except.ok
      { t with
        m_PreviewContourNode := some { n with visible := false }
        m_Contour := some (c.AddVertex p false)
        m_ClosureContour :=
          some { vertices := [⟨p, false⟩, ⟨w.Coordinates, false⟩], closed := closed }
        m_CurrentRestrictedArea := some (ra.AddVertex p false) } := by
  have hw2 : (c.AddVertex p false).vertices = w :: (ws ++ [⟨p, false⟩]) := by
    simp [ContourModel.AddVertex, hw]
  obtain ⟨x, closed, hu, -, h1, h2⟩ := UpdateClosureContour_eq
    { t with m_PreviewContourNode := some { n with visible := false },
             m_Contour := some (c.AddVertex p false) }
    p (c.AddVertex p false) cl w (ws ++ [⟨p, false⟩]) rfl hw2 hcl hcn hdata
  have hx : x = ⟨w.Coordinates, false⟩ := by
    rcases hclv with h | ⟨e, h⟩
    · exact h1 _ h
    · exact h2 _ _ h
  subst hx
  refine ⟨closed, ?_⟩
  simp only [OnDrawing, hn, deref, bind, Except.bind, pure, Except.pure, hc, hu]
  simp only [hra]

/-- The state left by `OnMouseMoved` for an on-plane position event at `p` on a
tracking session: the preview contour becomes `[a, p]`, `a` being its previous first
vertex, and the closure contour becomes `[p, s]`. -/
theorem OnMouseMoved_eq (t : EditableContourTool Point) (p : Point) (s : PlaneGeometry Point)
    (c pv cl : ContourModel Point) (w : ContourModelVertex Point)
    (ws : List (ContourModelVertex Point))
    (hc : t.m_Contour = some c) (hw : c.vertices = w :: ws)
    (hpv : t.m_PreviewContour = some pv)
    (hlen1 : 1 ≤ pv.vertices.length) (hlen2 : pv.vertices.length ≤ 2)
    (hcl : t.m_ClosureContour = some cl)
    (hclv : cl.vertices = [⟨w.Coordinates, false⟩] ∨
      ∃ e, cl.vertices = [⟨e, false⟩, ⟨w.Coordinates, false⟩])
    (hpn : t.m_PreviewContourNode.isSome = true)
    (hcn : t.m_ClosureContourNode.isSome = true)
    (hdata : t.GetWorkingData.isSome = true)
    (hon : t.offPlane p = false) :
    ∃ a closed1 closed2, pv.vertices.head? = some a ∧
      t.OnMouseMoved (InteractionEvent.position p s) = Except.ok
        { t with
          m_PreviewContour := some { vertices := [a, ⟨p, false⟩], closed := closed1 }
          m_ClosureContour :=
            some { vertices := [⟨p, false⟩, ⟨w.Coordinates, false⟩], closed := closed2 } } := by
  obtain ⟨init, wl, hil⟩ : ∃ init wl, c.vertices = init ++ [wl] := by
    rcases List.eq_nil_or_concat c.vertices with h | ⟨init, wl, h⟩
    · rw [hw] at h; simp at h
    · exact ⟨init, wl, by rw [h, List.concat_eq_append]⟩
  obtain ⟨vs, closed1, hup, -, -, -, h1, h2, -⟩ :=
    UpdatePreviewContour_eq t p c pv init wl hc hil hpv hpn hdata
  obtain ⟨a, hhead, hvs⟩ : ∃ a, pv.vertices.head? = some a ∧ vs = [a, ⟨p, false⟩] := by
    rcases hv : pv.vertices with _ | ⟨a, _ | ⟨b, _ | ⟨d3, rest⟩⟩⟩
    · rw [hv] at hlen1; simp at hlen1
    · exact ⟨a, rfl, h1 a hv⟩
    · exact ⟨a, rfl, h2 a b hv⟩
    · rw [hv] at hlen2; simp at hlen2
  subst hvs
  obtain ⟨x, closed2, hu, -, k1, k2⟩ := UpdateClosureContour_eq
    { t with m_PreviewContour := some { vertices := [a, ⟨p, false⟩], closed := closed1 } }
    p c cl w ws hc hw hcl hcn hdata
  have hx : x = ⟨w.Coordinates, false⟩ := by
    rcases hclv with h | ⟨e, h⟩
    · exact k1 _ h
    · exact k2 _ _ h
  subst hx
  refine ⟨a, closed1, closed2, hhead, ?_⟩
  simp only [OnMouseMoved, hon, Bool.false_eq_true, if_false, bind, Except.bind, hup, hu]

theorem TrackingInvariant_step (t t' : EditableContourTool Point) (a : Action)
    (e : InteractionEvent Point) (hinv : TrackingInvariant t)
    (ha : a = Action.AddPoint ∨ a = Action.MovePoint ∨ a = Action.Drawing ∨
      a = Action.EndDrawing)
    (h : t.handle a e = Except.ok t') : TrackingInvariant t' := by
  obtain ⟨c, pv, cl, ra, w, ws, hc, hw, hpv, hl1, hl2, hcl, hclv, hra, hpn, hcn, hd⟩ := hinv
  cases e with
  | other =>
    have : t' = t := by
      rcases ha with rfl | rfl | rfl | rfl <;>
        simp [handle, OnAddPoint, OnMouseMoved, OnDrawing, OnEndDrawing, pure,
          Except.pure] at h <;> exact h.symm
    subst this
    exact ⟨c, pv, cl, ra, w, ws, hc, hw, hpv, hl1, hl2, hcl, hclv, hra, hpn, hcn, hd⟩
  | position p s =>
    rcases ha with rfl | rfl | rfl | rfl
    · -- AddPoint
      by_cases hon : t.offPlane p = true
      · have : t' = t := by
          simp [handle, OnAddPoint, hon, pure, Except.pure] at h
          exact h.symm
        subst this
        exact ⟨c, pv, cl, ra, w, ws, hc, hw, hpv, hl1, hl2, hcl, hclv, hra, hpn, hcn, hd⟩
      · have hon2 : t.offPlane p = false := by simpa using hon
        obtain ⟨pvs, pclosed⟩ := pv
        rcases pvs with _ | ⟨v0, rest⟩
        · simp at hl1
        · obtain ⟨vs, heq, -, -⟩ := OnAddPoint_eq t p s c v0 rest pclosed hc hpv hpn hd hon2
          simp only [handle] at h
          rw [heq] at h
          cases h
          exact ⟨_, _, cl, ra, w, ws ++ vs, rfl, by simp [hw], rfl, by simp, by simp, hcl, hclv,
            hra, hpn, hcn, hd⟩
    · -- MouseMoved
      by_cases hon : t.offPlane p = true
      · have : t' = t := by
          simp [handle, OnMouseMoved, hon, pure, Except.pure] at h
          exact h.symm
        subst this
        exact ⟨c, pv, cl, ra, w, ws, hc, hw, hpv, hl1, hl2, hcl, hclv, hra, hpn, hcn, hd⟩
      · have hon2 : t.offPlane p = false := by simpa using hon
        obtain ⟨a, cl1, cl2, -, heq⟩ :=
          OnMouseMoved_eq t p s c pv cl w ws hc hw hpv hl1 hl2 hcl hclv hpn hcn hd hon2
        simp only [handle] at h
        rw [heq] at h
        cases h
        exact ⟨c, _, _, ra, w, ws, hc, hw, rfl, by simp, by simp, rfl, Or.inr ⟨p, rfl⟩, hra,
          hpn, hcn, hd⟩
    · -- Drawing
      obtain ⟨n, hn⟩ := Option.isSome_iff_exists.mp hpn
      obtain ⟨closed, heq⟩ := OnDrawing_eq t p s c cl ra w ws n hc hw hcl hclv hra hn hcn hd
      simp only [handle] at h
      rw [heq] at h
      cases h
      exact ⟨_, pv, _, _, w, ws ++ [⟨p, false⟩], rfl, by simp [ContourModel.AddVertex, hw],
        hpv, hl1, hl2, rfl, Or.inr ⟨p, rfl⟩, rfl, rfl, hcn, hd⟩
    · -- EndDrawing
      obtain ⟨n, hn⟩ := Option.isSome_iff_exists.mp hpn
      have heq := OnEndDrawing_eq t p s c ra n hc hra hn hd
      simp only [handle] at h
      rw [heq] at h
      cases h
      obtain ⟨-, -, k3⟩ := SetControlVertexAt_last c
      obtain ⟨w', ws', hw', hcoord⟩ : ∃ w' ws',
          (c.SetControlVertexAt (c.GetNumberOfVertices - 1)).vertices = w' :: ws' ∧
          w'.Coordinates = w.Coordinates := by
        rcases List.eq_nil_or_concat ws with hws | ⟨init, last, hws⟩
        · have := k3 [] w (by rw [hw, hws]; rfl)
          exact ⟨_, _, this, rfl⟩
        · have := k3 (w :: init) last (by rw [hw, hws, List.concat_eq_append]; rfl)
          exact ⟨w, _, this, rfl⟩
      rw [← hcoord] at hclv
      exact ⟨_, _, cl, _, w', ws', rfl, hw', rfl, by simp, by simp, hcl, hclv, rfl, rfl, hcn,
        hd⟩

theorem TrackingInvariant_of_reachable (t : EditableContourTool Point)
    (h : ReachableFromInit t) : TrackingInvariant t := by
  induction h with
  | init t0 t click senderPlane data hnode hin hrun =>
    exact TrackingInvariant_of_init t0 t click senderPlane data hnode hin hrun
  | step t t' a e _ ha hrun ih => exact TrackingInvariant_step t t' a e ih ha hrun

/-- Claim C23. Preview-contour bound: in every session state reachable from a
successful `InitContour` by any sequence of `AddPoint`, `MouseMoved`, `Drawing` and
`EndDrawing` events, the preview contour is set and holds at most 2 (and at least 1)
vertices; and on a session whose working contour (ending with the vertex `wl`),
preview contour, closure contour and helper nodes are set and whose working data is
bound, a `MouseMoved` event at an on-plane position `p` succeeds and leaves a preview
contour whose last vertex is `p`, whose first vertex is unchanged when it previously
held 1 or 2 vertices, and whose first vertex is the point of the last vertex of the
working contour when it previously held more than 2. -/
theorem preview_contour_bound :
    (∀ t : EditableContourTool Point, ReachableFromInit t →
      ∃ pv, t.m_PreviewContour = some pv ∧ 1 ≤ pv.vertices.length ∧
        pv.vertices.length ≤ 2) ∧
    (∀ (t : EditableContourTool Point) (p : Point) (s : PlaneGeometry Point)
      (c pv cl : ContourModel Point) (init : List (ContourModelVertex Point))
      (wl : ContourModelVertex Point),
      t.m_Contour = some c → c.vertices = init ++ [wl] →
      t.m_PreviewContour = some pv → t.m_ClosureContour = some cl →
      t.m_PreviewContourNode.isSome = true → t.m_ClosureContourNode.isSome = true →
      t.GetWorkingData.isSome = true → t.offPlane p = false →
      ∃ t' pv', t.OnMouseMoved (InteractionEvent.position p s) = Except.ok t' ∧
        t'.m_PreviewContour = some pv' ∧
        pv'.vertices.getLast? = some ⟨p, false⟩ ∧ pv'.vertices.length ≤ 2 ∧
        ((pv.vertices.length = 1 ∨ pv.vertices.length = 2) →
          pv'.vertices.head? = pv.vertices.head?) ∧
        (pv.vertices.length > 2 →
          pv'.vertices.head? = some ⟨wl.Coordinates, false⟩)) := by
  constructor
  · intro t hr
    obtain ⟨c, pv, cl, ra, w, ws, -, -, hpv, hl1, hl2, -⟩ := TrackingInvariant_of_reachable t hr
    exact ⟨pv, hpv, hl1, hl2⟩
  · intro t p s c pv cl init wl hc hw hpv hcl hpn hcn hd hon
    obtain ⟨vs, closed1, hup, hlast, hlen, -, h1, h2, h3⟩ :=
      UpdatePreviewContour_eq t p c pv init wl hc hw hpv hpn hd
    obtain ⟨w, ws, hw2⟩ : ∃ w ws, c.vertices = w :: ws := by
      cases hv : c.vertices with
      | nil => rw [hv] at hw; simp at hw
      | cons w ws => exact ⟨w, ws, rfl⟩
    obtain ⟨x, closed2, hu, -⟩ := UpdateClosureContour_eq
      { t with m_PreviewContour := some { vertices := vs, closed := closed1 } }
      p c cl w ws hc hw2 hcl hcn hd
    refine ⟨{ t with
        m_PreviewContour := some { vertices := vs, closed := closed1 }
        m_ClosureContour := some { vertices := [⟨p, false⟩, x], closed := closed2 } },
      { vertices := vs, closed := closed1 }, ?_, rfl, hlast, hlen, ?_, ?_⟩
    · simp only [OnMouseMoved, hon, Bool.false_eq_true, if_false, bind, Except.bind, hup, hu]
    · intro hlen12
      rcases hv : pv.vertices with _ | ⟨a, _ | ⟨b, _ | ⟨d3, rest⟩⟩⟩
      · rw [hv] at hlen12; simp at hlen12
      · rw [h1 a hv]; rfl
      · rw [h2 a b hv]; rfl
      · rw [hv] at hlen12; simp at hlen12
    · intro hgt
      rw [h3 hgt]; rfl

/-- Claim C24. Closure-contour window: on a session whose closure contour (of any
length) and closure node are set, whose working contour is non-empty and whose working
data is bound, `UpdateClosureContour(e)` succeeds and leaves the closure contour with
exactly 2 vertices whose first vertex is `e`; and in every session state reachable from
a successful `InitContour` by `MouseMoved`, `Drawing` (and `AddPoint`, `EndDrawing`)
events, the closure contour after `UpdateClosureContour(e)`, after a `Drawing` event at
`e` and after an on-plane `MouseMoved` event at `e` is exactly `[e, s]`, where `s` is
the point of the first vertex of the working contour. -/
theorem closure_contour_window :
    (∀ (t : EditableContourTool Point) (e : Point) (c cl : ContourModel Point)
      (w : ContourModelVertex Point) (ws : List (ContourModelVertex Point)),
      t.m_Contour = some c → c.vertices = w :: ws → t.m_ClosureContour = some cl →
      t.m_ClosureContourNode.isSome = true → t.GetWorkingData.isSome = true →
      ∃ t' x closed, t.UpdateClosureContour e = Except.ok t' ∧
        t'.m_ClosureContour = some { vertices := [⟨e, false⟩, x], closed := closed }) ∧
    (∀ (t : EditableContourTool Point), ReachableFromInit t →
      ∃ (c : ContourModel Point) (w : ContourModelVertex Point)
        (ws : List (ContourModelVertex Point)),
        t.m_Contour = some c ∧ c.vertices = w :: ws ∧
        ∀ (e : Point) (s : PlaneGeometry Point),
          (∃ t', t.UpdateClosureContour e = Except.ok t' ∧
            t'.m_ClosureContour.map (fun k => k.vertices)
              = some [⟨e, false⟩, ⟨w.Coordinates, false⟩]) ∧
          (∃ t', t.OnDrawing (InteractionEvent.position e s) = Except.ok t' ∧
            t'.m_ClosureContour.map (fun k => k.vertices)
              = some [⟨e, false⟩, ⟨w.Coordinates, false⟩]) ∧
          (t.offPlane e = false →
            ∃ t', t.OnMouseMoved (InteractionEvent.position e s) = Except.ok t' ∧
              t'.m_ClosureContour.map (fun k => k.vertices)
                = some [⟨e, false⟩, ⟨w.Coordinates, false⟩])) := by
  constructor
  · intro t e c cl w ws hc hw hcl hcn hd
    obtain ⟨x, closed, hu, -⟩ := UpdateClosureContour_eq t e c cl w ws hc hw hcl hcn hd
    exact ⟨_, x, closed, hu, rfl⟩
  · intro t hr
    obtain ⟨c, pv, cl, ra, w, ws, hc, hw, hpv, hl1, hl2, hcl, hclv, hra, hpn, hcn, hd⟩ :=
      TrackingInvariant_of_reachable t hr
    refine ⟨c, w, ws, hc, hw, ?_⟩
    intro e s
    refine ⟨?_, ?_, ?_⟩
    · obtain ⟨x, closed, hu, -, k1, k2⟩ := UpdateClosureContour_eq t e c cl w ws hc hw hcl hcn hd
      have hx : x = ⟨w.Coordinates, false⟩ := by
        rcases hclv with h | ⟨e', h⟩
        · exact k1 _ h
        · exact k2 _ _ h
      subst hx
      exact ⟨_, hu, rfl⟩
    · obtain ⟨n, hn⟩ := Option.isSome_iff_exists.mp hpn
      obtain ⟨closed, heq⟩ := OnDrawing_eq t e s c cl ra w ws n hc hw hcl hclv hra hn hcn hd
      exact ⟨_, heq, rfl⟩
    · intro hon
      obtain ⟨a, cl1, cl2, -, heq⟩ :=
        OnMouseMoved_eq t e s c pv cl w ws hc hw hpv hl1 hl2 hcl hclv hpn hcn hd hon
      exact ⟨_, heq, rfl⟩

/-- Claim C28, evaluated at a failing input. After `InitContour` at `(0,0,0)` and
`AddPoint` at `(1,0,0)` (both on the plane `z = 0`, the session being reachable) the
preview contour holds the single vertex `(1,0,0)`; the next `AddPoint` or `Finish` event
runs `FinalizePreviewContour` on it: after the removal of that vertex the preview is
empty and the index `GetNumberOfVertices() - 1 = -1` is passed to `SetControlVertexAt`. -/
theorem FinalizePreviewContour_single_vertex_preview :
    (idleTool.run [(Action.InitObject, eventAt (0, 0, 0)),
        (Action.AddPoint, eventAt (1, 0, 0))]).toOption.map
      (fun t => (t.offPlane (1, 1, 0),
        t.m_PreviewContour.map (fun c => c.vertices),
        t.m_PreviewContour.map (fun c => (c.RemoveVertexAt 0).vertices),
        t.m_PreviewContour.map (fun c => (c.RemoveVertexAt 0).GetNumberOfVertices - 1)))
      = some (false, some [⟨(1, 0, 0), false⟩], some [], some (-1)) := by
  norm_num [run, handle, OnInitContour, OnAddPoint, idleTool, idle, eventAt, planeZ0,
    offPlane, sqrteps, FinalizePreviewContour, InitializePreviewContour, CreateNewContour,
    GetWorkingData, deref, IsPositionEventInsideImageRegion, wholeSpace, PrepareInitContour,
    ContourModel.New, ContourModel.AddVertex, ContourModel.RemoveVertexAt,
    ContourModel.SetControlVertexAt, ContourModel.GetNumberOfVertices, ContourModel.Concatenate,
    bind, Except.bind, pure, Except.pure, Except.toOption]

end EditableContourTool

/-! ## SemanticRelations: theorems -/

namespace SemanticRelations

variable {Node : Type}

theorem InstanceExists_iff (r : SemanticRelations Node) (caseID : SemanticTypes.CaseID)
    (lesion : SemanticTypes.Lesion) :
    r.InstanceExists caseID lesion = true ↔
      ∃ l ∈ r.m_RelationStorage.GetAllLesionsOfCase caseID, l.UID = lesion.UID := by
  unfold InstanceExists GetAllLesionsOfCase
  dsimp only
  cases h : (r.m_RelationStorage.GetAllLesionsOfCase caseID).find?
      (fun currentLesion => currentLesion.UID == lesion.UID) with
  | none =>
    simp only [Bool.false_eq_true, false_iff, not_exists, not_and]
    intro l hl huid
    have := List.find?_eq_none.mp h l hl
    simp [huid] at this
  | some x =>
    simp only [true_iff]
    refine ⟨x, List.mem_of_find?_eq_some h, ?_⟩
    have := List.find?_some h
    simpa using this

theorem GetRepresentedLesion_node (r : SemanticRelations Node) (node : Node)
    (uid : SemanticTypes.ID) :
    (∃ l, r.GetRepresentedLesion (some node) = Except.ok l ∧ l.UID = uid) ↔
      ((r.m_RelationStorage.GetRepresentedLesion (r.m_RelationStorage.GetCaseIDFromData node)
          (r.m_RelationStorage.GetIDFromData node)).UID = uid ∧ uid.isEmpty = false) := by
  unfold GetRepresentedLesion
  dsimp only
  by_cases hE : (r.m_RelationStorage.GetRepresentedLesion
      (r.m_RelationStorage.GetCaseIDFromData node)
      (r.m_RelationStorage.GetIDFromData node)).UID.isEmpty = true
  · rw [if_pos hE]
    constructor
    · rintro ⟨l, hl, -⟩
      cases hl
    · rintro ⟨h1, h2⟩
      rw [h1, h2] at hE
      cases hE
  · rw [if_neg hE]
    constructor
    · rintro ⟨l, hl, hu⟩
      cases hl
      exact ⟨hu, by rw [← hu]; simpa using hE⟩
    · rintro ⟨h1, -⟩
      exact ⟨_, rfl, h1⟩

theorem kept_iff (r : SemanticRelations Node) (lesion : SemanticTypes.Lesion)
    (segmentation : Option Node) :
    (!(match r.GetRepresentedLesion segmentation with
        | Except.ok representedLesion => lesion.UID != representedLesion.UID
        | Except.error _ => true)) = true ↔
      ∃ l, r.GetRepresentedLesion segmentation = Except.ok l ∧ l.UID = lesion.UID := by
  cases h : r.GetRepresentedLesion segmentation with
  | error e => simp
  | ok l =>
    simp only [Bool.not_eq_true', bne_eq_false_iff_eq, Except.ok.injEq, exists_eq_left']
    exact eq_comm

/-- Claim C30. `RemoveLesion(caseID, lesion)` issues the call
`m_RelationStorage->RemoveLesion(caseID, lesion)`, and returns normally, if and only if
a lesion with the same UID exists in the case and no segmentation of the case
represents a lesion with that UID (`GetRepresentedLesion` of the segmentation node
returns a lesion with that UID); in every other case it throws
`SemanticRelationException` and issues no modifying call to the relation storage. A
non-null segmentation node represents a lesion with the UID exactly when the storage
answers for the case ID and ID of the node with a lesion of that UID, the UID being
non-empty. -/
theorem RemoveLesion_spec (r : SemanticRelations Node) (caseID : SemanticTypes.CaseID)
    (lesion : SemanticTypes.Lesion) :
    (((∃ l ∈ r.m_RelationStorage.GetAllLesionsOfCase caseID, l.UID = lesion.UID) ∧
      (∀ seg ∈ r.m_RelationStorage.GetAllSegmentationsOfCase caseID,
        ¬ ∃ l, r.GetRepresentedLesion seg = Except.ok l ∧ l.UID = lesion.UID)) →
      r.RemoveLesion caseID lesion = Except.ok
        { r with m_RelationStorage :=
          { r.m_RelationStorage with modifyingCalls :=
              r.m_RelationStorage.modifyingCalls ++
                [RelationStorageCall.RemoveLesion caseID lesion] } }) ∧
    (¬ ((∃ l ∈ r.m_RelationStorage.GetAllLesionsOfCase caseID, l.UID = lesion.UID) ∧
      (∀ seg ∈ r.m_RelationStorage.GetAllSegmentationsOfCase caseID,
        ¬ ∃ l, r.GetRepresentedLesion seg = Except.ok l ∧ l.UID = lesion.UID)) →
      r.RemoveLesion caseID lesion = Except.error SemanticRelationException.thrown) ∧
    (∀ (node : Node) (uid : SemanticTypes.ID),
      (∃ l, r.GetRepresentedLesion (some node) = Except.ok l ∧ l.UID = uid) ↔
        ((r.m_RelationStorage.GetRepresentedLesion
            (r.m_RelationStorage.GetCaseIDFromData node)
            (r.m_RelationStorage.GetIDFromData node)).UID = uid ∧ uid.isEmpty = false)) := by
  have hempty : (List.filter (fun segmentation =>
        !(match r.GetRepresentedLesion segmentation with
          | Except.ok representedLesion => lesion.UID != representedLesion.UID
          | Except.error _ => true))
        (r.m_RelationStorage.GetAllSegmentationsOfCase caseID)).isEmpty = true ↔
      (∀ seg ∈ r.m_RelationStorage.GetAllSegmentationsOfCase caseID,
        ¬ ∃ l, r.GetRepresentedLesion seg = Except.ok l ∧ l.UID = lesion.UID) := by
    rw [List.isEmpty_iff, List.filter_eq_nil_iff]
    constructor
    · intro h seg hseg hex
      exact h seg hseg ((kept_iff r lesion seg).mpr hex)
    · intro h seg hseg hk
      exact h seg hseg ((kept_iff r lesion seg).mp hk)
  refine ⟨?_, ?_, GetRepresentedLesion_node r⟩
  · rintro ⟨hex, hno⟩
    have hI := (InstanceExists_iff r caseID lesion).mpr hex
    simp only [RemoveLesion, GetAllSegmentationsOfLesion, hI, if_true, bind, Except.bind, pure,
      Except.pure, hempty.mpr hno]
  · intro hnot
    by_cases hI : r.InstanceExists caseID lesion = true
    · have hex := (InstanceExists_iff r caseID lesion).mp hI
      have hne : ¬ ((List.filter (fun segmentation =>
          !(match r.GetRepresentedLesion segmentation with
            | Except.ok representedLesion => lesion.UID != representedLesion.UID
            | Except.error _ => true))
          (r.m_RelationStorage.GetAllSegmentationsOfCase caseID)).isEmpty = true) :=
        fun h => hnot ⟨hex, hempty.mp h⟩
      simp only [RemoveLesion, GetAllSegmentationsOfLesion, hI, if_true, bind, Except.bind,
        pure, Except.pure, hne, if_false]
      rfl
    · simp only [RemoveLesion, hI, if_false]
      rfl

end SemanticRelations

/-! ## ExtractSliceFilter: theorems -/

namespace ExtractSliceFilter

variable {S : Type} [LinearOrderedField S] [FloorRing S]

/-- The weights of each interpolation kernel sum to one. -/
theorem kernel_weights_sum (mode : ResliceInterpolation) (x : S) :
    ((kernel mode x).map (fun a => a.2)).sum = 1 := by
  cases mode
  · simp [kernel]
  · simp [kernel]
  · simp only [kernel, List.map_cons, List.map_nil, List.sum_cons, List.sum_nil]
    ring

/-- Interpolating a volume of constant intensity yields that intensity. -/
theorem interpolate_constant (mode : ResliceInterpolation) (volume : Volume S)
    (p : S × S × S) (c : S) (hc : ∀ x y z, volume.voxel x y z = c) :
    interpolate mode volume p = c := by
  have hinner : ∀ (A : List (Int × S)) (r : S),
      (A.map (fun a => r * a.2 * c)).sum = r * c * (A.map (fun a => a.2)).sum := by
    intro A r
    induction A with
    | nil => simp
    | cons a l ih =>
      simp only [List.map_cons, List.sum_cons, ih]
      ring
  unfold interpolate
  simp only [hc, hinner, kernel_weights_sum, mul_one]
  have h3 : ∀ (A : List (Int × S)), (A.map (fun a => a.2 * c)).sum
      = c * (A.map (fun a => a.2)).sum := by
    intro A
    have := hinner A 1
    simpa using this
  simp only [h3, kernel_weights_sum, mul_one]

/-- Claim C21. Resampling a plane (axis-aligned or not) through a volume of constant
intensity `c` with the background level set to `-1000`, for each interpolation mode
(nearest, linear, cubic): `GenerateData` produces an output in which every pixel whose
sample position lies inside the volume equals `c` and every pixel whose sample position
lies outside the volume equals `-1000`. -/
theorem GenerateData_constant_volume (f : ExtractSliceFilter S) (volume : Volume S)
    (plane : PlaneDescriptor S) (mode : ResliceInterpolation) (c : S)
    (hc : ∀ x y z, volume.voxel x y z = c) :
    ∃ output,
      (((f.SetWorldGeometry (some plane)).SetBackgroundLevel (-1000)).SetInterpolationMode
        mode).GenerateData volume = some output ∧
      ∀ i j : Nat,
        (IsInsideVolume volume (samplePosition plane i j) = true → output i j = c) ∧
        (IsInsideVolume volume (samplePosition plane i j) = false → output i j = -1000) := by
  refine ⟨_, rfl, ?_⟩
  intro i j
  constructor
  · intro hin
    simp only [resample, hin, if_true]
    exact interpolate_constant _ volume _ c hc
  · intro hout
    simp only [resample, hout, Bool.false_eq_true, if_false, SetInterpolationMode,
      SetBackgroundLevel]

/-- Claim C21 applied to the `4 x 4 x 4` volume of intensity `5`, the axis-aligned plane
`z = 3/2` and cubic interpolation: the output pixel `(3, 1)`, sampled at
`(1/2, 1, 3/2)`, equals `5`, and the output pixel `(0, 0)`, sampled at `(-1, 1/2, 3/2)`,
equals `-1000`. -/
theorem GenerateData_constant_volume_witness :
    ∃ output,
      (((Examples.sliceFilter.SetWorldGeometry (some Examples.axialPlane)).SetBackgroundLevel
        (-1000)).SetInterpolationMode ResliceInterpolation.RESLICE_CUBIC).GenerateData
          Examples.constantVolume = some output ∧
      output 3 1 = 5 ∧ output 0 0 = -1000 := by
  obtain ⟨output, hgen, hpix⟩ := GenerateData_constant_volume Examples.sliceFilter
    Examples.constantVolume Examples.axialPlane ResliceInterpolation.RESLICE_CUBIC 5
    (fun _ _ _ => rfl)
  refine ⟨output, hgen, (hpix 3 1).1 ?_, (hpix 0 0).2 ?_⟩
  · norm_num [IsInsideVolume, samplePosition, Examples.constantVolume, Examples.axialPlane]
  · norm_num [IsInsideVolume, samplePosition, Examples.constantVolume, Examples.axialPlane]

end ExtractSliceFilter

/-! ## Evaluations on reachable sessions and on the example storage -/

namespace EditableContourTool
open Examples

/-- Claim C23 applied to the tool after `InitContour` at `(0,0,0)`: its preview contour
is set and holds between 1 and 2 vertices. -/
theorem preview_contour_bound_witness :
    ∃ pv, initialisedTool.m_PreviewContour = some pv ∧ 1 ≤ pv.vertices.length ∧
      pv.vertices.length ≤ 2 :=
  (@preview_contour_bound Point3).1 initialisedTool
    (ReachableFromInit.init idleTool initialisedTool (0, 0, 0) planeZ0 (some wholeSpace)
      rfl rfl rfl)

/-- Claim C24 applied to the tool after `InitContour` at `(0,0,0)`: its working contour
starts with a vertex `w`, and `UpdateClosureContour(e)` leaves the closure contour
`[e, w]`. -/
theorem closure_contour_window_witness :
    ∃ (c : ContourModel Point3) (w : ContourModelVertex Point3)
      (ws : List (ContourModelVertex Point3)),
      initialisedTool.m_Contour = some c ∧ c.vertices = w :: ws ∧
      ∀ (e : Point3),
        ∃ t', initialisedTool.UpdateClosureContour e = Except.ok t' ∧
          t'.m_ClosureContour.map (fun k => k.vertices)
            = some [⟨e, false⟩, ⟨w.Coordinates, false⟩] := by
  obtain ⟨c, w, ws, hc, hw, h⟩ := (@closure_contour_window Point3).2 initialisedTool
    (ReachableFromInit.init idleTool initialisedTool (0, 0, 0) planeZ0 (some wholeSpace)
      rfl rfl rfl)
  exact ⟨c, w, ws, hc, hw, fun e => (h e planeZ0).1⟩

end EditableContourTool

namespace SemanticRelations
open Examples

/-- Claim C30 applied to the example storage: the lesion `L1` exists in `case1` and the
only segmentation of the case represents `L2`, so `RemoveLesion` issues the call
`RemoveLesion(case1, L1)` to the storage. -/
theorem RemoveLesion_spec_witness :
    exampleRelations.RemoveLesion "case1" lesionL1 = Except.ok
      { exampleRelations with m_RelationStorage :=
        { exampleRelations.m_RelationStorage with modifyingCalls :=
            exampleRelations.m_RelationStorage.modifyingCalls ++
              [RelationStorageCall.RemoveLesion "case1" lesionL1] } } :=
  (RemoveLesion_spec exampleRelations "case1" lesionL1).1
    (by
      constructor
      · exact ⟨lesionL1, by simp [exampleRelations, exampleStorage], rfl⟩
      · intro seg hseg
        simp [exampleRelations, exampleStorage] at hseg
        subst hseg
        have hrep : exampleRelations.GetRepresentedLesion (some "seg1") = Except.ok lesionL2 :=
          rfl
        rintro ⟨l, hl, huid⟩
        rw [hrep] at hl
        cases hl
        exact absurd huid (by decide))

end SemanticRelations

end mitk

/-! ## SemanticTypes: theorems -/

namespace SemanticTypes

theorem tupleLt_iff (a b : Int × Int × Int) :
    tupleLt a b = true ↔
      (a.1 < b.1 ∨ (a.1 = b.1 ∧ (a.2.1 < b.2.1 ∨ (a.2.1 = b.2.1 ∧ a.2.2 < b.2.2)))) := by
  simp only [tupleLt, Bool.or_eq_true, Bool.and_eq_true, Bool.not_eq_true', decide_eq_true_eq,
    decide_eq_false_iff_not]
  omega

/-- Claim C29. `Date` comparison is a total order on `(year, month, day)` that ignores
the UID: for all dates `a`, `b`, `c`, `a < b` iff `(a.year, a.month, a.day)` is
lexicographically smaller than `(b.year, b.month, b.day)`; exactly one of `a < b`,
`a == b`, `a > b` holds; `a == b` iff year, month and day are pairwise equal (whatever
the UIDs); `a <= b` iff not `a > b`; `a >= b` iff not `a < b`; `a > b` iff `b < a`; `<` is
irreflexive and transitive; and for control points `p < q` iff
`p.startPoint < q.startPoint`. -/
theorem Date_comparison (a b c : Date) :
    (a.lt b = true ↔
      (a.year < b.year ∨ (a.year = b.year ∧
        (a.month < b.month ∨ (a.month = b.month ∧ a.day < b.day))))) ∧
    ((a.lt b = true ∧ a.eq b = false ∧ a.gt b = false) ∨
     (a.lt b = false ∧ a.eq b = true ∧ a.gt b = false) ∨
     (a.lt b = false ∧ a.eq b = false ∧ a.gt b = true)) ∧
    (a.eq b = true ↔ (a.year = b.year ∧ a.month = b.month ∧ a.day = b.day)) ∧
    (a.le b = true ↔ ¬ (a.gt b = true)) ∧
    (a.ge b = true ↔ ¬ (a.lt b = true)) ∧
    (a.gt b = true ↔ b.lt a = true) ∧
    a.lt a = false ∧
    (a.lt b = true → b.lt c = true → a.lt c = true) ∧
    (∀ p q : ControlPoint, p.lt q = true ↔ p.startPoint.lt q.startPoint = true) := by
  have hlt : ∀ x y : Date, x.lt y = true ↔
      (x.year < y.year ∨ (x.year = y.year ∧
        (x.month < y.month ∨ (x.month = y.month ∧ x.day < y.day)))) := by
    intro x y
    simp only [Date.lt, Date.tie, tupleLt_iff]
  have hgt : ∀ x y : Date, x.gt y = y.lt x := fun _ _ => rfl
  have hltf : ∀ x y : Date, x.lt y = false ↔ ¬ (x.lt y = true) := by
    intro x y; simp
  have heq : ∀ x y : Date, x.eq y = true ↔
      (x.year = y.year ∧ x.month = y.month ∧ x.day = y.day) := by
    intro x y
    simp only [Date.eq, hgt, Bool.and_eq_true, Bool.not_eq_true', hltf, hlt]
    omega
  have heqf : ∀ x y : Date, x.eq y = false ↔ ¬ (x.eq y = true) := by
    intro x y; simp
  refine ⟨hlt a b, ?_, heq a b, ?_, ?_, ?_, ?_, ?_, ?_⟩
  · simp only [hgt, hltf, heqf, heq, hlt]
    omega
  · simp only [Date.le, Bool.or_eq_true, hgt, heq, hlt]
    omega
  · simp only [Date.ge, Bool.or_eq_true, hgt, heq, hlt]
    omega
  · rw [hgt]
  · rw [hltf, hlt]
    omega
  · simp only [hlt]
    omega
  · intro p q
    rfl

end SemanticTypes

namespace SemanticTypes

/-- Claim C29 applied to the dates 2019-01-31, 2019-02-01 and 2020-01-01: the first
precedes the third. -/
theorem Date_comparison_witness :
    mitk.Examples.dateJanuary.lt mitk.Examples.dateNextYear = true :=
  (Date_comparison mitk.Examples.dateJanuary mitk.Examples.dateFebruary
    mitk.Examples.dateNextYear).2.2.2.2.2.2.2.1 (by decide) (by decide)

end SemanticTypes
